import Mathlib

/-!
# Namespace broker (`cli/main.c`): shallow embedding and verified properties

The broker is a C program made of system calls on pipes, files and
namespaces.  It is embedded as follows.

* A C string is the list of its bytes (`List Nat`).  A buffer is read as a
  string up to its first NUL byte; the end of the list counts as a NUL.
* The process globals of `main.c` (`children`, `children_number`,
  `child_read_fd`, `child_write_fd`, `child_ns_path`) are fields of `World`.
* The operating system is the rest of `World`: the bytes that will arrive on
  each pipe, the `stat` view of the file system, the lines of `/proc/mounts`,
  and an oracle `os` that decides, for the system call number `t` of the run,
  whether it fails (and what `fork` returns).  Every system call is appended
  to `World.trace` with its result.
* A function that can leave through `exit` or spin forever returns an
  `Outcome`; the others return their C result paired with the new world.

Assumptions on the system, all visible in the `sys_*` definitions:

* a `write` that succeeds writes the whole buffer and returns its length (so
  an empty `write` returns 0); a `write` or `read` on a negative descriptor
  fails;
* a `read` returns the bytes pending on the pipe, at most `count` of them, and
  0 once the pending bytes are used up (the peer has closed its end);
* `stat` answers from a fixed view of the file system;
* after `fork` returns 0 the run is the run of the new child, which starts
  with a copy of the globals;
* the log calls (`errorf`, `debugf`) are left out.
-/

namespace Broker

/-! ## Constants -/

/-- Constant `PATH_MAX` of `linux/limits.h`. -/
def PATH_MAX : Nat := 4096

/-- Constant `NAME_MAX` of `linux/limits.h`. -/
def NAME_MAX : Nat := 255

/-- Capacity of the children table. -/
def CHILD_MAX : Nat := 2

def cmd_new_ns : Nat := 1
def cmd_remove_ns : Nat := 2
def cmd_join_ns : Nat := 3
def cmd_persistent_ns : Nat := 4
def cmd_get_fs_info : Nat := 5
def cmd_close_channels : Nat := 6

def res_success : Nat := 0
def res_failure : Nat := 1

/-- Flag `CLONE_NEWNS` of `sched.h`. -/
def CLONE_NEWNS : Nat := 0x00020000
/-- Flag `CLONE_NEWUTS` of `sched.h`. -/
def CLONE_NEWUTS : Nat := 0x04000000
/-- Flag `CLONE_NEWIPC` of `sched.h`. -/
def CLONE_NEWIPC : Nat := 0x08000000

def MS_BIND : Nat := 4096
def MS_REC : Nat := 16384
def MS_SLAVE : Nat := 524288

def S_IFMT : Nat := 0o170000
def S_IFDIR : Nat := 0o040000
def S_IFREG : Nat := 0o100000

/-! ## C strings -/

/-- Bytes of a string literal. -/
def bytes (s : String) : List Nat := s.toList.map Char.toNat

/-- The C string held by a buffer: the bytes before the first NUL. -/
def cstr (buf : List Nat) : List Nat := buf.takeWhile (fun b => b != 0)

/-- C `strlen`. -/
def strlen (buf : List Nat) : Nat := (cstr buf).length

/-- C `strncmp(s, t, n)`: compares at most `n` bytes and stops at a NUL. -/
def strncmp : List Nat → List Nat → Nat → Int
  | _, _, 0 => 0
  | s, t, n + 1 =>
    if s.headD 0 ≠ t.headD 0 then (s.headD 0 : Int) - (t.headD 0 : Int)
    else if s.headD 0 = 0 then 0
    else strncmp s.tail t.tail n

/-- Result of `snprintf(dst, size, fmt, ...)` as a string, `out` being the
fully formatted text: at most `size - 1` bytes are kept. -/
def snprintf (size : Nat) (out : List Nat) : List Nat := out.take (size - 1)

/-- Result of `strncpy(dst, src, n)` read back as a string. -/
def strncpy (src : List Nat) (n : Nat) : List Nat := (cstr src).take n

/-- Conversion of an unsigned 32-bit value to `int`. -/
def to_int32 (n : Nat) : Int :=
  if n % 2 ^ 32 < 2 ^ 31 then ((n % 2 ^ 32 : Nat) : Int) else ((n % 2 ^ 32 : Nat) : Int) - 2 ^ 32

/-- The four bytes of an `int` in host (little-endian) order. -/
def le32 (size : Int) : List Nat :=
  let u := (size % 2 ^ 32).toNat
  [u % 256, u / 256 % 256, u / 65536 % 256, u / 16777216 % 256]

/-- The `int` held by four bytes in host (little-endian) order. -/
def de32 (b : List Nat) : Int :=
  to_int32 (b.getD 0 0 % 256 + 256 * (b.getD 1 0 % 256) + 65536 * (b.getD 2 0 % 256)
    + 16777216 * (b.getD 3 0 % 256))

/-- Decimal text of an `int` (`%d`). -/
def itoa (n : Int) : List Nat := bytes (toString n)

/-! ## Processes and the operating system -/

/-- The fields of `struct stat` the broker looks at. -/
structure Stat where
  st_dev : Nat
  st_mode : Nat
deriving DecidableEq, Repr

/-- Entry of the children table (`struct child`). -/
structure Child where
  pid : Int
  read_fd : Int
  write_fd : Int
deriving DecidableEq, Repr

/-- Filesystem record (`struct fs_info`), each field read as a string. -/
structure fs_info where
  device : List Nat
  mount_point : List Nat
  type : List Nat
  data : List Nat
deriving DecidableEq, Repr

/-- Entry of `supported_namespaces`; `hook` tells whether a hook is set. -/
structure Namespace where
  type : Nat
  name : List Nat
  hook : Bool
deriving DecidableEq, Repr

/-- System calls made by the broker, with their arguments. -/
inductive Syscall where
  | write (fd : Int) (buf : List Nat)
  | read (fd : Int) (count : Nat)
  | close (fd : Int)
  | pipe
  | fork
  | stat (path : List Nat)
  | open (path : List Nat)
  | creat (path : List Nat)
  | fopen (path : List Nat)
  | fclose
  | setns (fd : Int) (nstype : Nat)
  | unshare (flags : Nat)
  | mount (source target : List Nat) (flags : Nat)
  | umount (target : List Nat)
  | remove (path : List Nat)
  | kill (pid : Int)
  | waitpid (pid : Int)
deriving DecidableEq, Repr

/-- One system call of the run together with its return value. -/
structure Event where
  call : Syscall
  ret : Int
deriving DecidableEq, Repr

/-- State of one process and of the system around it. -/
structure World where
  /-- Table `children[CHILD_MAX]`. -/
  children : List Child
  /-- Counter `children_number`. -/
  children_number : Nat
  /-- Descriptor `child_read_fd`. -/
  child_read_fd : Int
  /-- Descriptor `child_write_fd`. -/
  child_write_fd : Int
  /-- Buffer `child_ns_path`, read as a string. -/
  child_ns_path : List Nat
  /-- Bytes still to be read from each descriptor; at their end the peer has closed. -/
  pipes : Int → List Nat
  /-- What `stat` sees at each path. -/
  files : List Nat → Option Stat
  /-- Lines of `/proc/mounts` as `getline` returns them. -/
  proc_mounts : List (List Nat)
  /-- Result hint of the system call issued as call number `t`: negative means failure,
  and for `fork` the value is the return value. -/
  os : Nat → Syscall → Int
  /-- Content of uninitialised stack memory. -/
  uninit : List Nat
  /-- Next descriptor number handed out by `pipe` and `open`. -/
  next_fd : Int
  /-- System calls made so far, oldest first. -/
  trace : List Event

/-- How a call that may not come back ends. -/
inductive Outcome (α : Type) where
  /-- The function returns `a`. -/
  | ret (a : α) (w : World)
  /-- The process terminates with `exit(code)`. -/
  | exit (code : Int) (w : World)
  /-- The function never returns. -/
  | hang (w : World)

/-- Number of system calls made so far. -/
def World.now (w : World) : Nat := w.trace.length

/-- Append a system call and its result to the trace. -/
def World.log (w : World) (c : Syscall) (r : Int) : World :=
  { w with trace := w.trace ++ [⟨c, r⟩] }

/-- A system call without data result: `-1` when the oracle says so, else `0`. -/
def sys_call (c : Syscall) (w : World) : Int × World :=
  if w.os w.now c < 0 then (-1, w.log c (-1)) else (0, w.log c 0)

/-- The call `write(fd, buf, |buf|)`: the number of bytes written, or `-1`. -/
def sys_write (fd : Int) (buf : List Nat) (w : World) : Int × World :=
  if fd < 0 ∨ w.os w.now (.write fd buf) < 0 then (-1, w.log (.write fd buf) (-1))
  else ((buf.length : Int), w.log (.write fd buf) buf.length)

/-- The call `read(fd, _, count)`: the return value and the bytes received. -/
def sys_read (fd : Int) (count : Nat) (w : World) : Int × List Nat × World :=
  if fd < 0 ∨ w.os w.now (.read fd count) < 0 then (-1, [], w.log (.read fd count) (-1))
  else
    let got := (w.pipes fd).take count
    ((got.length : Int), got,
      { w.log (.read fd count) got.length with
        pipes := fun f => if f = fd then (w.pipes fd).drop count else w.pipes f })

/-- The call `stat(path, &st)`. -/
def sys_stat (path : List Nat) (w : World) : Option Stat × World :=
  match w.files path with
  | none => (none, w.log (.stat path) (-1))
  | some st => (some st, w.log (.stat path) 0)

/-- A call returning a fresh descriptor (`open`), or `-1`. -/
def sys_open (c : Syscall) (w : World) : Int × World :=
  if w.os w.now c < 0 then (-1, w.log c (-1))
  else (w.next_fd, { w.log c w.next_fd with next_fd := w.next_fd + 1 })

/-- The call `pipe(fds)`: the return value and the two descriptors. -/
def sys_pipe (w : World) : Int × (Int × Int) × World :=
  if w.os w.now .pipe < 0 then (-1, (-1, -1), w.log .pipe (-1))
  else (0, (w.next_fd, w.next_fd + 1), { w.log .pipe 0 with next_fd := w.next_fd + 2 })

/-- The call `fork()`: `-1`, `0` (the run goes on in the child) or the child pid. -/
def sys_fork (w : World) : Int × World :=
  if w.os w.now .fork < 0 then (-1, w.log .fork (-1))
  else (w.os w.now .fork, w.log .fork (w.os w.now .fork))

/-- The macro `close_fd(fd)`: closes `fd` when it is positive; the new value of `fd`. -/
def close_fd (fd : Int) (w : World) : Int × World :=
  if fd > 0 then (-1, w.log (.close fd) 0) else (fd, w)

/-- Bytes written with success to `fd` during the run, in order. -/
def written (fd : Int) (tr : List Event) : List Nat :=
  (tr.map (fun e => match e.call with
    | .write f buf => if f = fd ∧ 0 ≤ e.ret then buf else []
    | _ => [])).flatten

/-- The table `supported_namespaces`. -/
def supported_namespaces : List Namespace :=
  [ ⟨CLONE_NEWIPC, bytes "ipc", false⟩,
    ⟨CLONE_NEWUTS, bytes "uts", false⟩,
    ⟨CLONE_NEWNS, bytes "mnt", true⟩ ]

/-- Sequencing of a call that may not return with what follows it. -/
def Outcome.bind {α β : Type} (o : Outcome α) (f : α → World → Outcome β) : Outcome β :=
  match o with
  | .ret a w => f a w
  | .exit c w => .exit c w
  | .hang w => .hang w

/-- Conversion of an `int` byte count to `size_t`. -/
def to_size_t (n : Int) : Nat := (n % 2 ^ 64).toNat

/-! ## Child side -/

/-- Function `spawn_save_child`: the pid of the new child, `-1` on error, `0` in the child. -/
def spawn_save_child (w : World) : Int × World :=
  if w.children_number ≥ CHILD_MAX then (-1, w)
  else
    let p1 := sys_pipe w
    let rwFds := p1.2.1
    if p1.1 = -1 then (-1, p1.2.2)
    else
      let p2 := sys_pipe p1.2.2
      let wrFds := p2.2.1
      if p2.1 = -1 then
        (-1, (close_fd rwFds.2 (close_fd rwFds.1 p2.2.2).2).2)
      else
        let f := sys_fork p2.2.2
        let pid := f.1
        if pid = -1 then
          (-1, (close_fd wrFds.2 (close_fd wrFds.1
            (close_fd rwFds.2 (close_fd rwFds.1 f.2).2).2).2).2)
        else if pid ≠ 0 then
          -- parent: close the child's ends and save the child
          let w1 := (close_fd rwFds.2 (close_fd wrFds.1 f.2).2).2
          (pid, { w1 with
            children := w1.children.set w1.children_number ⟨pid, rwFds.1, wrFds.2⟩
            children_number := w1.children_number + 1 })
        else
          -- child: close every fd of the table, the old channel and the parent's ends
          let w1 := w.children.foldl
            (fun v c => (close_fd c.write_fd (close_fd c.read_fd v).2).2) f.2
          let w2 := { w1 with
            children := w.children.map (fun c =>
              ⟨0, (close_fd c.read_fd w).1, (close_fd c.write_fd w).1⟩) }
          let w3 := (close_fd w2.child_write_fd (close_fd w2.child_read_fd w2).2).2
          let w4 := (close_fd wrFds.2 (close_fd rwFds.1 w3).2).2
          (0, { w4 with child_read_fd := wrFds.1, child_write_fd := rwFds.2 })

/-- Function `child_send_cmd`: `0` on success, `-1` on failure.  `data = none` is a
NULL pointer; otherwise `data` is the memory at the pointer. -/
def child_send_cmd (cmd : Nat) (data : Option (List Nat)) (size : Int) (w : World) :
    Int × World :=
  let r1 := sys_write w.child_write_fd [cmd] w
  if r1.1 ≤ 0 then (-1, r1.2)
  else
    let sent : Bool × World :=
      match data with
      | none => (true, r1.2)
      | some d =>
        let r2 := sys_write r1.2.child_write_fd (le32 size) r1.2
        if r2.1 ≤ 0 then (false, r2.2)
        else
          let r3 := sys_write r2.2.child_write_fd (d.take (to_size_t size)) r2.2
          if r3.1 ≤ 0 then (false, r3.2) else (true, r3.2)
    if sent.1 = false then (-1, sent.2)
    else
      let r4 := sys_read sent.2.child_read_fd 1 sent.2
      if r4.1 ≤ 0 then (-1, r4.2.2)
      else if r4.2.1.headD 0 = res_failure then (-1, r4.2.2)
      else (0, r4.2.2)

/-- Loop of `child_join_namespaces` over `supported_namespaces`: the mask joined so far,
or `none` when the function returns `-1` from inside the loop. -/
def child_join_loop : List Namespace → List Nat → Nat → World → Option Nat × World
  | [], _, ns_joined, w => (some ns_joined, w)
  | ns :: rest, namespaces_path, ns_joined, w =>
    let ns_path := snprintf PATH_MAX (namespaces_path ++ bytes "/" ++ ns.name)
    let s := sys_stat ns_path w
    match s.1 with
    | none => child_join_loop rest namespaces_path ns_joined s.2
    | some _ =>
      let o := sys_open (.open ns_path) s.2
      if o.1 = -1 then (none, o.2)
      else
        let j := sys_call (.setns o.1 ns.type) o.2
        if j.1 = -1 then (none, (close_fd o.1 j.2).2)
        else child_join_loop rest namespaces_path (ns_joined ||| ns.type) (close_fd o.1 j.2).2

/-- Function `child_join_namespaces`: the bit mask of the namespaces joined, `-1` on failure. -/
def child_join_namespaces (namespaces_path : List Nat) (w : World) : Int × World :=
  let l := child_join_loop supported_namespaces (cstr namespaces_path) 0 w
  match l.1 with
  | none => (-1, l.2)
  | some ns_joined =>
    ((ns_joined : Int), { l.2 with child_ns_path := snprintf PATH_MAX (cstr namespaces_path) })

/-- Function `mnt_slave`: remount `/` as a recursive slave; `0` on success, `1` on failure. -/
def mnt_slave (w : World) : Int × World :=
  let m := sys_call (.mount (bytes "none") (bytes "/") (MS_REC ||| MS_SLAVE)) w
  if m.1 = -1 then (1, m.2) else (0, m.2)

/-- Function `child_new_namespaces`: `0` on success, `-1` on failure. -/
def child_new_namespaces (namespaces_path : List Nat) (len : Int) (w : World) : Int × World :=
  let p := cstr namespaces_path
  let m1 := sys_call (.mount p p MS_BIND) w
  if m1.1 ≠ 0 then (-1, m1.2)
  else
    let m2 := sys_call (.mount (bytes "none") p (MS_REC ||| MS_SLAVE)) m1.2
    if m2.1 ≠ 0 then (-1, m2.2)
    else
      let j := child_join_namespaces namespaces_path m2.2
      if j.1 = -1 then (-1, j.2)
      else
        let unshare_flags := supported_namespaces.foldl
          (fun flags ns => if j.1.toNat &&& ns.type ≠ 0 then flags else flags ||| ns.type) 0
        if unshare_flags = 0 then (0, j.2)
        else
          let u := sys_call (.unshare unshare_flags) j.2
          if u.1 = -1 then (-1, u.2)
          else
            let c := child_send_cmd cmd_persistent_ns (some namespaces_path) len u.2
            if c.1 = -1 then (-1, c.2)
            else
              (0, supported_namespaces.foldl
                (fun v ns => if ns.hook then (mnt_slave v).2 else v) c.2)

/-- Function `remove_namespaces`, called from the Go side. -/
def remove_namespaces (namespaces_path : List Nat) (len : Nat) (w : World) : Int × World :=
  child_send_cmd cmd_remove_ns (some namespaces_path) (to_int32 len) w

/-- Function `new_namespaces`, called from the Go side. -/
def new_namespaces (namespaces_path : List Nat) (len : Nat) (w : World) : Int × World :=
  if strncmp namespaces_path w.child_ns_path len = 0 then (1, w)
  else child_send_cmd cmd_new_ns (some namespaces_path) (to_int32 len) w

/-- Function `join_namespaces`, called from the Go side. -/
def join_namespaces (namespaces_path : List Nat) (len : Nat) (w : World) : Int × World :=
  if strncmp namespaces_path w.child_ns_path len = 0 then (1, w)
  else child_send_cmd cmd_join_ns (some namespaces_path) (to_int32 len) w

/-- Function `close_channels`, called from the Go side: the value of `ret`. -/
def close_channels (w : World) : Int × World :=
  let r := sys_write w.child_write_fd [cmd_close_channels] w
  let c1 := close_fd r.2.child_write_fd r.2
  let w1 := { c1.2 with child_write_fd := c1.1 }
  let c2 := close_fd w1.child_read_fd w1
  (r.1, { c2.2 with child_read_fd := c2.1 })

/-- Size in bytes of `struct fs_info`. -/
def sizeof_fs_info : Nat := PATH_MAX + PATH_MAX + NAME_MAX + PATH_MAX

/-- Field of `n` bytes holding the string `s`; the bytes after the terminator are
taken to be NUL. -/
def pad (n : Nat) (s : List Nat) : List Nat := s.take n ++ List.replicate (n - s.length) 0

/-- Raw bytes of a `struct fs_info`. -/
def fs_info_bytes (info : fs_info) : List Nat :=
  pad PATH_MAX info.device ++ pad PATH_MAX info.mount_point ++ pad NAME_MAX info.type
    ++ pad PATH_MAX info.data

/-- The four `strncpy` of `get_fs_info` out of the raw bytes of a `struct fs_info`. -/
def fs_info_of_bytes (b : List Nat) : fs_info :=
  { device := strncpy (b.take PATH_MAX) PATH_MAX
    mount_point := strncpy ((b.drop PATH_MAX).take PATH_MAX) PATH_MAX
    type := strncpy ((b.drop (PATH_MAX + PATH_MAX)).take NAME_MAX) NAME_MAX
    data := strncpy ((b.drop (PATH_MAX + PATH_MAX + NAME_MAX)).take PATH_MAX) PATH_MAX }

/-- Function `get_fs_info`, called from the Go side: the return value and, when the four
output buffers were written, their content. -/
def get_fs_info (fs : List Nat) (w : World) : (Int × Option fs_info) × World :=
  let c := child_send_cmd cmd_get_fs_info (some fs) (to_int32 (strlen fs)) w
  if c.1 ≠ 0 then ((-1, none), c.2)
  else
    let r := sys_read c.2.child_read_fd sizeof_fs_info c.2
    if r.1 = -1 then ((-1, none), r.2.2)
    else ((0, some (fs_info_of_bytes (r.2.1 ++ w.uninit.drop r.2.1.length))), r.2.2)

/-! ## Parent side -/

/-- Loop `while (data_size > 0)` of `parent_get_data`.  Each turn reads again `size`
bytes at the start of `data`; a turn that reads nothing leaves `data_size` as it is,
so the loop spins forever.  The fuel bounds the number of turns by `data_size`. -/
def parent_get_data_loop : Nat → Int → Int → Int → List Nat → World → Outcome (Int × List Nat)
  | 0, _, size, _, data, w => .ret (size, data) w
  | fuel + 1, read_fd, size, data_size, data, w =>
    if data_size > 0 then
      let r := sys_read read_fd (to_size_t size) w
      if r.1 = -1 then .ret (-1, data) r.2.2
      else if r.1 = 0 then .hang r.2.2
      else parent_get_data_loop fuel read_fd size (data_size - r.1)
        (r.2.1 ++ data.drop r.2.1.length) r.2.2
    else .ret (size, data) w

/-- Function `parent_get_data`: the size of the data read (`-1` on failure) and the content
of the zero-initialised buffer `data` afterwards. -/
def parent_get_data (read_fd : Int) (data_size : Int) (w : World) : Outcome (Int × List Nat) :=
  let r := sys_read read_fd 4 w
  if r.1 = -1 then .ret (-1, []) r.2.2
  else
    let size := de32 (r.2.1 ++ w.uninit.drop r.2.1.length)
    if size > data_size then .ret (-1, []) r.2.2
    else parent_get_data_loop size.toNat read_fd size size [] r.2.2

/-- Loop of `parent_remove_namespaces` over `supported_namespaces`. -/
def parent_remove_loop : List Namespace → List Nat → World → World
  | [], _, w => w
  | ns :: rest, namespaces_path, w =>
    let persistent_ns_path := snprintf PATH_MAX (namespaces_path ++ bytes "/" ++ ns.name)
    let s := sys_stat persistent_ns_path w
    match s.1 with
    | none => parent_remove_loop rest namespaces_path s.2
    | some st =>
      if st.st_mode &&& S_IFMT ≠ S_IFREG then parent_remove_loop rest namespaces_path s.2
      else
        let u := sys_call (.umount persistent_ns_path) s.2
        let r := sys_call (.remove persistent_ns_path) u.2
        parent_remove_loop rest namespaces_path r.2

/-- Function `parent_remove_namespaces`: `0` on success, otherwise `-1`. -/
def parent_remove_namespaces (child : Child) (w : World) : Outcome Int :=
  (parent_get_data child.read_fd PATH_MAX w).bind fun d w1 =>
    if d.1 = -1 then .ret (-1) w1
    else
      let namespaces_path := cstr d.2
      let s := sys_stat namespaces_path w1
      match s.1 with
      | none => .ret (-1) s.2
      | some st =>
        if st.st_mode &&& S_IFMT ≠ S_IFDIR then .ret (-1) s.2
        else
          let w2 := parent_remove_loop supported_namespaces namespaces_path s.2
          let u := sys_call (.umount namespaces_path) w2
          if u.1 = -1 then .ret (-1) u.2 else .ret 0 u.2

/-- Loop of `parent_persistent_namespaces` over `supported_namespaces`: `false` when the
function returns `-1` from inside the loop. -/
def parent_persistent_loop : List Namespace → Int → List Nat → World → Bool × World
  | [], _, _, w => (true, w)
  | ns :: rest, pid, namespaces_path, w =>
    let pid_ns_path :=
      snprintf PATH_MAX (bytes "/proc/" ++ itoa pid ++ bytes "/ns/" ++ ns.name)
    let persistent_ns_path := snprintf PATH_MAX (namespaces_path ++ bytes "/" ++ ns.name)
    let s := sys_stat persistent_ns_path w
    match s.1 with
    | some _ => parent_persistent_loop rest pid namespaces_path s.2
    | none =>
      let o := sys_open (.creat persistent_ns_path) s.2
      if o.1 = -1 then (false, o.2)
      else
        let w1 := (close_fd o.1 o.2).2
        let m := sys_call (.mount pid_ns_path persistent_ns_path MS_BIND) w1
        if m.1 = -1 then (false, m.2)
        else parent_persistent_loop rest pid namespaces_path m.2

/-- Function `parent_persistent_namespaces`: `0` on success, `-1` on failure. -/
def parent_persistent_namespaces (child : Child) (w : World) : Outcome Int :=
  (parent_get_data child.read_fd PATH_MAX w).bind fun d w1 =>
    if d.1 = -1 then .ret (-1) w1
    else
      let l := parent_persistent_loop supported_namespaces child.pid (cstr d.2) w1
      if l.1 = false then .ret (-1) l.2 else .ret 0 l.2

/-- Function `parent_new_namespaces`: `0` on success, `1` in the child process,
otherwise `-1`; `die` ends the new child with `exit(EXIT_FAILURE)`. -/
def parent_new_namespaces (child : Child) (w : World) : Outcome Int :=
  (parent_get_data child.read_fd PATH_MAX w).bind fun d w1 =>
    if d.1 = -1 then .ret (-1) w1
    else
      let s := spawn_save_child w1
      if s.1 = -1 then .ret (-1) s.2
      else if s.1 ≠ 0 then .ret 0 s.2
      else
        let c := child_new_namespaces d.2 d.1 s.2
        if c.1 = -1 then .exit 1 c.2 else .ret 1 c.2

/-- Function `parent_join_namespaces`: `0` on success, `1` in the child process,
`-1` on failure; `die` ends the new child with `exit(EXIT_FAILURE)`. -/
def parent_join_namespaces (child : Child) (w : World) : Outcome Int :=
  (parent_get_data child.read_fd PATH_MAX w).bind fun d w1 =>
    if d.1 = -1 then .ret (-1) w1
    else
      let s := spawn_save_child w1
      if s.1 = -1 then .ret (-1) s.2
      else if s.1 ≠ 0 then .ret 0 s.2
      else
        let c := child_join_namespaces d.2 s.2
        if c.1 = -1 then .exit 1 c.2 else .ret 1 c.2

/-- Delimiters `" \t\n"` of `parent_set_fs_info`. -/
def is_del (b : Nat) : Bool := b == 32 || b == 9 || b == 10

/-- One call of C `strtok` with the delimiters `del`, on the text at the saved pointer:
the token found, if any, and the new saved pointer. -/
def strtok (s : List Nat) : Option (List Nat) × List Nat :=
  match s.dropWhile is_del with
  | [] => (none, [])
  | b :: t =>
    (some ((b :: t).takeWhile (fun c => !is_del c)),
      ((b :: t).dropWhile (fun c => !is_del c)).drop 1)

/-- Function `parent_set_fs_info`: `0` on success, `-1` on failure, and `info`
afterwards (fields set before a failure stay set). -/
def parent_set_fs_info (info : fs_info) (data : List Nat) : Int × fs_info :=
  let t1 := strtok (cstr data)
  match t1.1 with
  | none => (-1, info)
  | some device =>
    let info1 := { info with device := snprintf PATH_MAX device }
    let t2 := strtok t1.2
    match t2.1 with
    | none => (-1, info1)
    | some mount_point =>
      let info2 := { info1 with mount_point := snprintf PATH_MAX mount_point }
      let t3 := strtok t2.2
      match t3.1 with
      | none => (-1, info2)
      | some type =>
        let info3 := { info2 with type := snprintf NAME_MAX type }
        let t4 := strtok t3.2
        match t4.1 with
        | none => (-1, info3)
        | some data4 => (0, { info3 with data := snprintf PATH_MAX data4 })

/-- Loop `while (getline ...)` of `parent_read_fs_info` over the lines of the file. -/
def parent_read_fs_info_loop : List (List Nat) → List Nat → fs_info → Int × fs_info
  | [], _, info => (-1, info)
  | line :: rest, path, info =>
    let s := parent_set_fs_info info line
    if s.1 = -1 then parent_read_fs_info_loop rest path s.2
    else if strncmp path s.2.mount_point PATH_MAX = 0 then (0, s.2)
    else parent_read_fs_info_loop rest path s.2

/-- The path `procMountsPath`. -/
def procMountsPath : List Nat := bytes "/proc/mounts"

/-- Function `parent_read_fs_info`: `0` on success, `-1` on failure, and `info` afterwards. -/
def parent_read_fs_info (path : List Nat) (info : fs_info) (w : World) :
    (Int × fs_info) × World :=
  let f := sys_call (.fopen procMountsPath) w
  if f.1 = -1 then ((-1, info), f.2)
  else
    (parent_read_fs_info_loop w.proc_mounts path info, (sys_call .fclose f.2).2)

/-- Removal of the trailing `'/'` bytes of a string. -/
def strip_slashes (s : List Nat) : List Nat := (s.reverse.dropWhile (fun b => b == 47)).reverse

/-- C library `dirname` (glibc): the string returned and the content of the argument
buffer afterwards.  With a directory part the buffer is cut in place and returned;
without one the static string `"."` is returned and the buffer is left alone. -/
def dirname (path : List Nat) : List Nat × List Nat :=
  let s := cstr path
  let body := strip_slashes s
  let root := if s.length = 2 then bytes "//" else bytes "/"
  if s = [] then (bytes ".", s)
  else if body = [] then (root, root)
  else
    let dir := (body.reverse.dropWhile (fun b => b != 47)).reverse
    if dir = [] then (bytes ".", s)
    else if strip_slashes dir = [] then
      (if dir.length = 2 then (bytes "//", bytes "//") else (bytes "/", bytes "/"))
    else (strip_slashes dir, strip_slashes dir)

/-- End of `parent_get_mount_point`, after the loop. -/
def parent_get_mount_point_end (fspath mountPoint : List Nat) (w : World) :
    Outcome (Int × List Nat) :=
  if strncmp fspath (bytes "/") PATH_MAX = 0 then .ret (0, snprintf PATH_MAX (bytes "/")) w
  else .ret (0, mountPoint) w

/-- Loop `while (strncmp(dirname(fspath), "/", ...) != 0)` of `parent_get_mount_point`.
Each turn shortens `fspath` unless `dirname` leaves it alone, in which case the loop
spins forever; the fuel is the length of the path plus one. -/
def parent_get_mount_point_loop :
    Nat → Nat → List Nat → List Nat → World → Outcome (Int × List Nat)
  | 0, _, _, _, w => .hang w
  | fuel + 1, dev_id_path, fspath, mountPoint, w =>
    let d := dirname fspath
    if strncmp d.1 (bytes "/") PATH_MAX ≠ 0 then
      let s := sys_stat d.2 w
      match s.1 with
      | none => .ret (-1, mountPoint) s.2
      | some st =>
        if dev_id_path ≠ st.st_dev then parent_get_mount_point_end d.2 mountPoint s.2
        else parent_get_mount_point_loop fuel dev_id_path d.2 (snprintf PATH_MAX d.2) s.2
    else parent_get_mount_point_end d.2 mountPoint w

/-- Function `parent_get_mount_point`: `0` on success, `-1` on failure, and `mountPoint`. -/
def parent_get_mount_point (path : List Nat) (mountPoint : List Nat) (w : World) :
    Outcome (Int × List Nat) :=
  let fspath := strncpy path PATH_MAX
  let s := sys_stat fspath w
  match s.1 with
  | none => .ret (-1, mountPoint) s.2
  | some st =>
    parent_get_mount_point_loop (fspath.length + 1) st.st_dev fspath
      (strncpy fspath PATH_MAX) s.2

/-- Label `end:` of `parent_get_fs_info`: send the response, then the record on success. -/
def parent_get_fs_info_end (child : Child) (res : Nat) (fsinfo : fs_info) (w : World) : World :=
  let r := sys_write child.write_fd [res] w
  if res = res_success then (sys_write child.write_fd (fs_info_bytes fsinfo) r.2).2
  else r.2

/-- Function `parent_get_fs_info`. -/
def parent_get_fs_info (child : Child) (w : World) : Outcome Unit :=
  let fsinfo : fs_info := fs_info_of_bytes w.uninit
  (parent_get_data child.read_fd PATH_MAX w).bind fun d w1 =>
    if d.1 = -1 then .ret () (parent_get_fs_info_end child res_failure fsinfo w1)
    else if d.2.headD 0 ≠ 47 then .ret () (parent_get_fs_info_end child res_failure fsinfo w1)
    else
      (parent_get_mount_point d.2 [] w1).bind fun m w2 =>
        if m.1 ≠ 0 then .ret () (parent_get_fs_info_end child res_failure fsinfo w2)
        else
          let r := parent_read_fs_info m.2 fsinfo w2
          if r.1.1 ≠ 0 then .ret () (parent_get_fs_info_end child res_failure r.1.2 r.2)
          else .ret () (parent_get_fs_info_end child res_success r.1.2 r.2)

/-- The arms of the `switch` of `parent_listen_child` that fall through to the common
code sending the response: the four handlers and `default` (`ret = -1`). -/
def parent_dispatch (cmd : Nat) (child : Child) (w : World) : Outcome Int :=
  if cmd = cmd_new_ns then parent_new_namespaces child w
  else if cmd = cmd_join_ns then parent_join_namespaces child w
  else if cmd = cmd_remove_ns then parent_remove_namespaces child w
  else if cmd = cmd_persistent_ns then parent_persistent_namespaces child w
  else .ret (-1) w

/-- Loop of `parent_listen_child`.  Each turn takes one command byte off the pipe, so
the length of the pending input plus one is fuel enough. -/
def parent_listen_loop : Nat → Child → World → Outcome Int
  | 0, _, w => .hang w
  | fuel + 1, child, w =>
    let r := sys_read child.read_fd 1 w
    if r.1 > 0 then
      let cmd := r.2.1.headD 0
      if cmd = cmd_get_fs_info then
        -- the handler sends the response itself: `goto listen_child`
        (parent_get_fs_info child r.2.2).bind fun _ w1 => parent_listen_loop fuel child w1
      else if cmd = cmd_close_channels then
        .ret 0 (sys_call (.close child.write_fd) (sys_call (.close child.read_fd) r.2.2).2).2
      else
        (parent_dispatch cmd child r.2.2).bind fun ret w1 =>
          if ret = 1 then .ret 1 w1
          else
            let res := if ret = 0 then res_success else res_failure
            let wr := sys_write child.write_fd [res] w1
            if wr.1 = -1 then .ret (-1) wr.2
            else parent_listen_loop fuel child wr.2
    else if r.1 = -1 then .ret (-1) r.2.2
    else .ret 0 r.2.2

/-- Function `parent_listen_child`: `0` on success, `-1` on failure, `1` in a new child. -/
def parent_listen_child (child : Child) (w : World) : Outcome Int :=
  parent_listen_loop ((w.pipes child.read_fd).length + 1) child w

/-! ## Concrete worlds used by the examples -/

/-- A process at start-up: empty children table, no channel, nothing on any pipe, an
empty file system, and every system call succeeding (`fork` returning `0`). -/
def world_init : World :=
  { children := [⟨0, 0, 0⟩, ⟨0, 0, 0⟩], children_number := 0, child_read_fd := -1,
    child_write_fd := -1, child_ns_path := [], pipes := fun _ => [], files := fun _ => none,
    proc_mounts := [], os := fun _ _ => 0, uninit := [], next_fd := 3, trace := [] }

/-- A worker child: reads the parent on descriptor 4 and writes to it on descriptor 5. -/
def world_child : World := { world_init with child_read_fd := 4, child_write_fd := 5 }

/-- The worker child after it has joined the namespaces of `/var/run/ns/sbx1`. -/
def world_joined : World := (child_join_namespaces (bytes "/var/run/ns/sbx1") world_child).2

/-- The world in which a call ends. -/
def Outcome.world {α : Type} : Outcome α → World
  | .ret _ w => w
  | .exit _ w => w
  | .hang w => w

/-- The value a call returns, if it returns. -/
def Outcome.result {α : Type} : Outcome α → Option α
  | .ret a _ => some a
  | .exit _ _ => none
  | .hang _ => none

/-- The record the parent keeps for the worker child: pid 100, read on 6, write on 7. -/
def child_record : Child := ⟨100, 6, 7⟩

/-- The parent when the size and the bytes of the path `etc` wait on the child's pipe. -/
def world_parent_etc : World :=
  { world_init with
    children := [child_record, ⟨0, 0, 0⟩], children_number := 1
    pipes := fun f => if f = 6 then le32 3 ++ bytes "etc" else [] }

/-- A file system where `/mnt` is a mount point: `/mnt` and `/mnt/data` are on device 2,
the root directory on device 1. -/
def world_top_mount : World :=
  { world_init with
    files := fun p =>
      if p = bytes "/" then some ⟨1, S_IFDIR⟩
      else if p = bytes "/mnt" ∨ p = bytes "/mnt/data" then some ⟨2, S_IFDIR⟩
      else none }

/-- Specification of the containing mount point, in the words of the claim: walking up
from `path`, the first directory whose parent is on another device than `path`, and `/`
when the walk reaches the root. -/
def spec_mount_point (files : List Nat → Option Stat) : Nat → List Nat → List Nat → List Nat
  | 0, _, p => p
  | fuel + 1, path, p =>
    if p = bytes "/" then p
    else if (files (dirname p).1).map Stat.st_dev ≠ (files path).map Stat.st_dev then p
    else spec_mount_point files fuel path (dirname p).1

/-- Specification of the fields of a line, in the words of the claim: the non-empty
pieces of the line between separators (space, tab or newline). -/
def spec_fields (line : List Nat) : List (List Nat) :=
  ((cstr line).splitOnP is_del).filter (fun t => !t.isEmpty)

/-- The record made of the first four fields of a line. -/
def spec_record (line : List Nat) : fs_info :=
  { device := (spec_fields line).getD 0 []
    mount_point := (spec_fields line).getD 1 []
    type := (spec_fields line).getD 2 []
    data := (spec_fields line).getD 3 [] }

/-- The line has at least four fields and its second field is the string `path`. -/
def spec_matches (path line : List Nat) : Bool :=
  decide (4 ≤ (spec_fields line).length) && ((spec_fields line).getD 1 [] == cstr path)

/-- The first four fields of the line are shorter than the buffers of `struct fs_info`. -/
def fields_fit (line : List Nat) : Prop :=
  ((spec_fields line).getD 0 []).length < PATH_MAX ∧
  ((spec_fields line).getD 1 []).length < PATH_MAX ∧
  ((spec_fields line).getD 2 []).length < NAME_MAX ∧
  ((spec_fields line).getD 3 []).length < PATH_MAX

/-- A line of `/proc/mounts` for the root file system. -/
def line_root : List Nat := bytes "/dev/sda1 / ext4 rw,relatime 0 0\n"

/-- A line of `/proc/mounts` for `/proc`. -/
def line_proc : List Nat := bytes "proc /proc proc rw,nosuid 0 0\n"

/-- A world whose `/proc/mounts` has a short line, the line of `/proc` and the line of `/`. -/
def world_mounts : World :=
  { world_init with proc_mounts := [bytes "none /x\n", line_proc, line_root] }

/-- The worker child with two answers of the parent on the way: `failure`, then `success`. -/
def world_child_two_answers : World :=
  { world_child with pipes := fun f => if f = 4 then [res_failure, res_success] else [] }

/-- The worker child after `get_fs_info("")`. -/
def world_child_after_empty : World := (get_fs_info [] world_child_two_answers).2

/-- The worker child after `get_fs_info("")` and `remove_namespaces("/var/run/ns/sbx1", 16)`. -/
def world_child_after_remove : World :=
  (remove_namespaces (bytes "/var/run/ns/sbx1") 16 world_child_after_empty).2

/-- The parent with two requests on the child's pipe, `get_fs_info("")` and
`remove_namespaces("/var/run/ns/sbx1", 16)`, the directory being there. -/
def world_parent_two_requests : World :=
  { world_init with
    children := [child_record, ⟨0, 0, 0⟩], children_number := 1
    files := fun p => if p = bytes "/var/run/ns/sbx1" then some ⟨1, S_IFDIR⟩ else none
    pipes := fun f =>
      if f = 6 then
        [cmd_get_fs_info] ++ le32 0 ++ [cmd_remove_ns] ++ le32 16 ++ bytes "/var/run/ns/sbx1"
      else [] }

/-- No pipe holds more pending bytes in `w1` than in `w`. -/
def pipes_le (w w1 : World) : Prop := ∀ fd, (w1.pipes fd).length ≤ (w.pipes fd).length

/-- The parent after it has read one command byte from the child. -/
def took_command (child : Child) (w : World) : World := (sys_read child.read_fd 1 w).2.2

/-- The write of the response byte `res` to the child: return value and world. -/
def send_response (child : Child) (res : Nat) (w : World) : Int × World :=
  sys_write child.write_fd [res] w

/-- The parent with the command byte 200, which is no command, on the child's pipe,
followed by `close_channels`. -/
def world_parent_unknown : World :=
  { world_init with
    children := [child_record, ⟨0, 0, 0⟩], children_number := 1
    pipes := fun f => if f = 6 then [200, cmd_close_channels] else [] }

/-- The parent with a `join_ns` request for the path `/ns` on the child's pipe; `fork`
returns 0, so the run goes on in the new child. -/
def world_parent_join : World :=
  { world_init with
    children := [child_record, ⟨0, 0, 0⟩], children_number := 1
    pipes := fun f => if f = 6 then [cmd_join_ns] ++ le32 3 ++ bytes "/ns" else [] }

/-! ## Reaping the children -/

/-- Macro `WEXITSTATUS` of `sys/wait.h`: bits 8 to 15 of the status word. -/
def WEXITSTATUS (status : Int) : Int := ((status.toNat / 256 % 256 : Nat) : Int)

/-- The call `waitpid(pid, &status, 2)`: the return value and the content of `status`
afterwards.  A non-negative answer of the oracle is the status word stored by the call. -/
def sys_waitpid (pid : Int) (status : Int) (w : World) : Int × Int × World :=
  if w.os w.now (.waitpid pid) < 0 then (-1, status, w.log (.waitpid pid) (-1))
  else (pid, w.os w.now (.waitpid pid), w.log (.waitpid pid) pid)

/-- Function `kill_children`: `SIGKILL` to every recorded child. -/
def kill_children (w : World) : World :=
  w.children.foldl (fun v c => if c.pid > 0 then (sys_call (.kill c.pid) v).2 else v) w

/-- Loop of `wait_children` over the table: the entries still to visit, the entries
already visited, the variables `status` and `exit_code`. -/
def wait_children_loop : List Child → List Child → Int → Int → World → Int × World
  | [], done, _, exit_code, w => (exit_code, { w with children := done })
  | c :: rest, done, status, exit_code, w =>
    if c.pid ≤ 0 then wait_children_loop rest (done ++ [c]) status exit_code w
    else
      let r := sys_waitpid c.pid status w
      let exit_code1 := if r.1 = -1 then -1 else exit_code
      let c1 := close_fd c.read_fd r.2.2
      let c2 := close_fd c.write_fd c1.2
      let exit_code2 :=
        if WEXITSTATUS r.2.1 ≠ 0 then WEXITSTATUS r.2.1 else exit_code1
      wait_children_loop rest (done ++ [⟨c.pid, c1.1, c2.1⟩]) r.2.1 exit_code2 c2.2

/-- Function `wait_children`: 0 if all children finished correctly, otherwise -1 or the
exit code of the last child that failed.  The variable `status` starts uninitialised. -/
def wait_children (w : World) : Int × World :=
  wait_children_loop w.children [] (de32 w.uninit) 0 w

/-- Exit statuses, in table order, of the recorded children when `waitpid` stores the
status word `status pid` for the child `pid`. -/
def exit_statuses (status : Int → Int) (children : List Child) : List Int :=
  (children.filter (fun c => decide (c.pid > 0))).map (fun c => WEXITSTATUS (status c.pid))

/-- Loop of `init` over the table, from entry `i`, with `n` entries left. -/
def init_loop : Nat → Nat → World → Outcome Unit
  | 0, _, w => .exit (wait_children w).1 (wait_children w).2
  | n + 1, i, w =>
    if (w.children.getD i ⟨0, 0, 0⟩).pid ≤ 0 then init_loop n (i + 1) w
    else
      (parent_listen_child (w.children.getD i ⟨0, 0, 0⟩) w).bind fun ret w1 =>
        let c := w1.children.getD i ⟨0, 0, 0⟩
        let c1 := close_fd c.read_fd w1
        let c2 := close_fd c.write_fd c1.2
        let w2 := { c2.2 with children := c2.2.children.set i ⟨c.pid, c1.1, c2.1⟩ }
        if ret = 1 then .ret () w2
        else if ret = -1 then
          let d1 := close_fd w2.child_read_fd w2
          let d2 := close_fd d1.2.child_write_fd { d1.2 with child_read_fd := d1.1 }
          let w3 := kill_children { d2.2 with child_write_fd := d2.1 }
          .exit 1 (wait_children w3).2
        else init_loop n (i + 1) w2

/-- Function `init`: returns in a child; in the parent it serves the children and leaves
through `exit`. -/
def init (w : World) : Outcome Unit :=
  let s := spawn_save_child w
  if s.1 = -1 then .exit 1 s.2
  else if s.1 = 0 then .ret () s.2
  else init_loop CHILD_MAX 0 s.2

/-- The parent with two recorded children: pid 100 ends with exit status 2 and pid 101
with exit status 1. -/
def world_two_children : World :=
  { world_init with
    children := [⟨100, 6, 7⟩, ⟨101, 8, 9⟩], children_number := 2
    os := fun _ c => if c = .waitpid 100 then 2 * 256 else if c = .waitpid 101 then 256 else 0 }

/-- The same two children recorded in the other order. -/
def world_two_children_swapped : World :=
  { world_two_children with children := [⟨101, 8, 9⟩, ⟨100, 6, 7⟩] }

/-! ## Removing persistent namespaces -/

/-- System calls the loop of `parent_remove_namespaces` is to make in the directory
`p`, read off the file system alone: for each kind a `stat`, and for a regular file an
`umount` and a `remove`, whatever these two return. -/
def remove_calls (files : List Nat → Option Stat) : List Namespace → List Nat → List Syscall
  | [], _ => []
  | ns :: rest, p =>
    let q := snprintf PATH_MAX (p ++ bytes "/" ++ ns.name)
    (Syscall.stat q ::
      (match files q with
        | some st => if st.st_mode &&& S_IFMT = S_IFREG then [.umount q, .remove q] else []
        | none => [])) ++ remove_calls files rest p

/-- The path is a directory for `stat`. -/
def is_directory (files : List Nat → Option Stat) (p : List Nat) : Prop :=
  ∃ st, files p = some st ∧ st.st_mode &&& S_IFMT = S_IFDIR

/-- The parent with a `remove_ns` payload `/ns` on the child's pipe; `/ns` is a directory
holding the regular files `ipc`, `uts` and `mnt`; every `umount` and `remove` of one of
these files fails, the `umount` of `/ns` succeeds. -/
def world_parent_remove : World :=
  { world_init with
    children := [child_record, ⟨0, 0, 0⟩], children_number := 1
    pipes := fun f => if f = 6 then le32 3 ++ bytes "/ns" else []
    files := fun p =>
      if p = bytes "/ns" then some ⟨1, S_IFDIR⟩
      else if p = bytes "/ns/ipc" ∨ p = bytes "/ns/uts" ∨ p = bytes "/ns/mnt" then
        some ⟨1, S_IFREG⟩
      else none
    os := fun _ c =>
      if c = .umount (bytes "/ns") then 0
      else match c with
        | .umount _ => -1
        | .remove _ => -1
        | _ => 0 }

/-! ## Masks of namespaces -/

/-- The masks the loop of `child_join_namespaces` can hold after the given entries when
it holds `acc` before them: each entry is either passed over or added. -/
def joined_masks : List Namespace → Nat → List Nat
  | [], acc => [acc]
  | ns :: rest, acc => joined_masks rest acc ++ joined_masks rest (acc ||| ns.type)

/-- All supported kinds, in the words of the specification. -/
def spec_all_kinds : Nat := CLONE_NEWIPC ||| CLONE_NEWUTS ||| CLONE_NEWNS

/-- The unshare mask in the words of the specification: all supported kinds without
those of the joined mask. -/
def spec_unshare_mask (joined : Nat) : Nat := spec_all_kinds ^^^ (spec_all_kinds &&& joined)

/-- The loop of `child_new_namespaces` that builds `unshare_flags` from `ns_joined`. -/
def unshare_flags_of (ns_joined : Int) : Nat :=
  supported_namespaces.foldl
    (fun flags ns => if ns_joined.toNat &&& ns.type ≠ 0 then flags else flags ||| ns.type) 0

/-- The worker child in a file system where the directory `/ns` holds the namespace
files `ipc` and `uts` but not `mnt`; the parent's answer `success` waits on the pipe. -/
def world_child_two_pinned : World :=
  { world_child with
    files := fun p =>
      if p = bytes "/ns/ipc" ∨ p = bytes "/ns/uts" then some ⟨1, S_IFREG⟩ else none
    pipes := fun f => if f = 4 then [res_success] else [] }

/-- The same with all three namespace files in `/ns`. -/
def world_child_all_pinned : World :=
  { world_child with
    files := fun p =>
      if p = bytes "/ns/ipc" ∨ p = bytes "/ns/uts" ∨ p = bytes "/ns/mnt" then
        some ⟨1, S_IFREG⟩
      else none }

/-! ## The children table -/

/-- Number of records of the table with `pid > 0`. -/
def recorded (w : World) : Nat := (w.children.filter (fun c => decide (c.pid > 0))).length

/-- The table as the parent keeps it: `CHILD_MAX` records, at most `CHILD_MAX` counted,
and the records with `pid > 0` are the first `children_number` ones. -/
def table_inv (w : World) : Prop :=
  w.children.length = CHILD_MAX ∧ w.children_number ≤ CHILD_MAX ∧
  ∀ i, i < CHILD_MAX → (0 < (w.children.getD i ⟨0, 0, 0⟩).pid ↔ i < w.children_number)

instance (w : World) : Decidable (table_inv w) := by unfold table_inv; infer_instance

/-- The parent with one recorded child, when `fork` returns the pid 101. -/
def world_parent_one_child : World :=
  { world_parent_etc with os := fun _ c => if c = .fork then 101 else 0, next_fd := 8 }

/-- The parent with two recorded children; the first one sends a `join_ns` request for the
path `/ns` and then closes its channel. -/
def world_parent_full : World :=
  { world_init with
    children := [child_record, ⟨101, 8, 11⟩], children_number := 2, next_fd := 12
    pipes := fun f =>
      if f = 6 then [cmd_join_ns] ++ le32 3 ++ bytes "/ns" ++ [cmd_close_channels] else [] }

/-- The parent when the child has announced a payload of -2 bytes. -/
def world_parent_negative_size : World :=
  { world_init with
    children := [child_record, ⟨0, 0, 0⟩], children_number := 1
    pipes := fun f => if f = 6 then le32 (-2) else [] }

/-- The parent when the child has announced a payload of 5000 bytes, more than
`PATH_MAX`, and sent the first three of them. -/
def world_parent_oversize : World :=
  { world_init with
    children := [child_record, ⟨0, 0, 0⟩], children_number := 1
    pipes := fun f => if f = 6 then le32 5000 ++ bytes "abc" else [] }

/-- The world of `world_child_two_pinned` after the two mounts of `child_new_namespaces`
on `/ns` and the join of the namespaces pinned there. -/
def world_two_pinned_joined : World :=
  (child_join_namespaces (bytes "/ns")
    (sys_call (.mount (bytes "none") (cstr (bytes "/ns")) (MS_REC ||| MS_SLAVE))
      (sys_call (.mount (cstr (bytes "/ns")) (cstr (bytes "/ns")) MS_BIND)
        world_child_two_pinned).2).2).2

/-- The counter `children_number` is not above `CHILD_MAX`. -/
def fits (w : World) : Prop := w.children_number ≤ CHILD_MAX

end Broker

/-!
# Netns monitor (`virtcontainers/netmon/netmon.c`): shallow embedding

* The table `iface_list` is a list of `MAX_IFACES` slots; a linked list of
  `struct ip_addr` is the list of its nodes, the head pointer `NULL` being `[]`.
* A heap string is a `Str`: its address and its text.  The address is the
  serial number of the allocation; it tells apart two strings that are
  allocated at the same time, which is all the program compares.  `free` is
  not modelled, so an address says nothing about a string allocated after
  another one was released (the allocator may hand the same address out
  again), and no property is stated about such a pair.  The oracle `nomem`
  says which allocation attempts fail.
* A netlink message is its type, the index, family and prefix length of its
  payload header, and the list of its attributes; the walk over the wire
  layout (`NLMSG_OK`, `RTA_OK`, `RTA_NEXT`) is the walk over that list.
* The command line is given by the sequence of values `getopt_long` returns
  for it.
* An access outside the table, or through a `NULL` pointer, ends the run as
  `Run.undefined`.
* Of the output only the command lines (`# <runtime> <verb> ...`) are kept,
  in `Mon.emitted`; diagnostics, usage and debug dumps are left out.
-/

namespace Netmon

/-! ## Constants -/

/-- Capacity of the interface table. -/
def MAX_IFACES : Nat := 50

/-- Index value marking an empty slot. -/
def INIT_IF_IDX : Int := -1

def EINVAL : Int := 22
def ENOMEM : Int := 12
def ENOENT : Int := 2

def EXIT_SUCCESS : Int := 0
def EXIT_FAILURE : Int := 1

def AF_INET : Nat := 2
def AF_INET6 : Nat := 10

def NLMSG_ERROR : Nat := 2
def NLMSG_DONE : Nat := 3
def RTM_NEWLINK : Nat := 16
def RTM_DELLINK : Nat := 17
def RTM_NEWADDR : Nat := 20
def RTM_DELADDR : Nat := 21
def RTM_NEWROUTE : Nat := 24
def RTM_DELROUTE : Nat := 25

def IFLA_ADDRESS : Nat := 1
def IFLA_IFNAME : Nat := 3
def IFLA_MTU : Nat := 4

def IFA_LOCAL : Nat := 2
def IFA_LABEL : Nat := 3

def RTA_DST : Nat := 1
def RTA_SRC : Nat := 2
def RTA_OIF : Nat := 4
def RTA_GATEWAY : Nat := 5

/-! ## Data -/

/-- A string on the heap: its address (never 0) and its text.  The address identifies the
allocation among those alive at the same time. -/
structure Str where
  ptr : Nat
  text : List Nat
deriving DecidableEq, Repr

/-- Node of an address list (`struct ip_addr`), without its `next` link. -/
structure ip_addr where
  family : Nat
  addr : Option Str
deriving DecidableEq, Repr

/-- Interface record (`struct iface`); `ip_addrs` is the linked list from its head. -/
structure iface where
  idx : Int
  hw_addr : Option Str
  name : Option Str
  mtu : Option Str
  ip_addrs : List ip_addr
deriving DecidableEq, Repr

/-- Route record (`struct route`). -/
structure route where
  src : Option Str
  dst : Option Str
  gw : Option Str
  dev : Option Str
deriving DecidableEq, Repr

/-- Parameters of the program (`struct watcher_params`). -/
structure watcher_params where
  sandbox_id : Option Str
  runtime_path : Option Str
  netns_path : Option Str
deriving DecidableEq, Repr

/-- One routing attribute of a message: its type and its payload bytes. -/
structure rtattr where
  rta_type : Nat
  data : List Nat
deriving DecidableEq, Repr

/-- One netlink message: its type, the fields of its payload header the program reads
(`ifi_index` or `ifa_index`, `ifa_family` or `rtm_family`, `rtm_dst_len`) and its
attributes in order. -/
structure nlmsghdr where
  nlmsg_type : Nat
  index : Int
  family : Nat
  dst_len : Nat
  attrs : List rtattr
deriving DecidableEq, Repr

/-- What one `recvmsg` on the netlink socket yields. -/
inductive Datagram where
  /-- A burst of messages. -/
  | msgs (l : List nlmsghdr)
  /-- The call fails with `EWOULDBLOCK` or `EAGAIN`. -/
  | again
  /-- The call fails with another error. -/
  | error
deriving DecidableEq, Repr

/-- One entry of the list `getifaddrs` returns: the name, and for the address (which may
be `NULL`) its family and the numeric host text `getnameinfo` gives for it, if any. -/
structure ifaddrs where
  ifa_name : Option (List Nat)
  ifa_addr : Option (Nat × Option (List Nat))
deriving DecidableEq, Repr

/-- System calls and library calls into the system made by the monitor. -/
inductive Call where
  | open (path : List Nat)
  | setns (fd : Int)
  | socket
  | bind (fd : Int)
  | recvmsg (fd : Int)
  | ioctl_hwaddr (name : List Nat)
  | ioctl_mtu (name : List Nat)
  | close (fd : Int)
  | getifaddrs
deriving DecidableEq, Repr

/-- State of the monitor process and of the system around it. -/
structure Mon where
  /-- Table `iface_list[MAX_IFACES]`. -/
  iface_list : List iface
  /-- Flag `debug`. -/
  debug : Bool
  /-- Number of allocation attempts made so far. -/
  allocs : Nat
  /-- Oracle: the allocation attempt number `n` fails. -/
  nomem : Nat → Bool
  /-- Command lines printed so far, oldest first. -/
  emitted : List (List Nat)
  /-- Value found in an uninitialised `int`. -/
  uninit : Int
  /-- Content found in an uninitialised `struct iface`. -/
  uninit_iface : iface
  /-- Result hint of the call issued as call number `t`: negative means failure. -/
  sys : Nat → Call → Int
  /-- Calls made so far with their results, oldest first. -/
  trace : List (Call × Int)
  /-- Entries `getifaddrs` returns. -/
  addrs : List ifaddrs
  /-- Library function `if_nametoindex`. -/
  nametoindex : List Nat → Nat
  /-- Library function `if_indextoname`. -/
  indextoname : Int → Option (List Nat)
  /-- Hardware address `ioctl(SIOCGIFHWADDR)` reports for a name. -/
  hwaddr : List Nat → List Nat
  /-- MTU `ioctl(SIOCGIFMTU)` reports for a name. -/
  mtu_of : List Nat → Int
  /-- Library function `inet_ntop` for `AF_INET6`. -/
  inet_ntop6 : List Nat → List Nat
  /-- Datagrams the netlink socket will deliver, in order. -/
  datagrams : List Datagram

/-- How a call ends. -/
inductive Run (α : Type) where
  /-- The function returns `a`. -/
  | done (a : α) (s : Mon)
  /-- The process terminates with `exit(code)`. -/
  | exit (code : Int) (s : Mon)
  /-- The run reaches undefined behaviour. -/
  | undefined (s : Mon)
  /-- The function never returns. -/
  | hang (s : Mon)

/-- Sequencing of a call with what follows it. -/
def Run.bind {α β : Type} (r : Run α) (f : α → Mon → Run β) : Run β :=
  match r with
  | .done a s => f a s
  | .exit c s => .exit c s
  | .undefined s => .undefined s
  | .hang s => .hang s

/-- The state in which a call ends. -/
def Run.state {α : Type} : Run α → Mon
  | .done _ s => s
  | .exit _ s => s
  | .undefined s => s
  | .hang s => s

/-- The value a call returns, if it returns. -/
def Run.result {α : Type} : Run α → Option α
  | .done a _ => some a
  | .exit _ _ => none
  | .undefined _ => none
  | .hang _ => none

/-! ## Heap and text -/

/-- Bytes of a string literal. -/
def bytes (s : String) : List Nat := s.toList.map Char.toNat

/-- The C string held by a buffer: the bytes before the first NUL. -/
def cstr (buf : List Nat) : List Nat := buf.takeWhile (fun b => b != 0)

/-- One allocation attempt: an address different from that of every allocation still
alive (its serial number), or `none` when memory is short. -/
def alloc (s : Mon) : Option Nat × Mon :=
  if s.nomem s.allocs then (none, { s with allocs := s.allocs + 1 })
  else (some (s.allocs + 1), { s with allocs := s.allocs + 1 })

/-- Allocation of a string with the given text (`strdup`, `asprintf`): `NULL` on failure. -/
def new_str (text : List Nat) (s : Mon) : Option Str × Mon :=
  match (alloc s).1 with
  | none => (none, (alloc s).2)
  | some p => (some ⟨p, text⟩, (alloc s).2)

/-- Text printed for a `%s` argument: glibc prints `(null)` for `NULL`. -/
def show_str (x : Option Str) : List Nat :=
  match x with
  | none => bytes "(null)"
  | some t => t.text

/-- Decimal text of an `int` (`%d`). -/
def itoa (n : Int) : List Nat := bytes (toString n)

/-- Conversion of an unsigned 32-bit value to `int`. -/
def to_int32 (n : Nat) : Int :=
  if n % 2 ^ 32 < 2 ^ 31 then ((n % 2 ^ 32 : Nat) : Int) else ((n % 2 ^ 32 : Nat) : Int) - 2 ^ 32

/-- The 32-bit value held by four bytes in host (little-endian) order. -/
def u32_of_bytes (b : List Nat) : Nat :=
  b.getD 0 0 % 256 + 256 * (b.getD 1 0 % 256) + 65536 * (b.getD 2 0 % 256)
    + 16777216 * (b.getD 3 0 % 256)

/-- One lower-case hexadecimal digit. -/
def hex_digit (d : Nat) : Nat := if d < 10 then 48 + d else 87 + d

/-- Text of `%02x` for an `unsigned char`. -/
def hex2 (b : Nat) : List Nat := [hex_digit (b % 256 / 16), hex_digit (b % 16)]

/-- Text of `%d.%d.%d.%d` for the four bytes of an IPv4 address (`inet_ntop`). -/
def inet_ntop4 (a : List Nat) : List Nat :=
  itoa (a.getD 0 0 % 256) ++ bytes "." ++ itoa (a.getD 1 0 % 256) ++ bytes "."
    ++ itoa (a.getD 2 0 % 256) ++ bytes "." ++ itoa (a.getD 3 0 % 256)

/-- The slot of the table at index `idx`, if the index is inside the table. -/
def slot (s : Mon) (idx : Int) : Option iface :=
  if 0 ≤ idx ∧ idx < MAX_IFACES then s.iface_list[idx.toNat]? else none

/-- Replacement of the slot at index `idx`. -/
def set_slot (s : Mon) (idx : Int) (nif : iface) : Mon :=
  { s with iface_list := s.iface_list.set idx.toNat nif }

/-- An initial empty slot. -/
def init_iface : iface :=
  { idx := INIT_IF_IDX, hw_addr := none, name := none, mtu := none, ip_addrs := [] }

/-- Print of one command line. -/
def emit (line : List Nat) (s : Mon) : Mon := { s with emitted := s.emitted ++ [line] }

/-! ## Interface table -/

/-- Function `free_iface`: the record with its strings and its address list released. -/
def free_iface (nif : iface) : iface :=
  { nif with hw_addr := none, name := none, mtu := none, ip_addrs := [] }

/-- Function `insert_ip_addr`: 0, `EINVAL` or `ENOMEM`. -/
def insert_ip_addr (idx : Int) (addr : Option (List Nat)) (family : Nat) (s : Mon) : Run Int :=
  if idx < 0 then .done EINVAL s
  else
    match addr with
    | none => .done EINVAL s
    | some a =>
      -- ipa = calloc(1, sizeof(struct ip_addr))
      match (alloc s).1 with
      | none => .done ENOMEM (alloc s).2
      | some _ =>
        -- ipa->addr = strdup(addr)
        match (new_str a (alloc s).2).1 with
        | none => .done ENOMEM (new_str a (alloc s).2).2
        | some t =>
          match slot (new_str a (alloc s).2).2 idx with
          | none => .undefined (new_str a (alloc s).2).2
          | some cur =>
            .done 0 (set_slot (new_str a (alloc s).2).2 idx
              { cur with ip_addrs := cur.ip_addrs ++ [⟨family, some t⟩] })

/-- The test `tmp->addr && !strcmp(tmp->addr, addr)`. -/
def addr_matches (addr : List Nat) (n : ip_addr) : Bool :=
  match n.addr with
  | none => false
  | some t => t.text == addr

/-- Loop `while (tmp->next)` of `delete_ip_addr` over the nodes after the head: the nodes
with the first matching one unlinked, or `none` when none matches. -/
def delete_ip_addr_scan : List ip_addr → List Nat → Option (List ip_addr)
  | [], _ => none
  | n :: rest, addr =>
    if addr_matches addr n then some rest
    else
      match delete_ip_addr_scan rest addr with
      | none => none
      | some rest1 => some (n :: rest1)

/-- Function `delete_ip_addr`: 0, `EINVAL` or `ENOENT`. -/
def delete_ip_addr (idx : Int) (addr : Option (List Nat)) (s : Mon) : Run Int :=
  if idx < 0 then .done EINVAL s
  else
    match addr with
    | none => .done EINVAL s
    | some a =>
      match slot s idx with
      | none => .undefined s
      | some cur =>
        match cur.ip_addrs with
        | [] => .done ENOENT s
        | head :: rest =>
          if addr_matches a head then .done 0 (set_slot s idx { cur with ip_addrs := rest })
          else
            match delete_ip_addr_scan rest a with
            | none => .done ENOENT s
            | some rest1 => .done 0 (set_slot s idx { cur with ip_addrs := head :: rest1 })

/-- The statement `if (src) { ...; dst = strdup(src); }` on one string field: the new
value of the field. -/
def dup_field (src old : Option Str) (s : Mon) : Option Str × Mon :=
  match src with
  | none => (old, s)
  | some t => new_str t.text s

/-- Function `add_iface_to_list`. -/
def add_iface_to_list (nif : iface) (s : Mon) : Run Unit :=
  match slot s nif.idx with
  | none => .undefined s
  | some cur =>
    let n := dup_field nif.name cur.name s
    let h := dup_field nif.hw_addr cur.hw_addr n.2
    let m := dup_field nif.mtu cur.mtu h.2
    .done () (set_slot m.2 nif.idx
      { cur with idx := nif.idx, name := n.1, hw_addr := h.1, mtu := m.1 })

/-- Function `delete_iface_from_list`. -/
def delete_iface_from_list (idx : Int) (s : Mon) : Run Unit :=
  match slot s idx with
  | none => .undefined s
  | some cur => .done () (set_slot s idx { free_iface cur with idx := INIT_IF_IDX })

/-- Function `update_iface_list`: the table is indexed only inside the three tests
`if (nif.name)`, `if (nif.hw_addr)` and `if (nif.mtu)`, so a record with none of the
three strings touches no slot. -/
def update_iface_list (nif : iface) (s : Mon) : Run Unit :=
  if nif.name = none ∧ nif.hw_addr = none ∧ nif.mtu = none then .done () s
  else
    match slot s nif.idx with
    | none => .undefined s
    | some cur =>
      let n := dup_field nif.name cur.name s
      let h := dup_field nif.hw_addr cur.hw_addr n.2
      let m := dup_field nif.mtu cur.mtu h.2
      .done () (set_slot m.2 nif.idx { cur with name := n.1, hw_addr := h.1, mtu := m.1 })

/-- Function `init_iface_list`. -/
def init_iface_list (s : Mon) : Mon :=
  { s with iface_list := List.replicate MAX_IFACES init_iface }

/-! ## Text conversions -/

/-- Function `hw_addr_to_string`: `%02x:%02x:%02x:%02x:%02x:%02x` of six bytes. -/
def hw_addr_to_string (c : List Nat) (s : Mon) : Option Str × Mon :=
  new_str (hex2 (c.getD 0 0) ++ bytes ":" ++ hex2 (c.getD 1 0) ++ bytes ":"
    ++ hex2 (c.getD 2 0) ++ bytes ":" ++ hex2 (c.getD 3 0) ++ bytes ":"
    ++ hex2 (c.getD 4 0) ++ bytes ":" ++ hex2 (c.getD 5 0)) s

/-- Function `ip_addr_to_string`: `inet_ntop` into a fresh buffer; `NULL` for a family
that is not supported; with no buffer the text is written through `NULL`. -/
def ip_addr_to_string (family : Nat) (attr : List Nat) (s : Mon) : Run (Option Str) :=
  if family = AF_INET ∨ family = AF_INET6 then
    match (alloc s).1 with
    | none => .undefined (alloc s).2
    | some p =>
      .done (some ⟨p, if family = AF_INET then inet_ntop4 attr else s.inet_ntop6 attr⟩)
        (alloc s).2
  else .done none (alloc s).2

/-- Function `iface_idx_to_name`: `if_indextoname` into a fresh buffer. -/
def iface_idx_to_name (idx : Int) (s : Mon) : Run (Option Str) :=
  match s.indextoname idx with
  | none => .done none (alloc s).2
  | some name =>
    match (alloc s).1 with
    | none => .undefined (alloc s).2
    | some p => .done (some ⟨p, name⟩) (alloc s).2

/-! ## Parsing messages -/

/-- One turn of the attribute loop of `parse_ifinfomsg`. -/
def parse_ifinfomsg_attr (nif : iface) (attr : rtattr) (s : Mon) : iface × Mon :=
  if attr.rta_type = IFLA_ADDRESS then
    ({ nif with hw_addr := (hw_addr_to_string attr.data s).1 }, (hw_addr_to_string attr.data s).2)
  else if attr.rta_type = IFLA_IFNAME then
    ({ nif with name := (new_str (cstr attr.data) s).1 }, (new_str (cstr attr.data) s).2)
  else if attr.rta_type = IFLA_MTU then
    ({ nif with mtu := (new_str (itoa (to_int32 (u32_of_bytes attr.data))) s).1 },
      (new_str (itoa (to_int32 (u32_of_bytes attr.data))) s).2)
  else (nif, s)

/-- Attribute loop of `parse_ifinfomsg`. -/
def parse_ifinfomsg_attrs : List rtattr → iface → Mon → iface × Mon
  | [], nif, s => (nif, s)
  | attr :: rest, nif, s =>
    parse_ifinfomsg_attrs rest (parse_ifinfomsg_attr nif attr s).1
      (parse_ifinfomsg_attr nif attr s).2

/-- Function `parse_ifinfomsg`. -/
def parse_ifinfomsg (nh : nlmsghdr) (s : Mon) : iface × Mon :=
  parse_ifinfomsg_attrs nh.attrs
    { idx := nh.index, hw_addr := none, name := none, mtu := none, ip_addrs := [] } s

/-- Attribute loop of `parse_ifaddrmsg`: the record and the node `ipa`. -/
def parse_ifaddrmsg_attrs : List rtattr → Nat → iface → ip_addr → Mon → Run (iface × ip_addr)
  | [], _, nif, ipa, s => .done (nif, ipa) s
  | attr :: rest, family, nif, ipa, s =>
    if attr.rta_type = IFA_LOCAL then
      (ip_addr_to_string family attr.data s).bind fun a s1 =>
        parse_ifaddrmsg_attrs rest family nif { ipa with addr := a } s1
    else if attr.rta_type = IFA_LABEL then
      parse_ifaddrmsg_attrs rest family { nif with name := (new_str (cstr attr.data) s).1 } ipa
        (new_str (cstr attr.data) s).2
    else parse_ifaddrmsg_attrs rest family nif ipa s

/-- Function `parse_ifaddrmsg`; with no memory for `ipa` its fields are written
through `NULL`. -/
def parse_ifaddrmsg (nh : nlmsghdr) (s : Mon) : Run iface :=
  match (alloc s).1 with
  | none => .undefined (alloc s).2
  | some _ =>
    (parse_ifaddrmsg_attrs nh.attrs nh.family
      { idx := nh.index, hw_addr := none, name := none, mtu := none, ip_addrs := [] }
      ⟨nh.family, none⟩ (alloc s).2).bind fun r s1 =>
        .done { r.1 with ip_addrs := [r.2] } s1

/-- Attribute loop of `parse_rtmsg`. -/
def parse_rtmsg_attrs : List rtattr → nlmsghdr → route → Mon → Run route
  | [], _, rt, s => .done rt s
  | attr :: rest, nh, rt, s =>
    if attr.rta_type = RTA_DST then
      (ip_addr_to_string nh.family attr.data s).bind fun dst_ip s1 =>
        parse_rtmsg_attrs rest nh
          { rt with dst := (new_str (show_str dst_ip ++ bytes "/" ++ itoa nh.dst_len) s1).1 }
          (new_str (show_str dst_ip ++ bytes "/" ++ itoa nh.dst_len) s1).2
    else if attr.rta_type = RTA_SRC then
      (ip_addr_to_string nh.family attr.data s).bind fun a s1 =>
        parse_rtmsg_attrs rest nh { rt with src := a } s1
    else if attr.rta_type = RTA_OIF then
      (iface_idx_to_name (to_int32 (u32_of_bytes attr.data)) s).bind fun a s1 =>
        parse_rtmsg_attrs rest nh { rt with dev := a } s1
    else if attr.rta_type = RTA_GATEWAY then
      (ip_addr_to_string nh.family attr.data s).bind fun a s1 =>
        parse_rtmsg_attrs rest nh { rt with gw := a } s1
    else parse_rtmsg_attrs rest nh rt s

/-- Function `parse_rtmsg`. -/
def parse_rtmsg (nh : nlmsghdr) (s : Mon) : Run route :=
  parse_rtmsg_attrs nh.attrs nh ⟨none, none, none, none⟩ s

/-! ## Handling messages -/

/-- Function `iface_changed`: comparison of the three string pointers. -/
def iface_changed (new old : iface) : Bool :=
  new.hw_addr.map Str.ptr != old.hw_addr.map Str.ptr ||
  new.name.map Str.ptr != old.name.map Str.ptr ||
  new.mtu.map Str.ptr != old.mtu.map Str.ptr

/-- Text after `# <runtime> <verb>` for an interface: the three options. -/
def iface_options (name hw_addr mtu : Option Str) : List Nat :=
  bytes " --name " ++ show_str name ++ bytes " --hw-addr " ++ show_str hw_addr
    ++ bytes " --mtu " ++ show_str mtu

/-- Function `_update_interface`; `ret` is returned as it was found when the message is
neither `RTM_NEWADDR` nor `RTM_DELADDR`. -/
def _update_interface (nh : nlmsghdr) (nif : iface) (runtime_path : List Nat) (s : Mon) :
    Run Int :=
  match slot s nif.idx with
  | none => .undefined s
  | some cur =>
    (update_iface_list nif
      (emit (bytes "# " ++ runtime_path ++ bytes " upd-net-if"
        ++ iface_options cur.name cur.hw_addr cur.mtu ++ bytes "\n") s)).bind fun _ s1 =>
      if nh.nlmsg_type = RTM_NEWADDR then
        match nif.ip_addrs with
        | [] => .undefined s1
        | ipa :: _ => insert_ip_addr nif.idx (ipa.addr.map Str.text) ipa.family s1
      else if nh.nlmsg_type = RTM_DELADDR then
        match nif.ip_addrs with
        | [] => .undefined s1
        | ipa :: _ => delete_ip_addr nif.idx (ipa.addr.map Str.text) s1
      else .done s1.uninit s1

/-- Function `add_interface`. -/
def add_interface (nh : nlmsghdr) (runtime_path : List Nat) (s : Mon) : Run Int :=
  let p := parse_ifinfomsg nh s
  match slot p.2 p.1.idx with
  | none => .undefined p.2
  | some cur =>
    if cur.idx ≠ INIT_IF_IDX then
      if iface_changed p.1 cur = false then .done 0 p.2
      else _update_interface nh p.1 runtime_path p.2
    else
      let s1 := emit (bytes "# " ++ runtime_path ++ bytes " add-net-if"
        ++ iface_options p.1.name p.1.hw_addr p.1.mtu ++ bytes "\n") p.2
      -- asprintf(&(params[1]), "add-net-if --name %s --hw-addr %s --mtu %s", ...)
      let a := new_str (bytes "add-net-if --name " ++ show_str p.1.name ++ bytes " --hw-addr "
        ++ show_str p.1.hw_addr ++ bytes " --mtu " ++ show_str p.1.mtu) s1
      (add_iface_to_list p.1 a.2).bind fun _ s2 => .done 0 s2

/-- Function `update_interface`. -/
def update_interface (nh : nlmsghdr) (runtime_path : List Nat) (s : Mon) : Run Int :=
  (parse_ifaddrmsg nh s).bind fun nif s1 => _update_interface nh nif runtime_path s1

/-- Function `delete_interface`. -/
def delete_interface (nh : nlmsghdr) (runtime_path : List Nat) (s : Mon) : Run Int :=
  let p := parse_ifinfomsg nh s
  (delete_iface_from_list p.1.idx
    (emit (bytes "# " ++ runtime_path ++ bytes " del-net-if --name " ++ show_str p.1.name
      ++ bytes "\n") p.2)).bind fun _ s1 => .done 0 s1

/-- Text after `# <runtime> <verb>` for a route: the four options. -/
def route_options (rt : route) : List Nat :=
  bytes " --src " ++ show_str rt.src ++ bytes " --dst " ++ show_str rt.dst
    ++ bytes " --gw " ++ show_str rt.gw ++ bytes " --dev " ++ show_str rt.dev

/-- Function `add_route`. -/
def add_route (nh : nlmsghdr) (runtime_path : List Nat) (s : Mon) : Run Int :=
  (parse_rtmsg nh s).bind fun rt s1 =>
    .done 0 (emit (bytes "# " ++ runtime_path ++ bytes " add-net-route" ++ route_options rt
      ++ bytes "\n") s1)

/-- Function `delete_route`. -/
def delete_route (nh : nlmsghdr) (runtime_path : List Nat) (s : Mon) : Run Int :=
  (parse_rtmsg nh s).bind fun rt s1 =>
    .done 0 (emit (bytes "# " ++ runtime_path ++ bytes " del-net-route" ++ route_options rt
      ++ bytes "\n") s1)

/-! ## System calls of the monitor -/

/-- A call without data result: -1 when the oracle says so, else 0. -/
def sys_do (c : Call) (s : Mon) : Int × Mon :=
  if s.sys s.trace.length c < 0 then (-1, { s with trace := s.trace ++ [(c, -1)] })
  else (0, { s with trace := s.trace ++ [(c, 0)] })

/-- A call returning a descriptor (`open`, `socket`): the value the oracle gives, or -1. -/
def sys_fd (c : Call) (s : Mon) : Int × Mon :=
  if s.sys s.trace.length c < 0 then (-1, { s with trace := s.trace ++ [(c, -1)] })
  else (s.sys s.trace.length c, { s with trace := s.trace ++ [(c, s.sys s.trace.length c)] })

/-! ## Listening -/

/-- Loop of `listen_netlink` over the messages of one datagram; `ret` keeps its value
over a message of unknown type. -/
def listen_netlink_msgs : List nlmsghdr → Int → List Nat → Mon → Run Int
  | [], _, _, s => .done 0 s
  | nh :: rest, ret, runtime_path, s =>
    if nh.nlmsg_type = NLMSG_DONE then .done 0 s
    else if nh.nlmsg_type = NLMSG_ERROR then .done (-1) s
    else
      (if nh.nlmsg_type = RTM_NEWADDR then update_interface nh runtime_path s
        else if nh.nlmsg_type = RTM_DELADDR then update_interface nh runtime_path s
        else if nh.nlmsg_type = RTM_NEWROUTE then add_route nh runtime_path s
        else if nh.nlmsg_type = RTM_DELROUTE then delete_route nh runtime_path s
        else if nh.nlmsg_type = RTM_NEWLINK then add_interface nh runtime_path s
        else if nh.nlmsg_type = RTM_DELLINK then delete_interface nh runtime_path s
        else .done ret s).bind fun ret1 s1 =>
          if ret1 ≠ 0 then .done ret1 s1
          else listen_netlink_msgs rest ret1 runtime_path s1

/-- Function `listen_netlink`: one `recvmsg`, then the messages received.  With nothing
more to deliver `recvmsg` blocks for ever. -/
def listen_netlink (fd : Int) (runtime_path : List Nat) (s : Mon) : Run Int :=
  match s.datagrams with
  | [] => .hang { s with trace := s.trace ++ [(.recvmsg fd, 0)] }
  | .again :: rest =>
    .done 0 { s with datagrams := rest, trace := s.trace ++ [(.recvmsg fd, -1)] }
  | .error :: rest =>
    .done (-1) { s with datagrams := rest, trace := s.trace ++ [(.recvmsg fd, -1)] }
  | .msgs l :: rest =>
    listen_netlink_msgs l s.uninit runtime_path
      { s with datagrams := rest, trace := s.trace ++ [(.recvmsg fd, 1)] }

/-- Function `open_netlink`: the socket, or -1. -/
def open_netlink (s : Mon) : Int × Mon :=
  let k := sys_fd .socket s
  if k.1 = -1 then (-1, k.2)
  else
    let b := sys_do (.bind k.1) k.2
    if b.1 = -1 then (-1, b.2) else (k.1, b.2)

/-- Loop `while (1)` of `monitor_netns`; each turn takes one datagram, so the number of
datagrams left plus one is fuel enough. -/
def monitor_netns_loop : Nat → Int → List Nat → Mon → Run Int
  | 0, _, _, s => .hang s
  | n + 1, fd, runtime_path, s =>
    (listen_netlink fd runtime_path s).bind fun ret s1 =>
      if ret ≠ 0 then .done ret s1 else monitor_netns_loop n fd runtime_path s1

/-- Function `monitor_netns`. -/
def monitor_netns (runtime_path : List Nat) (s : Mon) : Run Int :=
  let o := open_netlink s
  if o.1 ≤ 0 then .done (-1) o.2
  else monitor_netns_loop (o.2.datagrams.length + 1) o.1 runtime_path o.2

/-! ## Start-up -/

/-- Function `enter_netns`. -/
def enter_netns (netns_path : Option (List Nat)) (s : Mon) : Int × Mon :=
  match netns_path with
  | none => (EINVAL, s)
  | some p =>
    let o := sys_fd (.open p) s
    if o.1 = -1 then (-1, o.2)
    else
      let j := sys_do (.setns o.1) o.2
      if j.1 = -1 then (-1, j.2) else (0, j.2)

/-- Function `create_iface_from_ifaddrs`: the return value and the record `*nif`. -/
def create_iface_from_ifaddrs (nif : iface) (s : Mon) : Run (Int × iface) :=
  match nif.name with
  | none => .undefined s
  | some name =>
    let k := sys_fd .socket s
    if k.1 = -1 then .done (-1, nif) k.2
    else
      let h := sys_do (.ioctl_hwaddr (name.text.take 15)) k.2
      if h.1 = -1 then .done (-1, nif) (sys_do (.close k.1) h.2).2
      else
        let hw := hw_addr_to_string (h.2.hwaddr (name.text.take 15)) h.2
        let m := sys_do (.ioctl_mtu (name.text.take 15)) hw.2
        if m.1 = -1 then .done (-1, { nif with hw_addr := hw.1 }) (sys_do (.close k.1) m.2).2
        else
          let t := new_str (itoa (m.2.mtu_of (name.text.take 15))) m.2
          match t.1 with
          | none => .done (ENOMEM, { nif with hw_addr := hw.1 }) (sys_do (.close k.1) t.2).2
          | some _ =>
            .done (0, { nif with hw_addr := hw.1, mtu := t.1 }) (sys_do (.close k.1) t.2).2

/-- Function `add_ip_addr_to_iface_list`. -/
def add_ip_addr_to_iface_list (ifa : ifaddrs) (idx : Int) (s : Mon) : Run Int :=
  match ifa.ifa_addr with
  | none => .undefined s
  | some (family, host) =>
    if family ≠ AF_INET ∧ family ≠ AF_INET6 then .done 0 s
    else
      match host with
      | none => .done (-1) s
      | some h => insert_ip_addr idx (some h) family s

/-- Loop of `scan_netns` over the entries; `ret` is what `exit:` returns. -/
def scan_netns_loop : List ifaddrs → Int → Mon → Run Int
  | [], ret, s => .done ret s
  | ifa :: rest, ret, s =>
    match ifa.ifa_name with
    | none => scan_netns_loop rest ret s
    | some name =>
      if s.nametoindex name = 0 then .done ret s
      else
        match slot s (s.nametoindex name) with
        | none => .undefined s
        | some cur =>
          (if cur.idx = INIT_IF_IDX then
            (create_iface_from_ifaddrs
              { s.uninit_iface with name := (new_str name s).1 } (new_str name s).2).bind
              fun c s1 =>
                if c.1 ≠ 0 then .done (c.1, false) s1
                else if (s.nametoindex name : Int) ≥ MAX_IFACES then .done (c.1, false) s1
                else
                  .done (c.1, true)
                    (set_slot s1 (s.nametoindex name) { c.2 with idx := s.nametoindex name })
          else .done (ret, true) s).bind fun g s2 =>
            if g.2 = false then .done g.1 s2
            else
              (add_ip_addr_to_iface_list ifa (s.nametoindex name) s2).bind fun r s3 =>
                if r ≠ 0 then .done r s3 else scan_netns_loop rest r s3

/-- Function `scan_netns`. -/
def scan_netns (s : Mon) : Run Int :=
  let g := sys_do .getifaddrs s
  if g.1 = -1 then .done (-1) g.2 else scan_netns_loop g.2.addrs 0 g.2

/-- The option loop of `parse_options` over the values `getopt_long` returns, each with
its `optarg`. -/
def parse_options_loop : List (Nat × List Nat) → watcher_params → Mon → Run watcher_params
  | [], params, s => .done params s
  | (c, optarg) :: rest, params, s =>
    if c = 100 then parse_options_loop rest params { s with debug := true }
    else if c = 104 then .exit EXIT_SUCCESS s
    else if c = 110 then
      parse_options_loop rest { params with netns_path := (new_str optarg s).1 }
        (new_str optarg s).2
    else if c = 112 then
      parse_options_loop rest { params with sandbox_id := (new_str optarg s).1 }
        (new_str optarg s).2
    else if c = 114 then
      parse_options_loop rest { params with runtime_path := (new_str optarg s).1 }
        (new_str optarg s).2
    else if c = 118 then .exit EXIT_SUCCESS s
    else .exit EXIT_FAILURE s

/-- Function `parse_options`: the return value and `*params`. -/
def parse_options (opts : List (Nat × List Nat)) (params : watcher_params) (s : Mon) :
    Run (Int × watcher_params) :=
  (parse_options_loop opts params s).bind fun p s1 =>
    if p.netns_path = none then .done (EINVAL, p) s1
    else if p.sandbox_id = none then .done (EINVAL, p) s1
    else if p.runtime_path = none then .done (EINVAL, p) s1
    else .done (0, p) s1

/-- Function `main`: the exit code of the process. -/
def main (opts : List (Nat × List Nat)) (s : Mon) : Run Int :=
  (parse_options opts ⟨none, none, none⟩ (init_iface_list s)).bind fun r s1 =>
    if r.1 ≠ 0 then .done r.1 s1
    else
      let e := enter_netns (r.2.netns_path.map Str.text) s1
      if e.1 ≠ 0 then .done e.1 e.2
      else
        (scan_netns e.2).bind fun n s2 =>
          if n ≠ 0 then .done n s2
          else monitor_netns (show_str r.2.runtime_path) s2

/-! ## Concrete states used by the examples -/

/-- A monitor at start-up: every allocation succeeds, every call succeeds, nothing to
scan and nothing to receive. -/
def mon_init : Mon :=
  { iface_list := [], debug := false, allocs := 0, nomem := fun _ => false, emitted := [],
    uninit := 0, uninit_iface := init_iface, sys := fun _ _ => 3, trace := [], addrs := [],
    nametoindex := fun _ => 0, indextoname := fun _ => none, hwaddr := fun _ => [],
    mtu_of := fun _ => 0, inet_ntop6 := fun _ => [], datagrams := [] }

/-- The monitor with its table initialised. -/
def mon_ready : Mon := init_iface_list mon_init

/-- The path of the runtime binary in the examples. -/
def runtime : List Nat := bytes "/usr/bin/kata-runtime"

/-- A `NEWLINK` message for index 7: name `eth0`, hardware address `aa:bb:cc:dd:ee:ff`,
MTU 1500. -/
def newlink_eth0 : nlmsghdr :=
  { nlmsg_type := RTM_NEWLINK, index := 7, family := 0, dst_len := 0
    attrs := [⟨IFLA_IFNAME, bytes "eth0" ++ [0]⟩, ⟨IFLA_MTU, [220, 5, 0, 0]⟩,
      ⟨IFLA_ADDRESS, [170, 187, 204, 221, 238, 255]⟩] }

/-- A `NEWADDR` message for index 7 with the local address 10.0.0.2. -/
def newaddr_eth0 : nlmsghdr :=
  { nlmsg_type := RTM_NEWADDR, index := 7, family := AF_INET, dst_len := 0
    attrs := [⟨IFA_LOCAL, [10, 0, 0, 2]⟩, ⟨IFA_LABEL, bytes "eth0" ++ [0]⟩] }

/-- The monitor after the `NEWLINK` message of `eth0` has been handled once. -/
def mon_eth0 : Mon := (add_interface newlink_eth0 runtime mon_ready).state

/-- The run is one of undefined behaviour. -/
def Run.is_undefined {α : Type} : Run α → Bool
  | .undefined _ => true
  | _ => false

/-- Texts of the addresses in the list of a slot, in order. -/
def addr_texts (nif : iface) : List (Option (List Nat)) :=
  nif.ip_addrs.map (fun n => n.addr.map Str.text)

/-- The node carries the address string `addr`. -/
def has_addr (addr : List Nat) (n : ip_addr) : Bool := n.addr.map Str.text == some addr

/-- The monitor whose slot 7 holds the addresses 10.0.0.2 and 10.0.0.3. -/
def mon_two_addrs : Mon :=
  (insert_ip_addr 7 (some (bytes "10.0.0.3")) AF_INET
    (insert_ip_addr 7 (some (bytes "10.0.0.2")) AF_INET mon_eth0).state).state

/-! ## Sequences of calls on the address lists -/

/-- One call on the address lists: `insert_ip_addr(idx, addr, family)` or
`delete_ip_addr(idx, addr)`. -/
inductive TableOp where
  | insert (idx : Int) (addr : List Nat) (family : Nat)
  | delete (idx : Int) (addr : List Nat)
deriving DecidableEq, Repr

/-- The call made. -/
def run_op (op : TableOp) (s : Mon) : Run Int :=
  match op with
  | .insert idx addr family => insert_ip_addr idx (some addr) family s
  | .delete idx addr => delete_ip_addr idx (some addr) s

/-- The calls made one after the other: the state after the last one. -/
def run_ops : List TableOp → Mon → Mon
  | [], s => s
  | op :: rest, s => run_ops rest (run_op op s).state

/-- The call stays below the end of the table and, for an insertion, the address is not
yet in the list of its slot. -/
def op_fresh (op : TableOp) (s : Mon) : Bool :=
  match op with
  | .insert idx addr _ =>
    decide (idx < MAX_IFACES) &&
      (match slot s idx with
       | some cur => !(addr_texts cur).contains (some addr)
       | none => true)
  | .delete idx _ => decide (idx < MAX_IFACES)

/-- Every call of the sequence satisfies `op_fresh` in the state in which it is made. -/
def ops_fresh : List TableOp → Mon → Bool
  | [], _ => true
  | op :: rest, s => op_fresh op s && ops_fresh rest (run_op op s).state

/-- No address string appears twice in the address list of any one slot. -/
def no_duplicate (s : Mon) : Prop := ∀ nif ∈ s.iface_list, (addr_texts nif).Nodup

instance (s : Mon) : Decidable (no_duplicate s) := by unfold no_duplicate; infer_instance

/-! ## Reading a link message -/

/-- A namespace with two interfaces, in the order `getifaddrs` lists them: `veth50` with
the kernel index 50 and the address 10.0.0.9, then `eth0` with the index 7 and the
address 10.0.0.2. -/
def mon_scan_over_limit : Mon :=
  { mon_ready with
    addrs := [⟨some (bytes "veth50"), some (AF_INET, some (bytes "10.0.0.9"))⟩,
      ⟨some (bytes "eth0"), some (AF_INET, some (bytes "10.0.0.2"))⟩]
    nametoindex := fun n =>
      if n = bytes "veth50" then 50 else if n = bytes "eth0" then 7 else 0
    hwaddr := fun _ => [170, 187, 204, 221, 238, 255]
    mtu_of := fun _ => 1500 }

/-- The same namespace with `eth0` alone. -/
def mon_scan_eth0 : Mon :=
  { mon_scan_over_limit with
    addrs := [⟨some (bytes "eth0"), some (AF_INET, some (bytes "10.0.0.2"))⟩] }

/-- A `NEWLINK` message for index 7 that renames the interface to `lan0` and sets the
MTU 9000, with the hardware address `aa:bb:cc:dd:ee:ff`. -/
def newlink_lan0 : nlmsghdr :=
  { nlmsg_type := RTM_NEWLINK, index := 7, family := 0, dst_len := 0
    attrs := [⟨IFLA_IFNAME, bytes "lan0" ++ [0]⟩, ⟨IFLA_MTU, [40, 35, 0, 0]⟩,
      ⟨IFLA_ADDRESS, [170, 187, 204, 221, 238, 255]⟩] }

/-- The monitor holding `eth0` at slot 7 with the address 10.0.0.2, when the stack
memory an uninitialised `int` falls on holds 5 and the netlink socket delivers the
message `newlink_lan0`. -/
def mon_eth0_stale_stack : Mon :=
  { (insert_ip_addr 7 (some (bytes "10.0.0.2")) AF_INET mon_eth0).state with
    uninit := 5, datagrams := [.msgs [newlink_lan0]] }

end Netmon

/-! # Theorems -/

namespace Broker

/-! ## C string lemmas -/

theorem cstr_nil : cstr [] = [] := rfl

theorem cstr_cons (a : Nat) (s : List Nat) :
    cstr (a :: s) = if a = 0 then [] else a :: cstr s := by
  by_cases h : a = 0
  · simp [cstr, List.takeWhile, h]
  · have h2 : (a != 0) = true := by simpa using h
    simp [cstr, List.takeWhile, h, h2]

theorem strncmp_eq_zero_iff (n : Nat) (s t : List Nat) :
    strncmp s t n = 0 ↔ (cstr s).take n = (cstr t).take n := by
  induction n generalizing s t with
  | zero => simp [strncmp]
  | succ n ih =>
    rw [strncmp]
    cases s with
    | nil =>
      cases t with
      | nil => simp
      | cons b t =>
        by_cases hb : b = 0
        · simp [hb, cstr_cons, cstr_nil]
        · have : (0 : Nat) ≠ b := fun h => hb h.symm
          simp [hb, cstr_cons, this, cstr_nil]
    | cons a s =>
      cases t with
      | nil =>
        by_cases ha : a = 0
        · simp [ha, cstr_cons, cstr_nil]
        · simp [ha, cstr_cons, cstr_nil]
      | cons b t =>
        by_cases hab : a = b
        · subst hab
          by_cases ha : a = 0
          · simp [ha, cstr_cons]
          · simp [ha, cstr_cons, ih]
        · have hi : (a : Int) - (b : Int) ≠ 0 := by omega
          by_cases ha : a = 0
          · have hb : b ≠ 0 := fun h => hab (by omega)
            have hb2 : ¬ 0 = b := fun h => hb h.symm
            simp [hab, hi, cstr_cons, ha, hb, hb2]
          · by_cases hb : b = 0
            · simp [hab, hi, cstr_cons, ha, hb]
            · simp [hab, hi, cstr_cons, ha, hb]

theorem cstr_idem (s : List Nat) : cstr (cstr s) = cstr s := by
  induction s with
  | nil => rfl
  | cons a s ih =>
    by_cases ha : a = 0
    · simp [cstr_cons, ha, cstr_nil]
    · simp [cstr_cons, ha, ih]

theorem strncmp_cstr_self (n : Nat) (p : List Nat) : strncmp p (cstr p) n = 0 := by
  rw [strncmp_eq_zero_iff, cstr_idem]

/-! ## Child API -/

/-- C1 (the code departs from the claim): in a child whose recorded `child_ns_path` is
`/var/run/ns/sbx1`, `new_namespaces("/var/run/ns/sbx", 15)` returns 1 and sends nothing,
although the path differs from `child_ns_path`: the comparison stops after `len` bytes,
so a proper prefix of the recorded path is taken for the recorded path. -/
theorem new_namespaces_prefix_taken_as_equal :
    world_joined.child_ns_path = bytes "/var/run/ns/sbx1" ∧
    strlen (bytes "/var/run/ns/sbx") = 15 ∧
    bytes "/var/run/ns/sbx" ≠ world_joined.child_ns_path ∧
    (new_namespaces (bytes "/var/run/ns/sbx") 15 world_joined).1 = 1 ∧
    (new_namespaces (bytes "/var/run/ns/sbx") 15 world_joined).2.trace = world_joined.trace := by
  refine ⟨by decide, by decide, by decide, by decide, by decide⟩

theorem child_send_cmd_result (cmd : Nat) (data : Option (List Nat)) (size : Int) (w : World) :
    (child_send_cmd cmd data size w).1 = 0 ∨ (child_send_cmd cmd data size w).1 = -1 := by
  unfold child_send_cmd
  cases data <;> simp only [] <;> split_ifs <;> simp

/-- What `new_namespaces` does: it returns 1 exactly when the first `len` bytes of the
path and of `child_ns_path` (each read up to its NUL) agree. -/
theorem new_namespaces_one_iff (p : List Nat) (len : Nat) (w : World) :
    (new_namespaces p len w).1 = 1 ↔ (cstr p).take len = (cstr w.child_ns_path).take len := by
  rw [← strncmp_eq_zero_iff]
  unfold new_namespaces
  by_cases h : strncmp p w.child_ns_path len = 0
  · simp [h]
  · rw [if_neg h]
    rcases child_send_cmd_result cmd_new_ns (some p) (to_int32 len) w with h1 | h1 <;>
      simp [h1, h]

/-- C2: after `child_join_namespaces(p)` has succeeded for a path shorter than `PATH_MAX`,
`join_namespaces(p, len)` returns 1 for every `len` and leaves the world as it is: no
system call is made, so nothing is written to the pipe and no process is spawned. -/
theorem rejoin_is_noop (p : List Nat) (len : Nat) (w : World)
    (hlen : strlen p < PATH_MAX) (hok : (child_join_namespaces p w).1 ≠ -1) :
    join_namespaces p len (child_join_namespaces p w).2 = (1, (child_join_namespaces p w).2) := by
  have hpath : (child_join_namespaces p w).2.child_ns_path = cstr p := by
    unfold child_join_namespaces at hok ⊢
    cases h : (child_join_loop supported_namespaces (cstr p) 0 w).1 with
    | none => simp [h] at hok
    | some m =>
      simp only [h, snprintf]
      apply List.take_of_length_le
      unfold strlen PATH_MAX at hlen
      unfold PATH_MAX
      omega
  unfold join_namespaces
  rw [hpath, if_pos (strncmp_cstr_self len p)]

/-- Witness of C2: a child joins `/var/run/ns/sbx1` and asks to join it again with `len = 20`. -/
theorem rejoin_is_noop_witness :
    strlen (bytes "/var/run/ns/sbx1") < PATH_MAX ∧
    (child_join_namespaces (bytes "/var/run/ns/sbx1") world_child).1 ≠ -1 ∧
    join_namespaces (bytes "/var/run/ns/sbx1") 20
        (child_join_namespaces (bytes "/var/run/ns/sbx1") world_child).2
      = (1, (child_join_namespaces (bytes "/var/run/ns/sbx1") world_child).2) :=
  ⟨by decide, by decide,
    rejoin_is_noop (bytes "/var/run/ns/sbx1") 20 world_child (by decide) (by decide)⟩

/-- C3 (the code departs from the claim): `close_channels` returns what `write` returned,
that is 1 (one byte written) when the command byte is written and -1 when the write fails;
it never returns 0. -/
theorem close_channels_returns_write_count (w : World) :
    (close_channels w).1 =
        (if w.child_write_fd < 0 ∨ w.os w.now (.write w.child_write_fd [cmd_close_channels]) < 0
          then -1 else 1) ∧
    (close_channels w).1 ≠ 0 := by
  unfold close_channels sys_write
  by_cases h : w.child_write_fd < 0 ∨
      w.os w.now (.write w.child_write_fd [cmd_close_channels]) < 0
  · simp [h]
  · simp [h]

/-! ## System call lemmas -/

@[simp] theorem sys_write_trace (fd : Int) (buf : List Nat) (w : World) :
    (sys_write fd buf w).2.trace = w.trace ++ [⟨.write fd buf, (sys_write fd buf w).1⟩] := by
  unfold sys_write; split <;> simp [World.log]

@[simp] theorem sys_write_child_read_fd (fd : Int) (buf : List Nat) (w : World) :
    (sys_write fd buf w).2.child_read_fd = w.child_read_fd := by
  unfold sys_write; split <;> rfl

@[simp] theorem sys_write_child_write_fd (fd : Int) (buf : List Nat) (w : World) :
    (sys_write fd buf w).2.child_write_fd = w.child_write_fd := by
  unfold sys_write; split <;> rfl

@[simp] theorem sys_write_pipes (fd : Int) (buf : List Nat) (w : World) :
    (sys_write fd buf w).2.pipes = w.pipes := by
  unfold sys_write; split <;> rfl

theorem sys_write_ret (fd : Int) (buf : List Nat) (w : World) :
    (sys_write fd buf w).1 = -1 ∨ (sys_write fd buf w).1 = buf.length := by
  unfold sys_write; split <;> simp

theorem sys_read_cases (fd : Int) (n : Nat) (w : World) :
    ((sys_read fd n w).1 = -1 ∧ (sys_read fd n w).2.1 = []) ∨
    ((sys_read fd n w).1 = ((w.pipes fd).take n).length ∧
      (sys_read fd n w).2.1 = (w.pipes fd).take n ∧
      (sys_read fd n w).2.2.pipes fd = (w.pipes fd).drop n) := by
  unfold sys_read; split <;> simp

theorem to_int32_of_lt (n : Nat) (h : n < 2 ^ 31) : to_int32 n = n := by
  unfold to_int32
  split <;> omega

theorem take_strlen (fs : List Nat) : fs.take (strlen fs) = cstr fs := by
  unfold strlen
  induction fs with
  | nil => rfl
  | cons a s ih =>
    by_cases ha : a = 0
    · simp [cstr_cons, ha]
    · simp [cstr_cons, ha, ih]

/-- C5 (the code departs from the claim): with `/mnt` a mount point (device 2) under the
root (device 1), the containing mount point of `/mnt/data` is `/mnt`, but
`parent_get_mount_point` returns `/`: the loop ends as soon as `dirname` yields `/`,
so the root is never stat'ed and a mount point right under the root is missed. -/
theorem parent_get_mount_point_misses_top_level_mount :
    (parent_get_mount_point (bytes "/mnt/data") [] world_top_mount).result
      = some (0, bytes "/") ∧
    (parent_get_mount_point (bytes "/mnt/data") [] world_top_mount).world.trace
      = [⟨.stat (bytes "/mnt/data"), 0⟩, ⟨.stat (bytes "/mnt"), 0⟩] ∧
    world_top_mount.files (bytes "/mnt/data") = some ⟨2, S_IFDIR⟩ ∧
    world_top_mount.files (bytes "/mnt") = some ⟨2, S_IFDIR⟩ ∧
    world_top_mount.files (bytes "/") = some ⟨1, S_IFDIR⟩ ∧
    spec_mount_point world_top_mount.files 10 (bytes "/mnt/data") (bytes "/mnt/data")
      = bytes "/mnt" := by
  refine ⟨by decide, by decide, by decide, by decide, by decide, by decide⟩

/-! ## Tokens of a line -/

/-- Fields of a string without the `cstr` step. -/
theorem spec_fields_def (line : List Nat) :
    spec_fields line = ((cstr line).splitOnP is_del).filter (fun t => !t.isEmpty) := rfl

theorem splitOnP_head_tail (p : Nat → Bool) (xs : List Nat) :
    xs.splitOnP p = xs.takeWhile (fun c => !p c) ::
      (match xs.dropWhile (fun c => !p c) with
        | [] => []
        | _ :: t => t.splitOnP p) := by
  induction xs with
  | nil => rfl
  | cons x xs ih =>
    rw [List.splitOnP_cons]
    by_cases h : p x = true
    · simp [h, List.takeWhile, List.dropWhile]
    · have h2 : p x = false := by simpa using h
      rw [if_neg h, ih]
      simp [h2, List.takeWhile, List.dropWhile, List.modifyHead]

theorem fields_cons_del (x : Nat) (xs : List Nat) (h : is_del x = true) :
    ((x :: xs).splitOnP is_del).filter (fun t => !t.isEmpty)
      = (xs.splitOnP is_del).filter (fun t => !t.isEmpty) := by
  rw [List.splitOnP_cons, if_pos h]
  simp

theorem fields_dropWhile (xs : List Nat) :
    (xs.splitOnP is_del).filter (fun t => !t.isEmpty)
      = ((xs.dropWhile is_del).splitOnP is_del).filter (fun t => !t.isEmpty) := by
  induction xs with
  | nil => rfl
  | cons x xs ih =>
    by_cases h : is_del x = true
    · rw [fields_cons_del x xs h, ih]
      simp [List.dropWhile, h]
    · have h2 : is_del x = false := by simpa using h
      simp [List.dropWhile, h2]

theorem fields_cons_tok (x : Nat) (xs : List Nat) (h : is_del x = false) :
    ((x :: xs).splitOnP is_del).filter (fun t => !t.isEmpty)
      = (x :: xs).takeWhile (fun c => !is_del c) ::
        ((((x :: xs).dropWhile (fun c => !is_del c)).drop 1).splitOnP is_del).filter
          (fun t => !t.isEmpty) := by
  rw [splitOnP_head_tail]
  have hd : (x :: xs).takeWhile (fun c => !is_del c) = x :: xs.takeWhile (fun c => !is_del c) := by
    simp [List.takeWhile, h]
  rw [hd]
  cases hdw : (x :: xs).dropWhile (fun c => !is_del c) with
  | nil => simp
  | cons y t => simp

/-- One `strtok` call yields the first field and leaves the remaining fields. -/
theorem strtok_fields (s : List Nat) :
    (strtok s).1 = ((s.splitOnP is_del).filter (fun t => !t.isEmpty)).head? ∧
    (((strtok s).2).splitOnP is_del).filter (fun t => !t.isEmpty)
      = ((s.splitOnP is_del).filter (fun t => !t.isEmpty)).tail := by
  rw [fields_dropWhile s]
  unfold strtok
  cases hdw : s.dropWhile is_del with
  | nil => simp
  | cons b t =>
    have hb : is_del b = false := by
      have := List.head_dropWhile_not is_del s (by rw [hdw]; simp)
      simpa [hdw] using this
    simp only []
    rw [fields_cons_tok b t hb]
    simp

/-! ## `parent_set_fs_info` -/

theorem parent_set_fs_info_four (info : fs_info) (line a b c d : List Nat)
    (rest : List (List Nat)) (h : spec_fields line = a :: b :: c :: d :: rest) :
    parent_set_fs_info info line = (0, ⟨snprintf PATH_MAX a, snprintf PATH_MAX b,
      snprintf NAME_MAX c, snprintf PATH_MAX d⟩) := by
  rw [spec_fields_def] at h
  obtain ⟨h1, r1⟩ := strtok_fields (cstr line)
  rw [h] at h1 r1
  obtain ⟨h2, r2⟩ := strtok_fields (strtok (cstr line)).2
  rw [r1] at h2 r2
  obtain ⟨h3, r3⟩ := strtok_fields (strtok (strtok (cstr line)).2).2
  rw [r2] at h3 r3
  obtain ⟨h4, _⟩ := strtok_fields (strtok (strtok (strtok (cstr line)).2).2).2
  rw [r3] at h4
  simp only [List.head?, List.tail] at h1 h2 h3 h4
  unfold parent_set_fs_info
  simp only [h1, h2, h3, h4]

theorem parent_set_fs_info_short (info : fs_info) (line : List Nat)
    (h : (spec_fields line).length < 4) : (parent_set_fs_info info line).1 = -1 := by
  rw [spec_fields_def] at h
  obtain ⟨h1, r1⟩ := strtok_fields (cstr line)
  obtain ⟨h2, r2⟩ := strtok_fields (strtok (cstr line)).2
  obtain ⟨h3, r3⟩ := strtok_fields (strtok (strtok (cstr line)).2).2
  obtain ⟨h4, _⟩ := strtok_fields (strtok (strtok (strtok (cstr line)).2).2).2
  unfold parent_set_fs_info
  rcases hT : ((cstr line).splitOnP is_del).filter (fun t => !t.isEmpty) with
    _ | ⟨a, _ | ⟨b, _ | ⟨c, _ | ⟨d, rest⟩⟩⟩⟩
  · rw [hT] at h1
    simp only [List.head?] at h1
    simp only [h1]
  · rw [hT] at h1 r1
    rw [r1] at h2
    simp only [List.head?, List.tail] at h1 h2
    simp only [h1, h2]
  · rw [hT] at h1 r1
    rw [r1] at h2 r2
    rw [r2] at h3
    simp only [List.head?, List.tail] at h1 h2 h3
    simp only [h1, h2, h3]
  · rw [hT] at h1 r1
    rw [r1] at h2 r2
    rw [r2] at h3 r3
    rw [r3] at h4
    simp only [List.head?, List.tail] at h1 h2 h3 h4
    simp only [h1, h2, h3, h4]
  · rw [hT] at h
    simp only [List.length_cons] at h
    omega

/-- C7: `parent_set_fs_info` returns -1 exactly when the line has fewer than four tokens
separated by runs of space, tab or newline; otherwise it returns 0 and the four fields
are the first four tokens, cut to `PATH_MAX - 1`, `PATH_MAX - 1`, `NAME_MAX - 1` and
`PATH_MAX - 1` bytes, whatever tokens follow. -/
theorem parent_set_fs_info_tokens (info : fs_info) (line : List Nat) :
    ((parent_set_fs_info info line).1 = -1 ↔ (spec_fields line).length < 4) ∧
    ∀ a b c d rest, spec_fields line = a :: b :: c :: d :: rest →
      parent_set_fs_info info line = (0, ⟨a.take (PATH_MAX - 1), b.take (PATH_MAX - 1),
        c.take (NAME_MAX - 1), d.take (PATH_MAX - 1)⟩) := by
  constructor
  · constructor
    · intro hret
      by_contra hlen
      rcases hT : spec_fields line with _ | ⟨a, _ | ⟨b, _ | ⟨c, _ | ⟨d, rest⟩⟩⟩⟩
      all_goals first
        | (rw [hT] at hlen; simp at hlen; done)
        | (rw [parent_set_fs_info_four info line _ _ _ _ _ hT] at hret; simp at hret)
    · exact parent_set_fs_info_short info line
  · intro a b c d rest hT
    exact parent_set_fs_info_four info line a b c d rest hT

/-- Witness of C7: a line of `/proc/mounts` with six tokens. -/
theorem parent_set_fs_info_tokens_witness :
    spec_fields line_root = [bytes "/dev/sda1", bytes "/", bytes "ext4", bytes "rw,relatime",
      bytes "0", bytes "0"] ∧
    parent_set_fs_info ⟨[], [], [], []⟩ line_root
      = (0, ⟨(bytes "/dev/sda1").take (PATH_MAX - 1), (bytes "/").take (PATH_MAX - 1),
          (bytes "ext4").take (NAME_MAX - 1), (bytes "rw,relatime").take (PATH_MAX - 1)⟩) :=
  ⟨by decide,
    (parent_set_fs_info_tokens ⟨[], [], [], []⟩ line_root).2 (bytes "/dev/sda1") (bytes "/")
      (bytes "ext4") (bytes "rw,relatime") [bytes "0", bytes "0"] (by decide)⟩

/-! ## `parent_read_fs_info` -/

theorem mem_of_mem_splitOnP (p : Nat → Bool) (xs : List Nat) :
    ∀ t ∈ xs.splitOnP p, ∀ x ∈ t, x ∈ xs := by
  induction xs with
  | nil => intro t ht x hx; simp at ht; subst ht; simp at hx
  | cons y ys ih =>
    intro t ht x hx
    rw [List.splitOnP_cons] at ht
    by_cases hy : p y = true
    · rw [if_pos hy] at ht
      rcases List.mem_cons.mp ht with h | h
      · subst h; simp at hx
      · exact List.mem_cons_of_mem _ (ih t h x hx)
    · rw [if_neg hy] at ht
      cases hs : ys.splitOnP p with
      | nil => rw [hs] at ht; simp [List.modifyHead] at ht
      | cons u us =>
        rw [hs] at ht
        simp only [List.modifyHead] at ht
        rcases List.mem_cons.mp ht with h | h
        · subst h
          rcases List.mem_cons.mp hx with h1 | h1
          · subst h1; exact List.mem_cons_self _ _
          · exact List.mem_cons_of_mem _ (ih u (by rw [hs]; simp) x h1)
        · exact List.mem_cons_of_mem _ (ih t (by rw [hs]; simp [h]) x hx)

theorem cstr_eq_self (t : List Nat) (h : ∀ x ∈ t, x ≠ 0) : cstr t = t := by
  induction t with
  | nil => rfl
  | cons a t ih =>
    have ha : a ≠ 0 := h a (by simp)
    rw [cstr_cons, if_neg ha, ih (fun x hx => h x (by simp [hx]))]

theorem cstr_no_nul (s : List Nat) : ∀ x ∈ cstr s, x ≠ 0 := by
  intro x hx
  have := List.mem_takeWhile_imp hx
  simpa using this

theorem cstr_field (line t : List Nat) (h : t ∈ spec_fields line) : cstr t = t := by
  apply cstr_eq_self
  intro x hx
  rw [spec_fields_def] at h
  exact cstr_no_nul line x (mem_of_mem_splitOnP is_del (cstr line) t (List.mem_filter.mp h).1 x hx)

theorem strncmp_field (path b : List Nat) (hb : cstr b = b) (hlen : b.length < PATH_MAX) :
    strncmp path b PATH_MAX = 0 ↔ b = cstr path := by
  rw [strncmp_eq_zero_iff, hb, List.take_of_length_le (Nat.le_of_lt hlen)]
  constructor
  · intro h
    by_cases hp : (cstr path).length ≤ PATH_MAX
    · rw [List.take_of_length_le hp] at h; exact h.symm
    · exfalso
      have := congrArg List.length h
      rw [List.length_take] at this
      omega
  · intro h
    rw [← h, List.take_of_length_le (Nat.le_of_lt hlen)]

theorem sys_call_ok (c : Syscall) (w : World) (h : 0 ≤ w.os w.now c) : (sys_call c w).1 = 0 := by
  unfold sys_call
  rw [if_neg (by omega)]

theorem parent_read_fs_info_loop_spec (path : List Nat) (lines : List (List Nat))
    (hfit : ∀ l ∈ lines, fields_fit l) (info : fs_info) :
    (∀ line, lines.find? (spec_matches path) = some line →
      parent_read_fs_info_loop lines path info = (0, spec_record line)) ∧
    (lines.find? (spec_matches path) = none →
      (parent_read_fs_info_loop lines path info).1 = -1) := by
  induction lines generalizing info with
  | nil => simp [parent_read_fs_info_loop]
  | cons line rest ih =>
    have ihr := fun i => ih (fun l hl => hfit l (by simp [hl])) i
    rw [parent_read_fs_info_loop]
    by_cases hlen : (spec_fields line).length < 4
    · have hm : spec_matches path line = false := by
        unfold spec_matches
        simp [hlen]
      rw [List.find?_cons_of_neg _ (by simp [hm])]
      rw [if_pos (parent_set_fs_info_short info line hlen)]
      exact ihr _
    · rcases hT : spec_fields line with _ | ⟨a, _ | ⟨b, _ | ⟨c, _ | ⟨d, more⟩⟩⟩⟩
      · rw [hT] at hlen; simp at hlen
      · rw [hT] at hlen; simp at hlen
      · rw [hT] at hlen; simp at hlen
      · rw [hT] at hlen; simp at hlen
      · obtain ⟨fa, fb, fc, fd⟩ := hfit line (by simp)
        rw [hT] at fa fb fc fd
        simp only [List.getD_cons_zero, List.getD_cons_succ] at fa fb fc fd
        have hrec : parent_set_fs_info info line = (0, spec_record line) := by
          rw [parent_set_fs_info_four info line a b c d more hT]
          unfold spec_record snprintf
          rw [hT]
          unfold PATH_MAX at fa fb fd
          unfold NAME_MAX at fc
          simp only [List.getD_cons_zero, List.getD_cons_succ, PATH_MAX, NAME_MAX]
          rw [List.take_of_length_le (by omega), List.take_of_length_le (by omega),
            List.take_of_length_le (by omega), List.take_of_length_le (by omega)]
        have hmp : (spec_record line).mount_point = b := by
          unfold spec_record; rw [hT]; rfl
        have hcb : cstr b = b := cstr_field line b (by rw [hT]; simp)
        rw [hrec]
        dsimp only
        rw [if_neg (by decide), hmp]
        by_cases hm : b = cstr path
        · have hsm : spec_matches path line = true := by
            unfold spec_matches
            rw [hT]
            simp [hm]
          rw [List.find?_cons_of_pos _ hsm, if_pos ((strncmp_field path b hcb fb).mpr hm)]
          simp
        · have hsm : spec_matches path line = false := by
            unfold spec_matches
            rw [hT]
            simp [hm]
          rw [List.find?_cons_of_neg _ (by simp [hsm]),
            if_neg (fun h => hm ((strncmp_field path b hcb fb).mp h))]
          exact ihr _

/-- C6: when `/proc/mounts` opens and the fields of its lines are shorter than the
buffers, `parent_read_fs_info(path)` returns 0 exactly when some line with at least four
whitespace-separated fields has `path` as its second field; the record returned is then
made of the first four fields of the first such line; with no such line the result
is -1. -/
theorem parent_read_fs_info_first_match (path : List Nat) (info : fs_info) (w : World)
    (hopen : 0 ≤ w.os w.now (.fopen procMountsPath))
    (hfit : ∀ line ∈ w.proc_mounts, fields_fit line) :
    ((parent_read_fs_info path info w).1.1 = 0 ↔
      ∃ line ∈ w.proc_mounts, spec_matches path line = true) ∧
    (∀ line, w.proc_mounts.find? (spec_matches path) = some line →
      (parent_read_fs_info path info w).1 = (0, spec_record line)) ∧
    ((∀ line ∈ w.proc_mounts, spec_matches path line = false) →
      (parent_read_fs_info path info w).1.1 = -1) := by
  have hrun : (parent_read_fs_info path info w).1
      = parent_read_fs_info_loop w.proc_mounts path info := by
    unfold parent_read_fs_info
    simp only []
    rw [if_neg (by rw [sys_call_ok _ _ hopen]; decide)]
  obtain ⟨hsome, hnone⟩ := parent_read_fs_info_loop_spec path w.proc_mounts hfit info
  rw [hrun]
  refine ⟨⟨?_, ?_⟩, hsome, ?_⟩
  · intro h0
    cases hf : w.proc_mounts.find? (spec_matches path) with
    | none => rw [hnone hf] at h0; simp at h0
    | some line => exact ⟨line, List.mem_of_find?_eq_some hf, List.find?_some hf⟩
  · rintro ⟨line, hmem, hm⟩
    cases hf : w.proc_mounts.find? (spec_matches path) with
    | none =>
      have := List.find?_eq_none.mp hf line hmem
      exact absurd hm this
    | some l => rw [hsome l hf]
  · intro hall
    apply hnone
    rw [List.find?_eq_none]
    intro l hl
    simp [hall l hl]

/-- Witness of C6: the mount point `/` is found on the third line of `/proc/mounts`,
after a line with two fields and the line of `/proc`. -/
theorem parent_read_fs_info_first_match_witness :
    0 ≤ world_mounts.os world_mounts.now (.fopen procMountsPath) ∧
    (parent_read_fs_info (bytes "/") ⟨[], [], [], []⟩ world_mounts).1
      = (0, spec_record line_root) ∧
    spec_record line_root = ⟨bytes "/dev/sda1", bytes "/", bytes "ext4", bytes "rw,relatime"⟩ :=
  ⟨by decide,
    (parent_read_fs_info_first_match (bytes "/") ⟨[], [], [], []⟩ world_mounts (by decide)
      (by
        intro line hl
        simp only [world_mounts, List.mem_cons, List.mem_singleton, List.not_mem_nil,
          or_false] at hl
        rcases hl with h | h | h <;> subst h <;> unfold fields_fit <;> decide)).2.1 line_root (by decide),
    by decide⟩

/-! ## Commands and responses -/

/-- C8 (the code departs from the claim): a child calls `get_fs_info("")` and then
`remove_namespaces("/var/run/ns/sbx1", 16)`.  The first call writes the command byte and
the size 0, takes the empty `write` of the path for a failure and returns -1 without
reading; the parent serves both commands and answers `failure`, then `success`.  The
second call therefore reads the answer of the first and returns -1, and the answer
`success` stays unread in the pipe. -/
theorem empty_request_leaves_response_unread :
    (get_fs_info [] world_child_two_answers).1 = (-1, none) ∧
    world_child_after_empty.trace
      = [⟨.write 5 [cmd_get_fs_info], 1⟩, ⟨.write 5 [0, 0, 0, 0], 4⟩, ⟨.write 5 [], 0⟩] ∧
    (remove_namespaces (bytes "/var/run/ns/sbx1") 16 world_child_after_empty).1 = -1 ∧
    world_child_after_remove.pipes 4 = [res_success] ∧
    written 5 world_child_after_remove.trace = world_parent_two_requests.pipes 6 ∧
    (parent_listen_child child_record world_parent_two_requests).result = some 0 ∧
    written 7 (parent_listen_child child_record world_parent_two_requests).world.trace
      = world_child_two_answers.pipes 4 := by
  refine ⟨by decide, by decide, by decide, by decide, by decide, by decide, by decide⟩

/-! ## Pending input never grows -/

theorem pipes_le_refl (w : World) : pipes_le w w := fun _ => Nat.le_refl _

theorem pipes_le_trans {w w1 w2 : World} (h1 : pipes_le w w1) (h2 : pipes_le w1 w2) :
    pipes_le w w2 := fun fd => Nat.le_trans (h2 fd) (h1 fd)

theorem pipes_le_of_eq {w w1 : World} (h : w1.pipes = w.pipes) : pipes_le w w1 := by
  intro fd; rw [h]

@[simp] theorem sys_call_pipes (c : Syscall) (w : World) : (sys_call c w).2.pipes = w.pipes := by
  unfold sys_call; split <;> rfl

@[simp] theorem sys_stat_pipes (p : List Nat) (w : World) : (sys_stat p w).2.pipes = w.pipes := by
  unfold sys_stat; split <;> rfl

@[simp] theorem sys_open_pipes (c : Syscall) (w : World) : (sys_open c w).2.pipes = w.pipes := by
  unfold sys_open; split <;> rfl

@[simp] theorem sys_pipe_pipes (w : World) : (sys_pipe w).2.2.pipes = w.pipes := by
  unfold sys_pipe; split <;> rfl

@[simp] theorem sys_fork_pipes (w : World) : (sys_fork w).2.pipes = w.pipes := by
  unfold sys_fork; split <;> rfl

@[simp] theorem close_fd_pipes (fd : Int) (w : World) : (close_fd fd w).2.pipes = w.pipes := by
  unfold close_fd; split <;> rfl

theorem sys_read_pipes_le (fd : Int) (n : Nat) (w : World) : pipes_le w (sys_read fd n w).2.2 := by
  intro f
  unfold sys_read
  split
  · exact Nat.le_refl _
  · by_cases hf : f = fd
    · subst hf; simp
    · simp [hf]

theorem close_children_pipes (cs : List Child) (w : World) :
    (cs.foldl (fun v c => (close_fd c.write_fd (close_fd c.read_fd v).2).2) w).pipes
      = w.pipes := by
  induction cs generalizing w with
  | nil => rfl
  | cons c cs ih => rw [List.foldl_cons, ih]; simp

theorem spawn_save_child_pipes (w : World) : (spawn_save_child w).2.pipes = w.pipes := by
  unfold spawn_save_child
  simp only []
  split_ifs <;> simp [close_children_pipes]

theorem pl_read {w v : World} (fd : Int) (n : Nat) (h : pipes_le w v) :
    pipes_le w (sys_read fd n v).2.2 := pipes_le_trans h (sys_read_pipes_le fd n v)

theorem pl_write {w v : World} (fd : Int) (buf : List Nat) (h : pipes_le w v) :
    pipes_le w (sys_write fd buf v).2 := pipes_le_trans h (pipes_le_of_eq (by simp))

theorem pl_call {w v : World} (c : Syscall) (h : pipes_le w v) :
    pipes_le w (sys_call c v).2 := pipes_le_trans h (pipes_le_of_eq (by simp))

theorem pl_stat {w v : World} (p : List Nat) (h : pipes_le w v) :
    pipes_le w (sys_stat p v).2 := pipes_le_trans h (pipes_le_of_eq (by simp))

theorem child_send_cmd_pipes_le (cmd : Nat) (data : Option (List Nat)) (size : Int) (w : World) :
    pipes_le w (child_send_cmd cmd data size w).2 := by
  unfold child_send_cmd
  cases data <;> simp only [] <;> split_ifs <;>
    repeat' first
      | exact pipes_le_refl _
      | with_reducible apply pl_read
      | with_reducible apply pl_write

theorem child_join_loop_pipes (l : List Namespace) (p : List Nat) (m : Nat) (w : World) :
    (child_join_loop l p m w).2.pipes = w.pipes := by
  induction l generalizing m w with
  | nil => rfl
  | cons ns rest ih =>
    rw [child_join_loop]
    split
    · rw [ih]; simp
    · simp only []
      split_ifs
      · simp
      · simp
      · rw [ih]; simp

theorem child_join_namespaces_pipes (p : List Nat) (w : World) :
    (child_join_namespaces p w).2.pipes = w.pipes := by
  unfold child_join_namespaces
  simp only []
  split <;> simp [child_join_loop_pipes]

@[simp] theorem mnt_slave_pipes (w : World) : (mnt_slave w).2.pipes = w.pipes := by
  unfold mnt_slave
  simp only []
  split_ifs <;> simp

theorem hooks_pipes (l : List Namespace) (w : World) :
    (l.foldl (fun v ns => if ns.hook then (mnt_slave v).2 else v) w).pipes = w.pipes := by
  induction l generalizing w with
  | nil => rfl
  | cons ns rest ih =>
    rw [List.foldl_cons, ih]
    split_ifs <;> simp

theorem pl_join {w v : World} (p : List Nat) (h : pipes_le w v) :
    pipes_le w (child_join_namespaces p v).2 :=
  pipes_le_trans h (pipes_le_of_eq (child_join_namespaces_pipes p v))

theorem pl_send {w v : World} (cmd : Nat) (data : Option (List Nat)) (size : Int)
    (h : pipes_le w v) : pipes_le w (child_send_cmd cmd data size v).2 :=
  pipes_le_trans h (child_send_cmd_pipes_le cmd data size v)

theorem pl_hooks {w v : World} (l : List Namespace) (h : pipes_le w v) :
    pipes_le w (l.foldl (fun v ns => if ns.hook then (mnt_slave v).2 else v) v) :=
  pipes_le_trans h (pipes_le_of_eq (hooks_pipes l v))

theorem child_new_namespaces_pipes_le (p : List Nat) (len : Int) (w : World) :
    pipes_le w (child_new_namespaces p len w).2 := by
  unfold child_new_namespaces
  simp only []
  split_ifs <;>
    repeat' first
      | exact pipes_le_refl _
      | with_reducible apply pl_hooks
      | with_reducible apply pl_send
      | with_reducible apply pl_join
      | with_reducible apply pl_call

theorem pl_bind {α β : Type} {w : World} (o : Outcome α) (f : α → World → Outcome β)
    (ho : pipes_le w o.world) (hf : ∀ a w1, pipes_le w w1 → pipes_le w (f a w1).world) :
    pipes_le w (o.bind f).world := by
  cases o with
  | ret a w1 => exact hf a w1 ho
  | exit c w1 => exact ho
  | hang w1 => exact ho

theorem pl_get_data_loop {w : World} (fuel : Nat) (fd size ds : Int) (data : List Nat)
    (v : World) (h : pipes_le w v) :
    pipes_le w (parent_get_data_loop fuel fd size ds data v).world := by
  induction fuel generalizing ds data v with
  | zero => exact h
  | succ n ih =>
    rw [parent_get_data_loop]
    simp only []
    split_ifs
    all_goals first
      | exact h
      | exact pl_read _ _ h
      | exact ih _ _ _ (pl_read _ _ h)

theorem pl_get_data {w : World} (fd ds : Int) (v : World) (h : pipes_le w v) :
    pipes_le w (parent_get_data fd ds v).world := by
  unfold parent_get_data
  simp only []
  split_ifs
  · exact pl_read _ _ h
  · exact pl_read _ _ h
  · exact pl_get_data_loop _ _ _ _ _ _ (pl_read _ _ h)

theorem parent_remove_loop_pipes (l : List Namespace) (p : List Nat) (w : World) :
    (parent_remove_loop l p w).pipes = w.pipes := by
  induction l generalizing w with
  | nil => rfl
  | cons ns rest ih =>
    rw [parent_remove_loop]
    split
    · rw [ih]; simp
    · simp only []
      split_ifs
      · rw [ih]; simp
      · rw [ih]; simp

theorem pl_remove {w : World} (c : Child) (v : World) (h : pipes_le w v) :
    pipes_le w (parent_remove_namespaces c v).world := by
  unfold parent_remove_namespaces
  apply pl_bind _ _ (pl_get_data _ _ _ h)
  intro d w1 h1
  split_ifs
  · exact h1
  · simp only []
    split
    · exact pl_stat _ h1
    · split_ifs
      · exact pl_stat _ h1
      · exact pl_call _ (pipes_le_trans (pl_stat _ h1)
          (pipes_le_of_eq (parent_remove_loop_pipes _ _ _)))
      · exact pl_call _ (pipes_le_trans (pl_stat _ h1)
          (pipes_le_of_eq (parent_remove_loop_pipes _ _ _)))

theorem parent_persistent_loop_pipes (l : List Namespace) (pid : Int) (p : List Nat)
    (w : World) : (parent_persistent_loop l pid p w).2.pipes = w.pipes := by
  induction l generalizing w with
  | nil => rfl
  | cons ns rest ih =>
    rw [parent_persistent_loop]
    split
    · rw [ih]; simp
    · simp only []
      split_ifs
      · simp
      · simp
      · rw [ih]; simp

theorem pl_persistent {w : World} (c : Child) (v : World) (h : pipes_le w v) :
    pipes_le w (parent_persistent_namespaces c v).world := by
  unfold parent_persistent_namespaces
  apply pl_bind _ _ (pl_get_data _ _ _ h)
  intro d w1 h1
  simp only []
  split_ifs
  · exact h1
  · exact pipes_le_trans h1 (pipes_le_of_eq (parent_persistent_loop_pipes _ _ _ _))
  · exact pipes_le_trans h1 (pipes_le_of_eq (parent_persistent_loop_pipes _ _ _ _))

theorem pl_spawn {w v : World} (h : pipes_le w v) : pipes_le w (spawn_save_child v).2 :=
  pipes_le_trans h (pipes_le_of_eq (spawn_save_child_pipes v))

theorem pl_new {w : World} (c : Child) (v : World) (h : pipes_le w v) :
    pipes_le w (parent_new_namespaces c v).world := by
  unfold parent_new_namespaces
  apply pl_bind _ _ (pl_get_data _ _ _ h)
  intro d w1 h1
  simp only []
  split_ifs
  · exact h1
  · exact pl_spawn h1
  · exact pl_spawn h1
  · exact pipes_le_trans (pl_spawn h1) (child_new_namespaces_pipes_le _ _ _)
  · exact pipes_le_trans (pl_spawn h1) (child_new_namespaces_pipes_le _ _ _)

theorem pl_join_ns {w : World} (c : Child) (v : World) (h : pipes_le w v) :
    pipes_le w (parent_join_namespaces c v).world := by
  unfold parent_join_namespaces
  apply pl_bind _ _ (pl_get_data _ _ _ h)
  intro d w1 h1
  simp only []
  split_ifs
  · exact h1
  · exact pl_spawn h1
  · exact pl_spawn h1
  · exact pl_join _ (pl_spawn h1)
  · exact pl_join _ (pl_spawn h1)

theorem pl_dispatch {w : World} (cmd : Nat) (c : Child) (v : World) (h : pipes_le w v) :
    pipes_le w (parent_dispatch cmd c v).world := by
  unfold parent_dispatch
  split_ifs
  · exact pl_new c v h
  · exact pl_join_ns c v h
  · exact pl_remove c v h
  · exact pl_persistent c v h
  · exact h

theorem pl_mount_point_end {w : World} (a b : List Nat) (v : World) (h : pipes_le w v) :
    pipes_le w (parent_get_mount_point_end a b v).world := by
  unfold parent_get_mount_point_end
  split_ifs <;> exact h

theorem pl_mount_point_loop {w : World} (fuel dev : Nat) (a b : List Nat) (v : World)
    (h : pipes_le w v) : pipes_le w (parent_get_mount_point_loop fuel dev a b v).world := by
  induction fuel generalizing a b v with
  | zero => exact h
  | succ n ih =>
    rw [parent_get_mount_point_loop]
    simp only []
    split_ifs
    · split
      · exact pl_stat _ h
      · split_ifs
        · exact pl_mount_point_end _ _ _ (pl_stat _ h)
        · exact ih _ _ _ (pl_stat _ h)
    · exact pl_mount_point_end _ _ _ h

theorem pl_mount_point {w : World} (a b : List Nat) (v : World) (h : pipes_le w v) :
    pipes_le w (parent_get_mount_point a b v).world := by
  unfold parent_get_mount_point
  simp only []
  split
  · exact pl_stat _ h
  · exact pl_mount_point_loop _ _ _ _ _ (pl_stat _ h)

theorem pl_fs_info_end {w : World} (c : Child) (res : Nat) (info : fs_info) (v : World)
    (h : pipes_le w v) : pipes_le w (parent_get_fs_info_end c res info v) := by
  unfold parent_get_fs_info_end
  simp only []
  split_ifs
  · exact pl_write _ _ (pl_write _ _ h)
  · exact pl_write _ _ h

theorem pl_read_fs_info {w : World} (p : List Nat) (info : fs_info) (v : World)
    (h : pipes_le w v) : pipes_le w (parent_read_fs_info p info v).2 := by
  unfold parent_read_fs_info
  simp only []
  split_ifs
  · exact pl_call _ h
  · exact pl_call _ (pl_call _ h)

theorem pl_get_fs_info {w : World} (c : Child) (v : World) (h : pipes_le w v) :
    pipes_le w (parent_get_fs_info c v).world := by
  unfold parent_get_fs_info
  simp only []
  apply pl_bind _ _ (pl_get_data _ _ _ h)
  intro d w1 h1
  split_ifs
  · simp only [Outcome.world]
    exact pl_fs_info_end _ _ _ _ h1
  · simp only [Outcome.world]
    exact pl_fs_info_end _ _ _ _ h1
  · apply pl_bind _ _ (pl_mount_point _ _ _ h1)
    intro m w2 h2
    split_ifs
    · simp only [Outcome.world]
      exact pl_fs_info_end _ _ _ _ h2
    · simp only [Outcome.world]
      exact pl_fs_info_end _ _ _ _ (pl_read_fs_info _ _ _ h2)
    · simp only [Outcome.world]
      exact pl_fs_info_end _ _ _ _ (pl_read_fs_info _ _ _ h2)

/-! ## The dispatch loop -/

theorem bind_congr {α β : Type} (o : Outcome α) (f g : α → World → Outcome β)
    (h : ∀ a w1, o = .ret a w1 → f a w1 = g a w1) : o.bind f = o.bind g := by
  cases o with
  | ret a w1 => exact h a w1 rfl
  | exit c w1 => rfl
  | hang w1 => rfl

theorem took_command_pipes (child : Child) (w : World) (cmd : Nat) (rest : List Nat)
    (hpipe : w.pipes child.read_fd = cmd :: rest)
    (hread : 0 ≤ child.read_fd ∧ 0 ≤ w.os w.now (.read child.read_fd 1)) :
    (sys_read child.read_fd 1 w).1 = 1 ∧ (sys_read child.read_fd 1 w).2.1 = [cmd] ∧
    (took_command child w).pipes child.read_fd = rest ∧
    (took_command child w).trace = w.trace ++ [⟨.read child.read_fd 1, 1⟩] := by
  unfold took_command sys_read
  rw [if_neg (by omega)]
  simp [hpipe, World.log]

theorem read_positive_consumes (fd : Int) (w : World) (h : (sys_read fd 1 w).1 > 0) :
    ((sys_read fd 1 w).2.2.pipes fd).length + 1 ≤ (w.pipes fd).length := by
  rcases sys_read_cases fd 1 w with ⟨g, _⟩ | ⟨g, _, g3⟩
  · rw [g] at h; omega
  · rw [g3, List.length_drop]
    rw [g, List.length_take] at h
    omega

/-- The loop does not depend on its fuel once the fuel exceeds the pending input. -/
theorem parent_listen_loop_fuel (child : Child) :
    ∀ (f1 f2 : Nat) (w : World), (w.pipes child.read_fd).length < f1 →
      (w.pipes child.read_fd).length < f2 →
      parent_listen_loop f1 child w = parent_listen_loop f2 child w := by
  intro f1
  induction f1 with
  | zero => intro f2 w h1 _; omega
  | succ n ih =>
    intro f2 w h1 h2
    cases f2 with
    | zero => omega
    | succ m =>
      rw [parent_listen_loop, parent_listen_loop]
      simp only []
      split_ifs with hr hfs hcl
      · have hc := read_positive_consumes child.read_fd w hr
        apply bind_congr
        intro a w1 ho
        have hle := pl_get_fs_info child (sys_read child.read_fd 1 w).2.2 (pipes_le_refl _)
        rw [ho] at hle
        have := hle child.read_fd
        simp only [Outcome.world] at this
        exact ih m w1 (by omega) (by omega)
      · rfl
      · have hc := read_positive_consumes child.read_fd w hr
        apply bind_congr
        intro a w1 ho
        have hle := pl_dispatch ((sys_read child.read_fd 1 w).2.1.headD 0) child
          (sys_read child.read_fd 1 w).2.2 (pipes_le_refl _)
        rw [ho] at hle
        have := hle child.read_fd
        simp only [Outcome.world] at this
        split_ifs
        all_goals first
          | rfl
          | (apply ih m _ <;> simp <;> omega)
      · rfl
      · rfl

theorem parent_listen_loop_eq (child : Child) (fuel : Nat) (w : World)
    (h : (w.pipes child.read_fd).length < fuel) :
    parent_listen_loop fuel child w = parent_listen_child child w :=
  parent_listen_loop_fuel child fuel _ w h (Nat.lt_succ_self _)

/-- One turn of the loop on a command that is answered by the common code. -/
theorem parent_listen_child_step (child : Child) (w : World) (cmd : Nat) (rest : List Nat)
    (hpipe : w.pipes child.read_fd = cmd :: rest)
    (hread : 0 ≤ child.read_fd ∧ 0 ≤ w.os w.now (.read child.read_fd 1))
    (h5 : cmd ≠ cmd_get_fs_info) (h6 : cmd ≠ cmd_close_channels) :
    parent_listen_child child w =
      (parent_dispatch cmd child (took_command child w)).bind fun ret w1 =>
        if ret = 1 then .ret 1 w1
        else if (send_response child (if ret = 0 then res_success else res_failure) w1).1 = -1
          then .ret (-1) (send_response child (if ret = 0 then res_success else res_failure) w1).2
          else parent_listen_child child
            (send_response child (if ret = 0 then res_success else res_failure) w1).2 := by
  obtain ⟨hr1, hr2, hr3, _⟩ := took_command_pipes child w cmd rest hpipe hread
  unfold parent_listen_child
  rw [hpipe, List.length_cons, parent_listen_loop]
  simp only []
  rw [if_pos (by rw [hr1]; decide), hr2]
  simp only [List.headD_cons]
  rw [if_neg h5, if_neg h6]
  apply bind_congr
  intro ret w1 ho
  have hle := pl_dispatch cmd child (took_command child w) (pipes_le_refl _)
  unfold took_command at hle hr3
  rw [ho] at hle
  have hlen := hle child.read_fd
  simp only [Outcome.world] at hlen
  rw [hr3] at hlen
  unfold send_response
  split_ifs
  all_goals first
    | rfl
    | (apply parent_listen_loop_fuel child <;> first | (simp; omega) | simp)

/-- C9: on a command byte that is none of the six commands, `parent_listen_child` calls no
handler (the `default` arm sets `ret = -1` and leaves the world as it is), makes one
`write` of the single byte `failure` to the child right after the read of the command,
and, unless that write fails, goes on listening with the next command at the head of
the pipe. -/
theorem unknown_command_answered_failure (child : Child) (w : World) (cmd : Nat)
    (rest : List Nat)
    (hcmd : cmd ∉ [cmd_new_ns, cmd_remove_ns, cmd_join_ns, cmd_persistent_ns,
      cmd_get_fs_info, cmd_close_channels])
    (hpipe : w.pipes child.read_fd = cmd :: rest)
    (hread : 0 ≤ child.read_fd ∧ 0 ≤ w.os w.now (.read child.read_fd 1)) :
    parent_dispatch cmd child (took_command child w) = .ret (-1) (took_command child w) ∧
    (send_response child res_failure (took_command child w)).2.trace
      = w.trace ++ [⟨.read child.read_fd 1, 1⟩,
          ⟨.write child.write_fd [res_failure],
            (send_response child res_failure (took_command child w)).1⟩] ∧
    (send_response child res_failure (took_command child w)).2.pipes child.read_fd = rest ∧
    parent_listen_child child w =
      (if (send_response child res_failure (took_command child w)).1 = -1
        then .ret (-1) (send_response child res_failure (took_command child w)).2
        else parent_listen_child child
          (send_response child res_failure (took_command child w)).2) := by
  simp only [List.mem_cons, List.mem_singleton, List.not_mem_nil, or_false, not_or] at hcmd
  obtain ⟨h1, h2, h3, h4, h5, h6⟩ := hcmd
  obtain ⟨_, _, hr3, hr4⟩ := took_command_pipes child w cmd rest hpipe hread
  have hd : parent_dispatch cmd child (took_command child w)
      = .ret (-1) (took_command child w) := by
    unfold parent_dispatch
    rw [if_neg h1, if_neg h3, if_neg h2, if_neg h4]
  refine ⟨hd, ?_, ?_, ?_⟩
  · unfold send_response
    rw [sys_write_trace, hr4, List.append_assoc]
    rfl
  · unfold send_response
    rw [sys_write_pipes, hr3]
  · rw [parent_listen_child_step child w cmd rest hpipe hread h5 h6, hd]
    simp only [Outcome.bind]
    have hne : ¬ ((-1 : Int) = 1) := by decide
    have hz : (if (-1 : Int) = 0 then res_success else res_failure) = res_failure := by decide
    rw [if_neg hne, hz]

/-- Witness of C9: the byte 200 followed by `close_channels`. -/
theorem unknown_command_answered_failure_witness :
    world_parent_unknown.pipes child_record.read_fd = [200, cmd_close_channels] ∧
    (send_response child_record res_failure
      (took_command child_record world_parent_unknown)).2.trace
      = [⟨.read 6 1, 1⟩, ⟨.write 7 [res_failure], 1⟩] ∧
    (parent_listen_child child_record world_parent_unknown).result = some 0 :=
  have h := unknown_command_answered_failure child_record world_parent_unknown 200
    [cmd_close_channels] (by decide) (by decide) (by decide)
  ⟨by decide, by rw [h.2.1]; decide, by decide⟩

/-- C10: for the four commands with a handler, when the handler returns 1 (the run is
now in the new child) `parent_listen_child` returns 1 at once in the world the handler
left, so without any write; for any other result it makes one `write` of one response
byte to the child, `success` (0) if the handler returned 0 and `failure` (1) otherwise,
and then listens again (or returns -1 if that write fails). -/
theorem handler_result_decides_response (child : Child) (w : World) (cmd : Nat)
    (rest : List Nat) (r : Int) (w1 : World)
    (hcmd : cmd = cmd_new_ns ∨ cmd = cmd_join_ns ∨ cmd = cmd_remove_ns ∨
      cmd = cmd_persistent_ns)
    (hpipe : w.pipes child.read_fd = cmd :: rest)
    (hread : 0 ≤ child.read_fd ∧ 0 ≤ w.os w.now (.read child.read_fd 1))
    (hh : parent_dispatch cmd child (took_command child w) = .ret r w1) :
    (r = 1 → parent_listen_child child w = .ret 1 w1) ∧
    (r ≠ 1 →
      (send_response child (if r = 0 then res_success else res_failure) w1).2.trace
        = w1.trace ++ [⟨.write child.write_fd [if r = 0 then res_success else res_failure],
            (send_response child (if r = 0 then res_success else res_failure) w1).1⟩] ∧
      parent_listen_child child w =
        (if (send_response child (if r = 0 then res_success else res_failure) w1).1 = -1
          then .ret (-1) (send_response child (if r = 0 then res_success else res_failure) w1).2
          else parent_listen_child child
            (send_response child (if r = 0 then res_success else res_failure) w1).2)) := by
  have h5 : cmd ≠ cmd_get_fs_info := by
    rcases hcmd with h | h | h | h <;> rw [h] <;> decide
  have h6 : cmd ≠ cmd_close_channels := by
    rcases hcmd with h | h | h | h <;> rw [h] <;> decide
  have hstep := parent_listen_child_step child w cmd rest hpipe hread h5 h6
  rw [hh] at hstep
  simp only [Outcome.bind] at hstep
  constructor
  · intro hr
    rw [hstep, if_pos hr]
  · intro hr
    constructor
    · unfold send_response
      rw [sys_write_trace]
    · rw [hstep, if_neg hr]

/-- Witness of C10: a `join_ns` request served in a run where `fork` returns 0: the
handler returns 1 in the new child and so does `parent_listen_child`, the last system
calls being those of the new child joining the namespaces. -/
theorem handler_result_decides_response_witness :
    world_parent_join.pipes child_record.read_fd = [cmd_join_ns] ++ le32 3 ++ bytes "/ns" ∧
    (parent_dispatch cmd_join_ns child_record
      (took_command child_record world_parent_join)).result = some 1 ∧
    parent_listen_child child_record world_parent_join
      = .ret 1 (parent_dispatch cmd_join_ns child_record
          (took_command child_record world_parent_join)).world :=
  ⟨by decide, by decide,
    (handler_result_decides_response child_record world_parent_join cmd_join_ns
      (le32 3 ++ bytes "/ns") 1
      (parent_dispatch cmd_join_ns child_record
        (took_command child_record world_parent_join)).world
      (by decide) (by decide) (by decide) rfl).1 rfl⟩

/-! ## `wait_children` -/

@[simp] theorem close_fd_os (fd : Int) (w : World) : (close_fd fd w).2.os = w.os := by
  unfold close_fd; split <;> rfl

theorem sys_waitpid_ok (pid status : Int) (w : World) (h : 0 ≤ w.os w.now (.waitpid pid)) :
    (sys_waitpid pid status w).1 = pid ∧
    (sys_waitpid pid status w).2.1 = w.os w.now (.waitpid pid) ∧
    (sys_waitpid pid status w).2.2.os = w.os := by
  unfold sys_waitpid
  rw [if_neg (by omega)]
  exact ⟨rfl, rfl, rfl⟩

theorem getLast_getD_cons (s : Int) (l : List Int) (e : Int) :
    (s :: l).getLast?.getD e = l.getLast?.getD s := by
  rw [List.getLast?_cons]
  rfl

theorem wait_children_loop_spec (status : Int → Int) (hok : ∀ pid, 0 ≤ status pid)
    (todo : List Child) :
    ∀ (done : List Child) (st exit_code : Int) (w : World),
      (∀ t pid, w.os t (.waitpid pid) = status pid) →
      (∀ c ∈ todo, c.pid > 0 → c.pid ≠ -1) →
      (wait_children_loop todo done st exit_code w).1
        = ((exit_statuses status todo).filter (fun s => decide (s ≠ 0))).getLast?.getD
            exit_code := by
  induction todo with
  | nil => intro done st e w _ _; rfl
  | cons c rest ih =>
    intro done st e w hos hpid
    rw [wait_children_loop]
    by_cases hc : c.pid ≤ 0
    · rw [if_pos hc]
      have hf : exit_statuses status (c :: rest) = exit_statuses status rest := by
        unfold exit_statuses
        rw [List.filter_cons_of_neg (by simpa using hc)]
      rw [hf]
      exact ih _ _ _ w hos (fun c1 h => hpid c1 (List.mem_cons_of_mem _ h))
    · rw [if_neg hc]
      have hq : 0 ≤ w.os w.now (.waitpid c.pid) := by rw [hos]; exact hok _
      obtain ⟨w1, w2, w3⟩ := sys_waitpid_ok c.pid st w hq
      have hne : (sys_waitpid c.pid st w).1 ≠ -1 := by
        rw [w1]; exact hpid c (List.mem_cons_self _ _) (by omega)
      have hf : exit_statuses status (c :: rest)
          = WEXITSTATUS (status c.pid) :: exit_statuses status rest := by
        unfold exit_statuses
        rw [List.filter_cons_of_pos (by simpa using hc)]
        rfl
      dsimp only
      rw [ih _ _ _ _ (by intro t pid; simp [w3, hos])
        (fun c1 h => hpid c1 (List.mem_cons_of_mem _ h)), hf, if_neg hne, w2, hos]
      by_cases hs : WEXITSTATUS (status c.pid) ≠ 0
      · rw [if_pos hs, List.filter_cons_of_pos (by simpa using hs), getLast_getD_cons]
      · rw [if_neg hs, List.filter_cons_of_neg (by simpa using hs)]

/-- C20 (counterexample): with two children ending with exit statuses 2 and 1,
`wait_children` returns 1, the status of the last one, not the largest; with the two
entries swapped it returns 2. -/
theorem wait_children_not_largest :
    exit_statuses (fun pid => world_two_children.os 0 (.waitpid pid))
      world_two_children.children = [2, 1] ∧
    (wait_children world_two_children).1 = 1 ∧
    (wait_children world_two_children_swapped).1 = 2 := by
  refine ⟨by decide, by decide, by decide⟩

/-- C20 (amended): when every `waitpid` succeeds, `wait_children` returns the exit status
of the last recorded child, in table order, whose exit status is not 0, and 0 when there
is none; so it returns 0 exactly when every recorded child ended with exit status 0. -/
theorem wait_children_last_failure (w : World) (status : Int → Int)
    (hst : ∀ t pid, w.os t (.waitpid pid) = status pid) (hok : ∀ pid, 0 ≤ status pid) :
    (wait_children w).1
      = ((exit_statuses status w.children).filter (fun s => decide (s ≠ 0))).getLast?.getD 0 ∧
    ((wait_children w).1 = 0 ↔ ∀ s ∈ exit_statuses status w.children, s = 0) := by
  have h := wait_children_loop_spec status hok w.children [] (de32 w.uninit) 0 w hst
    (fun c _ hc => by omega)
  unfold wait_children
  refine ⟨h, ?_⟩
  rw [h]
  constructor
  · intro h0 s hs
    by_contra hne
    have hmem : s ∈ (exit_statuses status w.children).filter (fun s => decide (s ≠ 0)) :=
      List.mem_filter.mpr ⟨hs, by simpa using hne⟩
    cases hl : ((exit_statuses status w.children).filter
        (fun s => decide (s ≠ 0))).getLast? with
    | none =>
      rw [List.getLast?_eq_none_iff] at hl
      rw [hl] at hmem
      simp at hmem
    | some x =>
      rw [hl] at h0
      have hx := List.mem_of_getLast?_eq_some hl
      have := (List.mem_filter.mp hx).2
      simp at this h0
      exact this h0
  · intro hall
    have : (exit_statuses status w.children).filter (fun s => decide (s ≠ 0)) = [] := by
      rw [List.filter_eq_nil_iff]
      intro s hs
      simp [hall s hs]
    rw [this]
    rfl

/-- Witness of C20 (amended): the two children of the counterexample. -/
theorem wait_children_last_failure_witness :
    (wait_children world_two_children).1 = 1 :=
  (wait_children_last_failure world_two_children
    (fun pid => if pid = 100 then 2 * 256 else if pid = 101 then 256 else 0)
    (by intro t pid; simp [world_two_children])
    (by intro pid; dsimp only; split_ifs <;> decide)).1.trans (by decide)

/-! ## `parent_remove_namespaces` -/

theorem sys_call_trace (c : Syscall) (w : World) :
    (sys_call c w).2.trace = w.trace ++ [⟨c, (sys_call c w).1⟩] := by
  unfold sys_call; split <;> rfl

@[simp] theorem sys_call_files (c : Syscall) (w : World) : (sys_call c w).2.files = w.files := by
  unfold sys_call; split <;> rfl

@[simp] theorem sys_call_os (c : Syscall) (w : World) : (sys_call c w).2.os = w.os := by
  unfold sys_call; split <;> rfl

theorem sys_call_ret (c : Syscall) (w : World) :
    (sys_call c w).1 = if w.os w.now c < 0 then -1 else 0 := by
  unfold sys_call; split <;> rfl

theorem sys_stat_fst (p : List Nat) (w : World) : (sys_stat p w).1 = w.files p := by
  unfold sys_stat; split <;> simp [*]

@[simp] theorem sys_stat_files (p : List Nat) (w : World) : (sys_stat p w).2.files = w.files := by
  unfold sys_stat; split <;> rfl

@[simp] theorem sys_stat_os (p : List Nat) (w : World) : (sys_stat p w).2.os = w.os := by
  unfold sys_stat; split <;> rfl

theorem sys_stat_calls (p : List Nat) (w : World) :
    (sys_stat p w).2.trace.map Event.call = w.trace.map Event.call ++ [.stat p] := by
  unfold sys_stat; split <;> simp [World.log]

theorem sys_call_calls (c : Syscall) (w : World) :
    (sys_call c w).2.trace.map Event.call = w.trace.map Event.call ++ [c] := by
  rw [sys_call_trace]; simp

/-- The loop makes the calls read off the file system, whatever they return, and leaves
the file system view and the oracle alone. -/
theorem parent_remove_loop_calls (l : List Namespace) (p : List Nat) :
    ∀ w : World,
      (parent_remove_loop l p w).trace.map Event.call
        = w.trace.map Event.call ++ remove_calls w.files l p ∧
      (parent_remove_loop l p w).files = w.files ∧
      (parent_remove_loop l p w).os = w.os := by
  induction l with
  | nil => intro w; simp [parent_remove_loop, remove_calls]
  | cons ns rest ih =>
    intro w
    rw [parent_remove_loop, remove_calls]
    dsimp only
    rw [sys_stat_fst]
    cases hf : w.files (snprintf PATH_MAX (p ++ bytes "/" ++ ns.name)) with
    | none =>
      dsimp only
      obtain ⟨h1, h2, h3⟩ := ih (sys_stat (snprintf PATH_MAX (p ++ bytes "/" ++ ns.name)) w).2
      rw [h1, h2, h3, sys_stat_calls]
      simp
    | some st =>
      dsimp only
      by_cases hreg : st.st_mode &&& S_IFMT = S_IFREG
      · rw [if_neg (by simpa using hreg), if_pos hreg]
        obtain ⟨h1, h2, h3⟩ := ih (sys_call (.remove (snprintf PATH_MAX (p ++ bytes "/" ++ ns.name)))
          (sys_call (.umount (snprintf PATH_MAX (p ++ bytes "/" ++ ns.name)))
            (sys_stat (snprintf PATH_MAX (p ++ bytes "/" ++ ns.name)) w).2).2).2
        rw [h1, h2, h3, sys_call_calls, sys_call_calls, sys_stat_calls]
        simp
      · rw [if_pos (by simpa using hreg), if_neg hreg]
        obtain ⟨h1, h2, h3⟩ := ih (sys_stat (snprintf PATH_MAX (p ++ bytes "/" ++ ns.name)) w).2
        rw [h1, h2, h3, sys_stat_calls]
        simp

/-- C11: once the payload is read (`parent_get_data` has returned), the result of
`parent_remove_namespaces` is 0 exactly when the size read is not -1, the path stats as a
directory and the final `umount` of the path succeeds, and it is -1 otherwise.  Between
the `stat` of the path and that final `umount` the loop makes, for each of `ipc`, `uts`
and `mnt`, a `stat` and, for a regular file, an `umount` and a `remove`, whatever
these calls return: their failure neither stops the loop nor enters the result. -/
theorem parent_remove_namespaces_result (child : Child) (w w1 : World) (r : Int)
    (d : List Nat) (hget : parent_get_data child.read_fd PATH_MAX w = .ret (r, d) w1) :
    ((parent_remove_namespaces child w).result = some 0 ↔
      r ≠ -1 ∧ is_directory w1.files (cstr d) ∧
      0 ≤ w1.os (w1.trace.length + 1 +
          (remove_calls w1.files supported_namespaces (cstr d)).length)
        (.umount (cstr d))) ∧
    ((parent_remove_namespaces child w).result = some 0 ∨
      (parent_remove_namespaces child w).result = some (-1)) ∧
    (r ≠ -1 → is_directory w1.files (cstr d) →
      (parent_remove_namespaces child w).world.trace.map Event.call
        = w1.trace.map Event.call ++ [.stat (cstr d)]
          ++ remove_calls w1.files supported_namespaces (cstr d) ++ [.umount (cstr d)]) := by
  unfold parent_remove_namespaces
  rw [hget]
  simp only [Outcome.bind]
  by_cases hr : r = -1
  · rw [if_pos hr]
    simp [Outcome.result, hr]
  · rw [if_neg hr, sys_stat_fst]
    cases hf : w1.files (cstr d) with
    | none =>
      simp [Outcome.result, is_directory, hf]
    | some st =>
      dsimp only
      by_cases hdir : st.st_mode &&& S_IFMT = S_IFDIR
      · rw [if_neg (by simpa using hdir)]
        have hd : is_directory w1.files (cstr d) := ⟨st, hf, hdir⟩
        obtain ⟨h1, h2, h3⟩ := parent_remove_loop_calls supported_namespaces (cstr d)
          (sys_stat (cstr d) w1).2
        rw [sys_stat_files] at h1 h2
        rw [sys_stat_os] at h3
        have hlen : (parent_remove_loop supported_namespaces (cstr d) (sys_stat (cstr d) w1).2).now
            = w1.trace.length + 1
              + (remove_calls w1.files supported_namespaces (cstr d)).length := by
          have := congrArg List.length h1
          rw [sys_stat_calls] at this
          simp only [List.length_map, List.length_append, List.length_singleton] at this
          unfold World.now
          omega
        rw [sys_call_ret, hlen, h3]
        by_cases hu : w1.os (w1.trace.length + 1
            + (remove_calls w1.files supported_namespaces (cstr d)).length)
            (.umount (cstr d)) < 0
        · rw [if_pos hu, if_pos rfl]
          refine ⟨?_, Or.inr rfl, ?_⟩
          · simp only [Outcome.result]
            constructor
            · intro h; simp at h
            · rintro ⟨_, _, h⟩; omega
          · intro _ _
            simp only [Outcome.world]
            rw [sys_call_calls, h1, sys_stat_calls]
        · rw [if_neg hu, if_neg (by decide)]
          refine ⟨?_, Or.inl rfl, ?_⟩
          · simp only [Outcome.result]
            exact ⟨fun _ => ⟨hr, hd, by omega⟩, fun _ => trivial⟩
          · intro _ _
            simp only [Outcome.world]
            rw [sys_call_calls, h1, sys_stat_calls]
      · rw [if_pos (by simpa using hdir)]
        have hnd : ¬ is_directory w1.files (cstr d) := by
          rintro ⟨st1, h1, h2⟩
          rw [hf] at h1
          cases h1
          exact hdir h2
        simp [Outcome.result, hnd]

/-- Witness of C11: the directory `/ns` holds the three namespace files, every `umount`
and `remove` of a file fails, the final `umount` of `/ns` succeeds: the result is 0
and all three kinds were processed. -/
theorem parent_remove_namespaces_result_witness :
    (parent_remove_namespaces child_record world_parent_remove).result = some 0 ∧
    (parent_remove_namespaces child_record world_parent_remove).world.trace
      = [⟨.read 6 4, 4⟩, ⟨.read 6 3, 3⟩, ⟨.stat (bytes "/ns"), 0⟩,
         ⟨.stat (bytes "/ns/ipc"), 0⟩, ⟨.umount (bytes "/ns/ipc"), -1⟩,
         ⟨.remove (bytes "/ns/ipc"), -1⟩,
         ⟨.stat (bytes "/ns/uts"), 0⟩, ⟨.umount (bytes "/ns/uts"), -1⟩,
         ⟨.remove (bytes "/ns/uts"), -1⟩,
         ⟨.stat (bytes "/ns/mnt"), 0⟩, ⟨.umount (bytes "/ns/mnt"), -1⟩,
         ⟨.remove (bytes "/ns/mnt"), -1⟩,
         ⟨.umount (bytes "/ns"), 0⟩] :=
  ⟨((parent_remove_namespaces_result child_record world_parent_remove
      (parent_get_data child_record.read_fd PATH_MAX world_parent_remove).world 3
      (bytes "/ns") rfl).1).mpr
      ⟨by decide, ⟨⟨1, S_IFDIR⟩, by decide, by decide⟩, by decide⟩,
    by decide⟩

/-! ## The unshare mask -/

theorem child_join_loop_mask (l : List Namespace) (p : List Nat) (acc : Nat) (w : World)
    (m : Nat) (h : (child_join_loop l p acc w).1 = some m) : m ∈ joined_masks l acc := by
  induction l generalizing acc w with
  | nil =>
    simp only [child_join_loop, Option.some.injEq] at h
    simp [joined_masks, h]
  | cons ns rest ih =>
    rw [child_join_loop] at h
    rw [joined_masks, List.mem_append]
    split at h
    · exact Or.inl (ih _ _ h)
    · simp only [] at h
      split_ifs at h
      exact Or.inr (ih _ _ h)

theorem child_join_namespaces_mask (p : List Nat) (w : World)
    (h : (child_join_namespaces p w).1 ≠ -1) :
    ∃ m, m ∈ joined_masks supported_namespaces 0 ∧ (child_join_namespaces p w).1 = (m : Int) := by
  unfold child_join_namespaces at h ⊢
  simp only [] at h ⊢
  rcases hl : (child_join_loop supported_namespaces (cstr p) 0 w).1 with _ | m
  · simp [hl] at h
  · exact ⟨m, child_join_loop_mask _ _ _ _ m hl, by simp [hl]⟩

theorem unshare_flags_of_joined :
    ∀ m ∈ joined_masks supported_namespaces 0,
      unshare_flags_of (m : Int) = spec_unshare_mask m ∧
      m ||| spec_all_kinds = spec_all_kinds ∧
      spec_unshare_mask m &&& m = 0 ∧
      spec_unshare_mask m ||| m = spec_all_kinds ∧
      (spec_unshare_mask m = 0 ↔ m = spec_all_kinds) := by
  decide

theorem child_new_namespaces_eq (namespaces_path : List Nat) (len : Int) (w : World)
    (hm1 : (sys_call (.mount (cstr namespaces_path) (cstr namespaces_path) MS_BIND) w).1 = 0)
    (hm2 : (sys_call (.mount (bytes "none") (cstr namespaces_path) (MS_REC ||| MS_SLAVE))
      (sys_call (.mount (cstr namespaces_path) (cstr namespaces_path) MS_BIND) w).2).1 = 0)
    (wj : World) (j : Int)
    (hj : child_join_namespaces namespaces_path
      (sys_call (.mount (bytes "none") (cstr namespaces_path) (MS_REC ||| MS_SLAVE))
        (sys_call (.mount (cstr namespaces_path) (cstr namespaces_path) MS_BIND) w).2).2
      = (j, wj))
    (hne : j ≠ -1) :
    child_new_namespaces namespaces_path len w =
      if unshare_flags_of j = 0 then (0, wj)
      else if (sys_call (.unshare (unshare_flags_of j)) wj).1 = -1 then
        (-1, (sys_call (.unshare (unshare_flags_of j)) wj).2)
      else if (child_send_cmd cmd_persistent_ns (some namespaces_path) len
          (sys_call (.unshare (unshare_flags_of j)) wj).2).1 = -1 then
        (-1, (child_send_cmd cmd_persistent_ns (some namespaces_path) len
          (sys_call (.unshare (unshare_flags_of j)) wj).2).2)
      else
        (0, supported_namespaces.foldl (fun v ns => if ns.hook then (mnt_slave v).2 else v)
          (child_send_cmd cmd_persistent_ns (some namespaces_path) len
            (sys_call (.unshare (unshare_flags_of j)) wj).2).2) := by
  unfold child_new_namespaces
  simp only []
  rw [if_neg (by rw [hm1]; decide), if_neg (by rw [hm2]; decide), hj]
  simp only []
  rw [if_neg hne]
  rfl

/-- C24: in `child_new_namespaces`, once the two mounts have succeeded and
`child_join_namespaces` has returned a mask `joined` (not -1), that mask holds supported
kinds only, and the mask built for `unshare` is the set of all supported kinds
(`CLONE_NEWIPC | CLONE_NEWUTS | CLONE_NEWNS`) without the joined ones: the two are
disjoint and their union is the full set. When `joined` is the full set the function
returns 0 in the world `child_join_namespaces` left (no `unshare`, no command sent);
otherwise the next call is `unshare` with exactly that mask. -/
theorem child_new_namespaces_unshare_mask (namespaces_path : List Nat) (len : Int)
    (w wj : World) (j : Int)
    (hm1 : (sys_call (.mount (cstr namespaces_path) (cstr namespaces_path) MS_BIND) w).1 = 0)
    (hm2 : (sys_call (.mount (bytes "none") (cstr namespaces_path) (MS_REC ||| MS_SLAVE))
      (sys_call (.mount (cstr namespaces_path) (cstr namespaces_path) MS_BIND) w).2).1 = 0)
    (hj : child_join_namespaces namespaces_path
      (sys_call (.mount (bytes "none") (cstr namespaces_path) (MS_REC ||| MS_SLAVE))
        (sys_call (.mount (cstr namespaces_path) (cstr namespaces_path) MS_BIND) w).2).2
      = (j, wj))
    (hne : j ≠ -1) :
    ∃ joined : Nat, j = (joined : Int) ∧
      joined ||| spec_all_kinds = spec_all_kinds ∧
      spec_unshare_mask joined &&& joined = 0 ∧
      spec_unshare_mask joined ||| joined = spec_all_kinds ∧
      (joined = spec_all_kinds → child_new_namespaces namespaces_path len w = (0, wj)) ∧
      (joined ≠ spec_all_kinds →
        child_new_namespaces namespaces_path len w =
          if (sys_call (.unshare (spec_unshare_mask joined)) wj).1 = -1 then
            (-1, (sys_call (.unshare (spec_unshare_mask joined)) wj).2)
          else if (child_send_cmd cmd_persistent_ns (some namespaces_path) len
              (sys_call (.unshare (spec_unshare_mask joined)) wj).2).1 = -1 then
            (-1, (child_send_cmd cmd_persistent_ns (some namespaces_path) len
              (sys_call (.unshare (spec_unshare_mask joined)) wj).2).2)
          else
            (0, supported_namespaces.foldl
              (fun v ns => if ns.hook then (mnt_slave v).2 else v)
              (child_send_cmd cmd_persistent_ns (some namespaces_path) len
                (sys_call (.unshare (spec_unshare_mask joined)) wj).2).2)) := by
  have hj1 : (child_join_namespaces namespaces_path
      (sys_call (.mount (bytes "none") (cstr namespaces_path) (MS_REC ||| MS_SLAVE))
        (sys_call (.mount (cstr namespaces_path) (cstr namespaces_path) MS_BIND) w).2).2).1
      ≠ -1 := by rw [hj]; exact hne
  obtain ⟨m, hm, he⟩ := child_join_namespaces_mask _ _ hj1
  rw [hj] at he
  simp only [] at he
  obtain ⟨f1, f2, f3, f4, f5⟩ := unshare_flags_of_joined m hm
  have heq := child_new_namespaces_eq namespaces_path len w hm1 hm2 wj j hj hne
  rw [he, f1] at heq
  refine ⟨m, he, f2, f3, f4, ?_, ?_⟩
  · intro hfull
    rw [heq, if_pos (f5.mpr hfull)]
  · intro hpart
    rw [heq, if_neg (fun h => hpart (f5.mp h))]

/-- Witness of C24: `/ns` holds the files `ipc` and `uts`, so these two are joined and
`unshare` is called with `CLONE_NEWNS` alone. -/
theorem child_new_namespaces_unshare_mask_witness :
    (child_new_namespaces (bytes "/ns") 3 world_child_two_pinned).1 = 0 ∧
    ((child_new_namespaces (bytes "/ns") 3 world_child_two_pinned).2.trace.filter
      fun e => e.call matches .unshare _) = [⟨.unshare CLONE_NEWNS, 0⟩] ∧
    (child_new_namespaces (bytes "/ns") 3 world_child_all_pinned).1 = 0 ∧
    ((child_new_namespaces (bytes "/ns") 3 world_child_all_pinned).2.trace.filter
      fun e => e.call matches .unshare _ | .write _ _) = [] ∧
    ∃ joined : Nat, ((CLONE_NEWIPC ||| CLONE_NEWUTS : Nat) : Int) = (joined : Int) ∧
      joined ||| spec_all_kinds = spec_all_kinds ∧
      spec_unshare_mask joined &&& joined = 0 ∧
      spec_unshare_mask joined ||| joined = spec_all_kinds ∧
      (joined = spec_all_kinds →
        child_new_namespaces (bytes "/ns") 3 world_child_two_pinned
          = (0, world_two_pinned_joined)) ∧
      (joined ≠ spec_all_kinds →
        child_new_namespaces (bytes "/ns") 3 world_child_two_pinned =
          if (sys_call (.unshare (spec_unshare_mask joined)) world_two_pinned_joined).1 = -1 then
            (-1, (sys_call (.unshare (spec_unshare_mask joined)) world_two_pinned_joined).2)
          else if (child_send_cmd cmd_persistent_ns (some (bytes "/ns")) 3
              (sys_call (.unshare (spec_unshare_mask joined)) world_two_pinned_joined).2).1
              = -1 then
            (-1, (child_send_cmd cmd_persistent_ns (some (bytes "/ns")) 3
              (sys_call (.unshare (spec_unshare_mask joined)) world_two_pinned_joined).2).2)
          else
            (0, supported_namespaces.foldl
              (fun v ns => if ns.hook then (mnt_slave v).2 else v)
              (child_send_cmd cmd_persistent_ns (some (bytes "/ns")) 3
                (sys_call (.unshare (spec_unshare_mask joined))
                  world_two_pinned_joined).2).2)) :=
  ⟨by decide, by decide, by decide, by decide,
    child_new_namespaces_unshare_mask (bytes "/ns") 3 world_child_two_pinned
      world_two_pinned_joined _ (by decide) (by decide) (Prod.ext (by decide) rfl)
      (by decide)⟩

/-! ## The announced size -/

theorem de32_le32_int (size : Int) (h : -2 ^ 31 ≤ size ∧ size < 2 ^ 31) (x : List Nat) :
    de32 (le32 size ++ x) = size := by
  obtain ⟨u, hu⟩ : ∃ u : Nat, u = (size % 2 ^ 32).toNat := ⟨_, rfl⟩
  have hu2 : (u : Int) = size % 2 ^ 32 := by omega
  unfold de32 le32
  simp only [← hu]
  simp
  unfold to_int32
  split <;> omega

theorem read_size (fd : Int) (size : Int) (rest : List Nat) (w : World)
    (hpipe : w.pipes fd = le32 size ++ rest)
    (hread : 0 ≤ fd ∧ 0 ≤ w.os w.now (.read fd 4)) :
    (sys_read fd 4 w).1 = 4 ∧ (sys_read fd 4 w).2.1 = le32 size ∧
    (sys_read fd 4 w).2.2.pipes fd = rest ∧
    (sys_read fd 4 w).2.2.trace = w.trace ++ [⟨.read fd 4, 4⟩] := by
  have htake : (w.pipes fd).take 4 = le32 size := by
    rw [hpipe]; exact List.take_left' (by simp [le32])
  have hdrop : (w.pipes fd).drop 4 = rest := by
    rw [hpipe]; exact List.drop_left' (by simp [le32])
  unfold sys_read
  rw [if_neg (by omega)]
  simp [htake, hdrop, World.log, le32]

theorem parent_get_data_size (fd : Int) (data_size size : Int) (rest : List Nat) (w : World)
    (hsz : -2 ^ 31 ≤ size ∧ size < 2 ^ 31)
    (hpipe : w.pipes fd = le32 size ++ rest)
    (hread : 0 ≤ fd ∧ 0 ≤ w.os w.now (.read fd 4)) :
    parent_get_data fd data_size w =
      if size > data_size then .ret (-1, []) (sys_read fd 4 w).2.2
      else parent_get_data_loop size.toNat fd size size [] (sys_read fd 4 w).2.2 := by
  obtain ⟨h1, h2, _, _⟩ := read_size fd size rest w hpipe hread
  unfold parent_get_data
  simp only []
  rw [if_neg (by rw [h1]; decide), h2, de32_le32_int size hsz]

theorem parent_get_data_loop_nonpos (fuel : Nat) (fd size : Int) (data : List Nat) (w : World)
    (h : size ≤ 0) : parent_get_data_loop fuel fd size size data w = .ret (size, data) w := by
  cases fuel with
  | zero => rfl
  | succ n => rw [parent_get_data_loop, if_neg (by omega)]

/-- C27: when the child has announced `size` and the read of the four bytes succeeds,
`parent_get_data` returns -1 at once, with the bytes after the size still in the pipe,
if `size` is greater than the capacity; if `size` is at most the capacity it goes on to
the payload loop (so the size check passes), and for a `size` of 0 or less it makes no
further read and returns `size`. A negative `size` other than -1 is therefore no
failure for the handlers: `parent_remove_namespaces` goes on to `stat` the empty path
and `parent_join_namespaces` goes on to spawn a child that joins the empty path. -/
theorem parent_get_data_announced_size (child : Child) (size : Int) (rest : List Nat)
    (w : World)
    (hsz : -2 ^ 31 ≤ size ∧ size < 2 ^ 31)
    (hpipe : w.pipes child.read_fd = le32 size ++ rest)
    (hread : 0 ≤ child.read_fd ∧ 0 ≤ w.os w.now (.read child.read_fd 4)) :
    (sys_read child.read_fd 4 w).2.2.pipes child.read_fd = rest ∧
    (sys_read child.read_fd 4 w).2.2.trace = w.trace ++ [⟨.read child.read_fd 4, 4⟩] ∧
    (∀ data_size : Int, size > data_size →
      parent_get_data child.read_fd data_size w = .ret (-1, []) (sys_read child.read_fd 4 w).2.2) ∧
    (∀ data_size : Int, size ≤ data_size →
      parent_get_data child.read_fd data_size w
        = parent_get_data_loop size.toNat child.read_fd size size []
            (sys_read child.read_fd 4 w).2.2) ∧
    (∀ data_size : Int, size ≤ data_size → size ≤ 0 →
      parent_get_data child.read_fd data_size w
        = .ret (size, []) (sys_read child.read_fd 4 w).2.2) ∧
    (size ≤ 0 → size ≠ -1 →
      parent_remove_namespaces child w =
        (match (sys_stat [] (sys_read child.read_fd 4 w).2.2).1 with
         | none => .ret (-1) (sys_stat [] (sys_read child.read_fd 4 w).2.2).2
         | some st =>
           if st.st_mode &&& S_IFMT ≠ S_IFDIR then
             .ret (-1) (sys_stat [] (sys_read child.read_fd 4 w).2.2).2
           else
             if (sys_call (.umount [])
                 (parent_remove_loop supported_namespaces []
                   (sys_stat [] (sys_read child.read_fd 4 w).2.2).2)).1 = -1 then
               .ret (-1) (sys_call (.umount [])
                 (parent_remove_loop supported_namespaces []
                   (sys_stat [] (sys_read child.read_fd 4 w).2.2).2)).2
             else
               .ret 0 (sys_call (.umount [])
                 (parent_remove_loop supported_namespaces []
                   (sys_stat [] (sys_read child.read_fd 4 w).2.2).2)).2) ∧
      parent_join_namespaces child w =
        if (spawn_save_child (sys_read child.read_fd 4 w).2.2).1 = -1 then
          .ret (-1) (spawn_save_child (sys_read child.read_fd 4 w).2.2).2
        else if (spawn_save_child (sys_read child.read_fd 4 w).2.2).1 ≠ 0 then
          .ret 0 (spawn_save_child (sys_read child.read_fd 4 w).2.2).2
        else if (child_join_namespaces []
            (spawn_save_child (sys_read child.read_fd 4 w).2.2).2).1 = -1 then
          .exit 1 (child_join_namespaces []
            (spawn_save_child (sys_read child.read_fd 4 w).2.2).2).2
        else
          .ret 1 (child_join_namespaces []
            (spawn_save_child (sys_read child.read_fd 4 w).2.2).2).2) := by
  obtain ⟨_, _, h3, h4⟩ := read_size child.read_fd size rest w hpipe hread
  have hgen := fun data_size => parent_get_data_size child.read_fd data_size size rest w hsz
    hpipe hread
  have hnp : ∀ data_size : Int, size ≤ data_size → size ≤ 0 →
      parent_get_data child.read_fd data_size w
        = .ret (size, []) (sys_read child.read_fd 4 w).2.2 := by
    intro data_size hle h0
    rw [hgen, if_neg (by omega), parent_get_data_loop_nonpos _ _ _ _ _ h0]
  refine ⟨h3, h4, ?_, ?_, hnp, ?_⟩
  · intro data_size hgt
    rw [hgen, if_pos hgt]
  · intro data_size hle
    rw [hgen, if_neg (by omega)]
  · intro h0 hne
    have hp : size ≤ (PATH_MAX : Int) := by
      have : (0 : Int) ≤ (PATH_MAX : Int) := by decide
      omega
    constructor
    · unfold parent_remove_namespaces
      rw [hnp _ hp h0]
      simp only [Outcome.bind]
      rw [if_neg hne]
      rfl
    · unfold parent_join_namespaces
      rw [hnp _ hp h0]
      simp only [Outcome.bind]
      rw [if_neg hne]

/-- Witness of C27: an announced size of -2 is returned as it is after the one read of
the size, and `parent_remove_namespaces` then calls `stat` on the empty path; an
announced size of 5000 is refused with the three payload bytes left in the pipe. -/
theorem parent_get_data_announced_size_witness :
    (parent_get_data 6 PATH_MAX world_parent_oversize).result = some (-1, []) ∧
    (parent_get_data 6 PATH_MAX world_parent_oversize).world.pipes 6 = bytes "abc" ∧
    (parent_remove_namespaces child_record world_parent_negative_size).world.trace
      = [⟨.read 6 4, 4⟩, ⟨.stat [], -1⟩] ∧
    (parent_join_namespaces child_record world_parent_negative_size).result = some 1 ∧
    parent_get_data child_record.read_fd PATH_MAX world_parent_negative_size
      = .ret (-2, []) (sys_read child_record.read_fd 4 world_parent_negative_size).2.2 :=
  ⟨by decide, by decide, by decide, by decide,
    (parent_get_data_announced_size child_record (-2) [] world_parent_negative_size
      (by decide) (by decide) (by decide)).2.2.2.2.1 PATH_MAX (by decide) (by decide)⟩

/-! ## The children table -/

theorem sys_pipe_table (w : World) :
    (sys_pipe w).2.2.children = w.children ∧
    (sys_pipe w).2.2.children_number = w.children_number := by
  unfold sys_pipe; split <;> exact ⟨rfl, rfl⟩

theorem sys_fork_table (w : World) :
    (sys_fork w).2.children = w.children ∧
    (sys_fork w).2.children_number = w.children_number := by
  unfold sys_fork; split <;> exact ⟨rfl, rfl⟩

theorem close_fd_table (fd : Int) (w : World) :
    (close_fd fd w).2.children = w.children ∧
    (close_fd fd w).2.children_number = w.children_number := by
  unfold close_fd; split <;> exact ⟨rfl, rfl⟩

theorem close_children_table (cs : List Child) (w : World) :
    (cs.foldl (fun v c => (close_fd c.write_fd (close_fd c.read_fd v).2).2) w).children_number
      = w.children_number := by
  induction cs generalizing w with
  | nil => rfl
  | cons c cs ih =>
    rw [List.foldl_cons, ih, (close_fd_table _ _).2, (close_fd_table _ _).2]

theorem sys_fork_ret (w : World) : (sys_fork w).1 = -1 ∨ 0 ≤ (sys_fork w).1 := by
  unfold sys_fork
  split
  · exact Or.inl rfl
  · right; simp only []; omega

/-- The three ways `spawn_save_child` returns: an error, with the table as it was; the
parent, with the new child saved at the entry `children_number`; the child, with the pid
of every record set to 0 and the counter as it was. -/
theorem spawn_save_child_cases (w : World) :
    ((spawn_save_child w).1 = -1 ∧ (spawn_save_child w).2.children = w.children ∧
      (spawn_save_child w).2.children_number = w.children_number) ∨
    (0 < (spawn_save_child w).1 ∧ w.children_number < CHILD_MAX ∧
      (∃ rfd wfd, (spawn_save_child w).2.children
        = w.children.set w.children_number ⟨(spawn_save_child w).1, rfd, wfd⟩) ∧
      (spawn_save_child w).2.children_number = w.children_number + 1) ∨
    ((spawn_save_child w).1 = 0 ∧ w.children_number < CHILD_MAX ∧
      (∀ c ∈ (spawn_save_child w).2.children, c.pid = 0) ∧
      (spawn_save_child w).2.children.length = w.children.length ∧
      (spawn_save_child w).2.children_number = w.children_number) := by
  unfold spawn_save_child
  by_cases h0 : w.children_number ≥ CHILD_MAX
  · rw [if_pos h0]; exact Or.inl ⟨rfl, rfl, rfl⟩
  · rw [if_neg h0]
    simp only []
    by_cases h1 : (sys_pipe w).1 = -1
    · rw [if_pos h1]
      exact Or.inl ⟨rfl, (sys_pipe_table w).1, (sys_pipe_table w).2⟩
    · rw [if_neg h1]
      by_cases h2 : (sys_pipe (sys_pipe w).2.2).1 = -1
      · rw [if_pos h2]
        refine Or.inl ⟨rfl, ?_, ?_⟩
        · rw [(close_fd_table _ _).1, (close_fd_table _ _).1, (sys_pipe_table _).1,
            (sys_pipe_table _).1]
        · rw [(close_fd_table _ _).2, (close_fd_table _ _).2, (sys_pipe_table _).2,
            (sys_pipe_table _).2]
      · rw [if_neg h2]
        by_cases h3 : (sys_fork (sys_pipe (sys_pipe w).2.2).2.2).1 = -1
        · rw [if_pos h3]
          refine Or.inl ⟨rfl, ?_, ?_⟩
          · rw [(close_fd_table _ _).1, (close_fd_table _ _).1, (close_fd_table _ _).1,
              (close_fd_table _ _).1, (sys_fork_table _).1, (sys_pipe_table _).1,
              (sys_pipe_table _).1]
          · rw [(close_fd_table _ _).2, (close_fd_table _ _).2, (close_fd_table _ _).2,
              (close_fd_table _ _).2, (sys_fork_table _).2, (sys_pipe_table _).2,
              (sys_pipe_table _).2]
        · rw [if_neg h3]
          by_cases h4 : (sys_fork (sys_pipe (sys_pipe w).2.2).2.2).1 ≠ 0
          · rw [if_pos h4]
            refine Or.inr (Or.inl ⟨?_, by omega,
              ⟨(sys_pipe w).2.1.1, (sys_pipe (sys_pipe w).2.2).2.1.2, ?_⟩, ?_⟩)
            · rcases sys_fork_ret (sys_pipe (sys_pipe w).2.2).2.2 with h | h
              · exact absurd h h3
              · simp only []; omega
            · simp only []
              rw [(close_fd_table _ _).1, (close_fd_table _ _).1, (sys_fork_table _).1,
                (sys_pipe_table _).1, (sys_pipe_table _).1, (close_fd_table _ _).2,
                (close_fd_table _ _).2, (sys_fork_table _).2, (sys_pipe_table _).2,
                (sys_pipe_table _).2]
            · simp only []
              rw [(close_fd_table _ _).2, (close_fd_table _ _).2, (sys_fork_table _).2,
                (sys_pipe_table _).2, (sys_pipe_table _).2]
          · rw [if_neg h4]
            refine Or.inr (Or.inr ⟨?_, by omega, ?_, ?_, ?_⟩)
            · rfl
            · intro c hc
              simp only [] at hc
              rw [(close_fd_table _ _).1, (close_fd_table _ _).1, (close_fd_table _ _).1,
                (close_fd_table _ _).1] at hc
              simp only [List.mem_map] at hc
              obtain ⟨a, _, ha⟩ := hc
              rw [← ha]
            · simp only []
              rw [(close_fd_table _ _).1, (close_fd_table _ _).1, (close_fd_table _ _).1,
                (close_fd_table _ _).1]
              simp
            · simp only []
              rw [(close_fd_table _ _).2, (close_fd_table _ _).2, (close_fd_table _ _).2,
                (close_fd_table _ _).2]
              simp only []
              rw [close_children_table, (sys_fork_table _).2, (sys_pipe_table _).2,
                (sys_pipe_table _).2]

theorem recorded_eq (w : World) (h : table_inv w) : recorded w = w.children_number := by
  obtain ⟨hl, hn, hi⟩ := h
  unfold recorded
  unfold CHILD_MAX at hl hn hi
  match hc : w.children, hl with
  | [a, b], _ =>
    have h0 := hi 0 (by omega)
    have h1 := hi 1 (by omega)
    rw [hc] at h0 h1
    simp only [List.getD_cons_zero, List.getD_cons_succ] at h0 h1
    by_cases ha : a.pid > 0 <;> by_cases hb : b.pid > 0 <;>
      simp [List.filter, ha, hb] <;> omega

theorem table_inv_saved (w : World) (h : table_inv w) (pid rfd wfd : Int) (hpid : 0 < pid)
    (hroom : w.children_number < CHILD_MAX) (w1 : World)
    (hc : w1.children = w.children.set w.children_number ⟨pid, rfd, wfd⟩)
    (hn : w1.children_number = w.children_number + 1) : table_inv w1 := by
  obtain ⟨hl, _, hi⟩ := h
  unfold table_inv
  rw [hc, hn]
  unfold CHILD_MAX at hl hi hroom ⊢
  refine ⟨by simp [hl], by omega, ?_⟩
  match hw : w.children, hl with
  | [a, b], _ =>
    have h0 := hi 0 (by omega)
    have h1 := hi 1 (by omega)
    rw [hw] at h0 h1
    simp only [List.getD_cons_zero, List.getD_cons_succ] at h0 h1
    intro i hi2
    have hcases : w.children_number = 0 ∨ w.children_number = 1 := by omega
    have hicases : i = 0 ∨ i = 1 := by omega
    rcases hcases with hz | hz <;> rcases hicases with hy | hy <;> subst hy <;>
      rw [hz] at h0 h1 ⊢ <;> simp [List.set] <;> omega

/-- C22, as the code has it: in the child branch `spawn_save_child` sets the pid of every
record to 0 but leaves `children_number` alone. The parent has one child recorded and
`fork` returns 0: in the new child the counter is still 1 while no record has
`pid > 0`. -/
theorem spawn_save_child_child_keeps_counter :
    table_inv world_parent_etc ∧ world_parent_etc.children_number = 1 ∧
    recorded world_parent_etc = 1 ∧
    (spawn_save_child world_parent_etc).1 = 0 ∧
    (spawn_save_child world_parent_etc).2.children_number = 1 ∧
    recorded (spawn_save_child world_parent_etc).2 = 0 ∧
    (spawn_save_child world_parent_etc).2.children.map (fun c => c.pid) = [0, 0] := by
  refine ⟨?_, ?_, ?_, ?_, ?_, ?_, ?_⟩ <;> decide

/-- C22, amended: when the table is as the parent keeps it (the records with `pid > 0`
are the first `children_number` ones, as at start-up), then after a return of
`spawn_save_child` in the parent, from the parent branch or an error branch, it is so
again, `children_number` equals the number of records with `pid > 0`, and the counter
has not decreased; after the return in the child every record has pid 0, and the
counter is the one the parent had before the fork. -/
theorem spawn_save_child_counter (w : World) (h : table_inv w) :
    ((spawn_save_child w).1 ≠ 0 →
      table_inv (spawn_save_child w).2 ∧
      recorded (spawn_save_child w).2 = (spawn_save_child w).2.children_number ∧
      w.children_number ≤ (spawn_save_child w).2.children_number) ∧
    ((spawn_save_child w).1 = 0 →
      (∀ c ∈ (spawn_save_child w).2.children, c.pid = 0) ∧
      recorded (spawn_save_child w).2 = 0 ∧
      (spawn_save_child w).2.children_number = w.children_number) := by
  rcases spawn_save_child_cases w with ⟨hr, hc, hn⟩ | ⟨hr, hroom, ⟨rfd, wfd, hc⟩, hn⟩ |
    ⟨hr, _, hz, _, hn⟩
  · have hinv : table_inv (spawn_save_child w).2 := by
      unfold table_inv; rw [hc, hn]; exact h
    exact ⟨fun _ => ⟨hinv, recorded_eq _ hinv, by omega⟩, fun h0 => by omega⟩
  · have hinv : table_inv (spawn_save_child w).2 :=
      table_inv_saved w h _ rfd wfd hr hroom _ hc hn
    exact ⟨fun _ => ⟨hinv, recorded_eq _ hinv, by omega⟩, fun h0 => by omega⟩
  · refine ⟨fun hne => absurd hr hne, fun _ => ⟨hz, ?_, hn⟩⟩
    unfold recorded
    rw [List.length_eq_zero, List.filter_eq_nil_iff]
    intro c hc
    rw [hz c hc]
    decide

/-- Witness of C22, amended: the parent has one child recorded and `fork` returns the
pid 101; after the return two records have `pid > 0` and the counter is 2. -/
theorem spawn_save_child_counter_witness :
    table_inv world_parent_one_child ∧
    (spawn_save_child world_parent_one_child).1 = 101 ∧
    (spawn_save_child world_parent_one_child).2.children_number = 2 ∧
    table_inv (spawn_save_child world_parent_one_child).2 ∧
    recorded (spawn_save_child world_parent_one_child).2
      = (spawn_save_child world_parent_one_child).2.children_number ∧
    world_parent_one_child.children_number
      ≤ (spawn_save_child world_parent_one_child).2.children_number :=
  ⟨by decide, by decide, by decide,
    (spawn_save_child_counter world_parent_one_child (by decide)).1 (by decide)⟩

/-! ## A full table -/

theorem sys_read_table (fd : Int) (n : Nat) (w : World) :
    (sys_read fd n w).2.2.children = w.children ∧
    (sys_read fd n w).2.2.children_number = w.children_number := by
  unfold sys_read; split <;> exact ⟨rfl, rfl⟩

theorem sys_write_table (fd : Int) (buf : List Nat) (w : World) :
    (sys_write fd buf w).2.children = w.children ∧
    (sys_write fd buf w).2.children_number = w.children_number := by
  unfold sys_write; split <;> exact ⟨rfl, rfl⟩

theorem parent_get_data_loop_table (fuel : Nat) (fd size data_size : Int) (data : List Nat)
    (w : World) :
    (parent_get_data_loop fuel fd size data_size data w).world.children = w.children ∧
    (parent_get_data_loop fuel fd size data_size data w).world.children_number
      = w.children_number := by
  induction fuel generalizing data_size data w with
  | zero => exact ⟨rfl, rfl⟩
  | succ n ih =>
    rw [parent_get_data_loop]
    simp only []
    split_ifs
    · exact sys_read_table _ _ _
    · exact sys_read_table _ _ _
    · obtain ⟨i1, i2⟩ := ih (data_size - (sys_read fd (to_size_t size) w).1)
        ((sys_read fd (to_size_t size) w).2.1
          ++ data.drop (sys_read fd (to_size_t size) w).2.1.length)
        (sys_read fd (to_size_t size) w).2.2
      exact ⟨i1.trans (sys_read_table _ _ _).1, i2.trans (sys_read_table _ _ _).2⟩
    · exact ⟨rfl, rfl⟩

theorem parent_get_data_table (fd : Int) (data_size : Int) (w : World) :
    (parent_get_data fd data_size w).world.children = w.children ∧
    (parent_get_data fd data_size w).world.children_number = w.children_number := by
  unfold parent_get_data
  simp only []
  split_ifs
  · exact sys_read_table _ _ _
  · exact sys_read_table _ _ _
  · obtain ⟨i1, i2⟩ := parent_get_data_loop_table
      (de32 ((sys_read fd 4 w).2.1 ++ w.uninit.drop (sys_read fd 4 w).2.1.length)).toNat fd
      (de32 ((sys_read fd 4 w).2.1 ++ w.uninit.drop (sys_read fd 4 w).2.1.length))
      (de32 ((sys_read fd 4 w).2.1 ++ w.uninit.drop (sys_read fd 4 w).2.1.length)) []
      (sys_read fd 4 w).2.2
    exact ⟨i1.trans (sys_read_table _ _ _).1, i2.trans (sys_read_table _ _ _).2⟩

theorem spawn_save_child_full (w : World) (h : CHILD_MAX ≤ w.children_number) :
    spawn_save_child w = (-1, w) := by
  unfold spawn_save_child
  rw [if_pos h]


/-! ## The counter stays within the table -/

theorem sys_call_cn (c : Syscall) (w : World) :
    (sys_call c w).2.children_number = w.children_number := by
  unfold sys_call; split <;> rfl

theorem sys_stat_cn (p : List Nat) (w : World) :
    (sys_stat p w).2.children_number = w.children_number := by
  unfold sys_stat; split <;> rfl

theorem sys_open_cn (c : Syscall) (w : World) :
    (sys_open c w).2.children_number = w.children_number := by
  unfold sys_open; split <;> rfl

theorem ft_eq {v v1 : World} (he : v1.children_number = v.children_number) (h : fits v) :
    fits v1 := by
  unfold fits at *; rw [he]; exact h

theorem ft_call (c : Syscall) (v : World) (h : fits v) : fits (sys_call c v).2 :=
  ft_eq (sys_call_cn c v) h

theorem ft_stat (p : List Nat) (v : World) (h : fits v) : fits (sys_stat p v).2 :=
  ft_eq (sys_stat_cn p v) h

theorem ft_open (c : Syscall) (v : World) (h : fits v) : fits (sys_open c v).2 :=
  ft_eq (sys_open_cn c v) h

theorem ft_read (fd : Int) (n : Nat) (v : World) (h : fits v) : fits (sys_read fd n v).2.2 :=
  ft_eq (sys_read_table fd n v).2 h

theorem ft_write (fd : Int) (buf : List Nat) (v : World) (h : fits v) :
    fits (sys_write fd buf v).2 :=
  ft_eq (sys_write_table fd buf v).2 h

theorem ft_close (fd : Int) (v : World) (h : fits v) : fits (close_fd fd v).2 :=
  ft_eq (close_fd_table fd v).2 h

theorem ft_spawn (v : World) (h : fits v) : fits (spawn_save_child v).2 := by
  unfold fits at *
  rcases spawn_save_child_cases v with ⟨_, _, hn⟩ | ⟨_, hroom, _, hn⟩ | ⟨_, _, _, _, hn⟩ <;>
    rw [hn] <;> omega

theorem ft_send (cmd : Nat) (data : Option (List Nat)) (size : Int) (v : World) (h : fits v) :
    fits (child_send_cmd cmd data size v).2 := by
  unfold child_send_cmd
  cases data <;> simp only [] <;> split_ifs <;>
    repeat' first
      | exact h
      | with_reducible apply ft_read
      | with_reducible apply ft_write

theorem ft_join_loop (l : List Namespace) (p : List Nat) (m : Nat) (v : World) (h : fits v) :
    fits (child_join_loop l p m v).2 := by
  induction l generalizing m v with
  | nil => exact h
  | cons ns rest ih =>
    rw [child_join_loop]
    split
    · exact ih _ _ (ft_stat _ _ h)
    · simp only []
      split_ifs
      · exact ft_open _ _ (ft_stat _ _ h)
      · exact ft_close _ _ (ft_call _ _ (ft_open _ _ (ft_stat _ _ h)))
      · exact ih _ _ (ft_close _ _ (ft_call _ _ (ft_open _ _ (ft_stat _ _ h))))

theorem ft_join (p : List Nat) (v : World) (h : fits v) :
    fits (child_join_namespaces p v).2 := by
  unfold child_join_namespaces
  simp only []
  split
  · exact ft_join_loop _ _ _ _ h
  · exact ft_eq rfl (ft_join_loop _ _ _ _ h)

theorem ft_mnt_slave (v : World) (h : fits v) : fits (mnt_slave v).2 := by
  unfold mnt_slave
  simp only []
  split_ifs <;> exact ft_call _ _ h

theorem ft_hooks (l : List Namespace) (v : World) (h : fits v) :
    fits (l.foldl (fun v ns => if ns.hook then (mnt_slave v).2 else v) v) := by
  induction l generalizing v with
  | nil => exact h
  | cons ns rest ih =>
    rw [List.foldl_cons]
    apply ih
    split_ifs
    · exact ft_mnt_slave _ h
    · exact h

theorem ft_child_new (p : List Nat) (len : Int) (v : World) (h : fits v) :
    fits (child_new_namespaces p len v).2 := by
  unfold child_new_namespaces
  simp only []
  split_ifs <;>
    repeat' first
      | exact h
      | with_reducible apply ft_hooks
      | with_reducible apply ft_send
      | with_reducible apply ft_join
      | with_reducible apply ft_call

theorem ft_bind {α β : Type} (o : Outcome α) (f : α → World → Outcome β)
    (ho : fits o.world) (hf : ∀ a w1, fits w1 → fits (f a w1).world) :
    fits (o.bind f).world := by
  cases o with
  | ret a w1 => exact hf a w1 ho
  | exit c w1 => exact ho
  | hang w1 => exact ho

theorem ft_get_data (fd ds : Int) (v : World) (h : fits v) :
    fits (parent_get_data fd ds v).world :=
  ft_eq (parent_get_data_table fd ds v).2 h

theorem ft_remove_loop (l : List Namespace) (p : List Nat) (v : World) (h : fits v) :
    fits (parent_remove_loop l p v) := by
  induction l generalizing v with
  | nil => exact h
  | cons ns rest ih =>
    rw [parent_remove_loop]
    split
    · exact ih _ (ft_stat _ _ h)
    · simp only []
      split_ifs
      · exact ih _ (ft_stat _ _ h)
      · exact ih _ (ft_call _ _ (ft_call _ _ (ft_stat _ _ h)))

theorem ft_remove (c : Child) (v : World) (h : fits v) :
    fits (parent_remove_namespaces c v).world := by
  unfold parent_remove_namespaces
  apply ft_bind _ _ (ft_get_data _ _ _ h)
  intro d w1 h1
  split_ifs
  · exact h1
  · simp only []
    split
    · exact ft_stat _ _ h1
    · split_ifs
      · exact ft_stat _ _ h1
      · exact ft_call _ _ (ft_remove_loop _ _ _ (ft_stat _ _ h1))
      · exact ft_call _ _ (ft_remove_loop _ _ _ (ft_stat _ _ h1))

theorem ft_persistent_loop (l : List Namespace) (pid : Int) (p : List Nat) (v : World)
    (h : fits v) : fits (parent_persistent_loop l pid p v).2 := by
  induction l generalizing v with
  | nil => exact h
  | cons ns rest ih =>
    rw [parent_persistent_loop]
    split
    · exact ih _ (ft_stat _ _ h)
    · simp only []
      split_ifs
      · exact ft_open _ _ (ft_stat _ _ h)
      · exact ft_call _ _ (ft_close _ _ (ft_open _ _ (ft_stat _ _ h)))
      · exact ih _ (ft_call _ _ (ft_close _ _ (ft_open _ _ (ft_stat _ _ h))))

theorem ft_persistent (c : Child) (v : World) (h : fits v) :
    fits (parent_persistent_namespaces c v).world := by
  unfold parent_persistent_namespaces
  apply ft_bind _ _ (ft_get_data _ _ _ h)
  intro d w1 h1
  simp only []
  split_ifs
  · exact h1
  · exact ft_persistent_loop _ _ _ _ h1
  · exact ft_persistent_loop _ _ _ _ h1

theorem ft_new (c : Child) (v : World) (h : fits v) :
    fits (parent_new_namespaces c v).world := by
  unfold parent_new_namespaces
  apply ft_bind _ _ (ft_get_data _ _ _ h)
  intro d w1 h1
  simp only []
  split_ifs
  · exact h1
  · exact ft_spawn _ h1
  · exact ft_spawn _ h1
  · exact ft_child_new _ _ _ (ft_spawn _ h1)
  · exact ft_child_new _ _ _ (ft_spawn _ h1)

theorem ft_join_ns (c : Child) (v : World) (h : fits v) :
    fits (parent_join_namespaces c v).world := by
  unfold parent_join_namespaces
  apply ft_bind _ _ (ft_get_data _ _ _ h)
  intro d w1 h1
  simp only []
  split_ifs
  · exact h1
  · exact ft_spawn _ h1
  · exact ft_spawn _ h1
  · exact ft_join _ _ (ft_spawn _ h1)
  · exact ft_join _ _ (ft_spawn _ h1)

theorem ft_dispatch (cmd : Nat) (c : Child) (v : World) (h : fits v) :
    fits (parent_dispatch cmd c v).world := by
  unfold parent_dispatch
  split_ifs
  · exact ft_new c v h
  · exact ft_join_ns c v h
  · exact ft_remove c v h
  · exact ft_persistent c v h
  · exact h

theorem ft_mount_point_end (a b : List Nat) (v : World) (h : fits v) :
    fits (parent_get_mount_point_end a b v).world := by
  unfold parent_get_mount_point_end
  split_ifs <;> exact h

theorem ft_mount_point_loop (fuel dev : Nat) (a b : List Nat) (v : World) (h : fits v) :
    fits (parent_get_mount_point_loop fuel dev a b v).world := by
  induction fuel generalizing a b v with
  | zero => exact h
  | succ n ih =>
    rw [parent_get_mount_point_loop]
    simp only []
    split_ifs
    · split
      · exact ft_stat _ _ h
      · split_ifs
        · exact ft_mount_point_end _ _ _ (ft_stat _ _ h)
        · exact ih _ _ _ (ft_stat _ _ h)
    · exact ft_mount_point_end _ _ _ h

theorem ft_mount_point (a b : List Nat) (v : World) (h : fits v) :
    fits (parent_get_mount_point a b v).world := by
  unfold parent_get_mount_point
  simp only []
  split
  · exact ft_stat _ _ h
  · exact ft_mount_point_loop _ _ _ _ _ (ft_stat _ _ h)

theorem ft_fs_info_end (c : Child) (res : Nat) (info : fs_info) (v : World) (h : fits v) :
    fits (parent_get_fs_info_end c res info v) := by
  unfold parent_get_fs_info_end
  simp only []
  split_ifs
  · exact ft_write _ _ _ (ft_write _ _ _ h)
  · exact ft_write _ _ _ h

theorem ft_read_fs_info (p : List Nat) (info : fs_info) (v : World) (h : fits v) :
    fits (parent_read_fs_info p info v).2 := by
  unfold parent_read_fs_info
  simp only []
  split_ifs
  · exact ft_call _ _ h
  · exact ft_call _ _ (ft_call _ _ h)

theorem ft_get_fs_info (c : Child) (v : World) (h : fits v) :
    fits (parent_get_fs_info c v).world := by
  unfold parent_get_fs_info
  simp only []
  apply ft_bind _ _ (ft_get_data _ _ _ h)
  intro d w1 h1
  split_ifs
  · simp only [Outcome.world]
    exact ft_fs_info_end _ _ _ _ h1
  · simp only [Outcome.world]
    exact ft_fs_info_end _ _ _ _ h1
  · apply ft_bind _ _ (ft_mount_point _ _ _ h1)
    intro m w2 h2
    split_ifs
    · simp only [Outcome.world]
      exact ft_fs_info_end _ _ _ _ h2
    · simp only [Outcome.world]
      exact ft_fs_info_end _ _ _ _ (ft_read_fs_info _ _ _ h2)
    · simp only [Outcome.world]
      exact ft_fs_info_end _ _ _ _ (ft_read_fs_info _ _ _ h2)

theorem ft_listen_loop (fuel : Nat) (c : Child) (v : World) (h : fits v) :
    fits (parent_listen_loop fuel c v).world := by
  induction fuel generalizing v with
  | zero => exact h
  | succ n ih =>
    rw [parent_listen_loop]
    simp only []
    split_ifs
    · exact ft_bind _ _ (ft_get_fs_info _ _ (ft_read _ _ _ h)) (fun _ w1 h1 => ih w1 h1)
    · exact ft_call _ _ (ft_call _ _ (ft_read _ _ _ h))
    · apply ft_bind _ _ (ft_dispatch _ _ _ (ft_read _ _ _ h))
      intro ret w1 h1
      split_ifs
      all_goals first
        | exact h1
        | exact ft_write _ _ _ h1
        | exact ih _ (ft_write _ _ _ h1)
    · exact ft_read _ _ _ h
    · exact ft_read _ _ _ h

theorem ft_listen (c : Child) (v : World) (h : fits v) :
    fits (parent_listen_child c v).world :=
  ft_listen_loop _ c v h

theorem ft_kill (v : World) (h : fits v) : fits (kill_children v) := by
  unfold kill_children
  have hgen : ∀ (l : List Child) (u : World), fits u →
      fits (l.foldl (fun v c => if c.pid > 0 then (sys_call (.kill c.pid) v).2 else v) u) := by
    intro l
    induction l with
    | nil => intro u hu; exact hu
    | cons c rest ih =>
      intro u hu
      rw [List.foldl_cons]
      apply ih
      split_ifs
      · exact ft_call _ _ hu
      · exact hu
  exact hgen _ _ h

theorem sys_waitpid_cn (pid status : Int) (w : World) :
    (sys_waitpid pid status w).2.2.children_number = w.children_number := by
  unfold sys_waitpid; split <;> rfl

theorem ft_wait_loop (l done : List Child) (status exit_code : Int) (v : World) (h : fits v) :
    fits (wait_children_loop l done status exit_code v).2 := by
  induction l generalizing done status exit_code v with
  | nil => exact h
  | cons c rest ih =>
    rw [wait_children_loop]
    split_ifs
    · exact ih _ _ _ _ h
    · exact ih _ _ _ _ (ft_close _ _ (ft_close _ _ (ft_eq (sys_waitpid_cn _ _ _) h)))

theorem ft_wait (v : World) (h : fits v) : fits (wait_children v).2 :=
  ft_wait_loop _ _ _ _ v h

theorem ft_init_loop (n i : Nat) (v : World) (h : fits v) : fits (init_loop n i v).world := by
  induction n generalizing i v with
  | zero => exact ft_wait v h
  | succ k ih =>
    rw [init_loop]
    split_ifs
    · exact ih _ _ h
    · apply ft_bind _ _ (ft_listen _ _ h)
      intro ret w1 h1
      have h2 : fits (close_fd (w1.children.getD i ⟨0, 0, 0⟩).write_fd
          (close_fd (w1.children.getD i ⟨0, 0, 0⟩).read_fd w1).2).2 :=
        ft_close _ _ (ft_close _ _ h1)
      simp only []
      split_ifs
      · exact h2
      · apply ft_wait
        apply ft_kill
        exact ft_close _ _ (ft_close _ _ h2)
      · exact ih _ _ h2

/-- Through the whole of `init`, in the parent and in every child it returns in, the
counter stays within the table. -/
theorem ft_init (v : World) (h : fits v) : fits (init v).world := by
  unfold init
  simp only []
  split_ifs
  · exact ft_spawn v h
  · exact ft_spawn v h
  · exact ft_init_loop _ _ _ (ft_spawn v h)

/-- C23: `children_number` never exceeds `CHILD_MAX`: a counter within the table is
still so after `spawn_save_child`, after a whole run of `parent_listen_child` and after
`init`, in the parent and in the child. `spawn_save_child` keeps the table at its
length and gets past its first test (to write a record in the parent, at the entry
`children_number`, or to clear the table in the child) only when `children_number` is
below `CHILD_MAX`. Once `children_number` has reached `CHILD_MAX` it returns -1 in the
same world: no pipe, no fork, the table as it was. A `new_ns` or `join_ns` command
whose payload is then read is answered by one write of the byte `failure`, and the
table is as full afterwards. -/
theorem spawn_refused_when_table_full (w : World) :
    (w.children_number ≤ CHILD_MAX → (spawn_save_child w).2.children_number ≤ CHILD_MAX) ∧
    (w.children_number ≤ CHILD_MAX →
      ∀ child : Child, (parent_listen_child child w).world.children_number ≤ CHILD_MAX) ∧
    (w.children_number ≤ CHILD_MAX → (init w).world.children_number ≤ CHILD_MAX) ∧
    (spawn_save_child w).2.children.length = w.children.length ∧
    ((spawn_save_child w).1 ≠ -1 → w.children_number < CHILD_MAX) ∧
    (CHILD_MAX ≤ w.children_number → spawn_save_child w = (-1, w)) ∧
    (CHILD_MAX ≤ w.children_number →
      ∀ (child : Child) (cmd : Nat) (rest : List Nat) (a : Int × List Nat) (w1 : World),
        cmd = cmd_new_ns ∨ cmd = cmd_join_ns →
        w.pipes child.read_fd = cmd :: rest →
        0 ≤ child.read_fd ∧ 0 ≤ w.os w.now (.read child.read_fd 1) →
        parent_get_data child.read_fd PATH_MAX (took_command child w) = .ret a w1 →
        parent_dispatch cmd child (took_command child w) = .ret (-1) w1 ∧
        (send_response child res_failure w1).2.trace
          = w1.trace ++ [⟨.write child.write_fd [res_failure],
              (send_response child res_failure w1).1⟩] ∧
        parent_listen_child child w =
          (if (send_response child res_failure w1).1 = -1
            then .ret (-1) (send_response child res_failure w1).2
            else parent_listen_child child (send_response child res_failure w1).2) ∧
        (send_response child res_failure w1).2.children = w.children ∧
        (send_response child res_failure w1).2.children_number = w.children_number) := by
  refine ⟨ft_spawn w, fun h child => ft_listen child w h, ft_init w, ?_, ?_,
    spawn_save_child_full w, ?_⟩
  · rcases spawn_save_child_cases w with ⟨_, hc, _⟩ | ⟨_, _, ⟨_, _, hc⟩, _⟩ | ⟨_, _, _, hl, _⟩
    · rw [hc]
    · rw [hc, List.length_set]
    · exact hl
  · intro hne
    rcases spawn_save_child_cases w with ⟨hr, _, _⟩ | ⟨_, hroom, _, _⟩ | ⟨_, hroom, _, _, _⟩
    · exact absurd hr hne
    · exact hroom
    · exact hroom
  · intro hfull child cmd rest a w1 hcmd hpipe hread hget
    have htab := parent_get_data_table child.read_fd PATH_MAX (took_command child w)
    rw [hget] at htab
    simp only [Outcome.world] at htab
    have htook := sys_read_table child.read_fd 1 w
    have hc1 : w1.children = w.children := htab.1.trans htook.1
    have hn1 : w1.children_number = w.children_number := htab.2.trans htook.2
    have hsp : spawn_save_child w1 = (-1, w1) := spawn_save_child_full w1 (by omega)
    have hd : parent_dispatch cmd child (took_command child w) = .ret (-1) w1 := by
      unfold parent_dispatch
      rcases hcmd with hc | hc
      · rw [if_pos hc]
        unfold parent_new_namespaces
        rw [hget]
        simp only [Outcome.bind, hsp]
        split_ifs <;> rfl
      · rw [if_neg (by rw [hc]; decide), if_pos hc]
        unfold parent_join_namespaces
        rw [hget]
        simp only [Outcome.bind, hsp]
        split_ifs <;> rfl
    have h5 : cmd ≠ cmd_get_fs_info := by rcases hcmd with h | h <;> rw [h] <;> decide
    have h6 : cmd ≠ cmd_close_channels := by rcases hcmd with h | h <;> rw [h] <;> decide
    refine ⟨hd, ?_, ?_, ?_, ?_⟩
    · unfold send_response
      rw [sys_write_trace]
    · rw [parent_listen_child_step child w cmd rest hpipe hread h5 h6, hd]
      simp only [Outcome.bind]
      have hne : ¬ ((-1 : Int) = 1) := by decide
      have hz : (if (-1 : Int) = 0 then res_success else res_failure) = res_failure := by
        decide
      rw [if_neg hne, hz]
    · unfold send_response
      rw [(sys_write_table _ _ _).1, hc1]
    · unfold send_response
      rw [(sys_write_table _ _ _).2, hn1]

/-- Witness of C23: two children are recorded; the first one asks to join `/ns`, gets
the byte `failure` and closes its channel. No pipe is made and no fork. -/
theorem spawn_refused_when_table_full_witness :
    spawn_save_child world_parent_full = (-1, world_parent_full) ∧
    (parent_listen_child child_record world_parent_full).result = some 0 ∧
    (parent_listen_child child_record world_parent_full).world.trace
      = [⟨.read 6 1, 1⟩, ⟨.read 6 4, 4⟩, ⟨.read 6 3, 3⟩, ⟨.write 7 [res_failure], 1⟩,
          ⟨.read 6 1, 1⟩, ⟨.close 6, 0⟩, ⟨.close 7, 0⟩] ∧
    parent_dispatch cmd_join_ns child_record (took_command child_record world_parent_full)
      = .ret (-1) (parent_get_data child_record.read_fd PATH_MAX
          (took_command child_record world_parent_full)).world :=
  ⟨(spawn_refused_when_table_full world_parent_full).2.2.2.2.2.1 (by decide), by decide,
    by decide,
    ((spawn_refused_when_table_full world_parent_full).2.2.2.2.2.2 (by decide) child_record
      cmd_join_ns (le32 3 ++ bytes "/ns" ++ [cmd_close_channels])
      (3, bytes "/ns") _ (Or.inr rfl) (by decide) (by decide) rfl).1⟩

end Broker

namespace Netmon

/-! ## Heap and table lemmas -/

theorem alloc_state (s : Mon) : (alloc s).2 = { s with allocs := s.allocs + 1 } := by
  unfold alloc; split <;> rfl

theorem alloc_ok (s : Mon) (h : s.nomem s.allocs = false) : (alloc s).1 = some (s.allocs + 1) := by
  unfold alloc; simp [h]

theorem new_str_state (t : List Nat) (s : Mon) :
    (new_str t s).2 = { s with allocs := s.allocs + 1 } := by
  unfold new_str; split <;> exact alloc_state s

theorem new_str_ok (t : List Nat) (s : Mon) (h : s.nomem s.allocs = false) :
    (new_str t s).1 = some ⟨s.allocs + 1, t⟩ := by
  unfold new_str; rw [alloc_ok s h]

theorem slot_allocs (s : Mon) (k : Nat) (j : Int) : slot { s with allocs := k } j = slot s j := rfl

theorem slot_emit (s : Mon) (l : List Nat) (j : Int) : slot (emit l s) j = slot s j := rfl

theorem slot_in_range (s : Mon) (idx : Int) (hidx : 0 ≤ idx ∧ idx < MAX_IFACES)
    (hlen : s.iface_list.length = MAX_IFACES) : ∃ cur, slot s idx = some cur := by
  unfold slot
  rw [if_pos hidx]
  have : idx.toNat < s.iface_list.length := by
    rw [hlen]; unfold MAX_IFACES at *; omega
  exact ⟨s.iface_list[idx.toNat], List.getElem?_eq_getElem this⟩

theorem slot_some_range (s : Mon) (idx : Int) (cur : iface) (h : slot s idx = some cur) :
    (0 ≤ idx ∧ idx < MAX_IFACES) ∧ idx.toNat < s.iface_list.length := by
  unfold slot at h
  by_cases hr : 0 ≤ idx ∧ idx < MAX_IFACES
  · rw [if_pos hr] at h
    refine ⟨hr, ?_⟩
    by_contra hn
    rw [List.getElem?_eq_none (by omega)] at h
    cases h
  · rw [if_neg hr] at h
    cases h

theorem slot_set_same (s : Mon) (idx : Int) (cur x : iface) (h : slot s idx = some cur) :
    slot (set_slot s idx x) idx = some x := by
  obtain ⟨hr, hl⟩ := slot_some_range s idx cur h
  unfold slot set_slot
  rw [if_pos hr]
  simp [hl]

theorem slot_set_other (s : Mon) (idx j : Int) (x : iface) (h0 : 0 ≤ idx) (hj : j ≠ idx) :
    slot (set_slot s idx x) j = slot s j := by
  unfold slot set_slot
  by_cases hr : 0 ≤ j ∧ j < MAX_IFACES
  · rw [if_pos hr, if_pos hr]
    have : idx.toNat ≠ j.toNat := by omega
    simp [List.getElem?_set_ne this]
  · rw [if_neg hr, if_neg hr]

theorem set_slot_length (s : Mon) (idx : Int) (x : iface) :
    (set_slot s idx x).iface_list.length = s.iface_list.length := by
  unfold set_slot; simp

/-! ## Address lists -/

theorem alloc_nomem (s : Mon) : (alloc s).2.nomem = s.nomem := by rw [alloc_state]

theorem new_str_nomem (t : List Nat) (s : Mon) : (new_str t s).2.nomem = s.nomem := by
  rw [new_str_state]

theorem slot_alloc (s : Mon) (j : Int) : slot (alloc s).2 j = slot s j := by
  rw [alloc_state]; rfl

theorem slot_new_str (t : List Nat) (s : Mon) (j : Int) : slot (new_str t s).2 j = slot s j := by
  rw [new_str_state]; rfl

/-- C12: for an index inside the table and any address string, when memory is not short,
`insert_ip_addr` returns 0 and the list of the slot becomes the old list followed by one
new node with the family and a copy of the string; the other fields of the slot and
every other slot are unchanged. -/
theorem insert_ip_addr_appends (s : Mon) (idx : Int) (addr : List Nat) (family : Nat)
    (hidx : 0 ≤ idx ∧ idx < MAX_IFACES) (hlen : s.iface_list.length = MAX_IFACES)
    (hmem : ∀ n, s.nomem n = false) :
    ∃ cur t s1, slot s idx = some cur ∧ t.text = addr ∧
      insert_ip_addr idx (some addr) family s = .done 0 s1 ∧
      slot s1 idx = some { cur with ip_addrs := cur.ip_addrs ++ [⟨family, some t⟩] } ∧
      ∀ j, j ≠ idx → slot s1 j = slot s j := by
  obtain ⟨cur, hcur⟩ := slot_in_range s idx hidx hlen
  have h1 : (alloc s).1 = some (s.allocs + 1) := alloc_ok s (hmem _)
  have h2 : (new_str addr (alloc s).2).1 = some ⟨(alloc s).2.allocs + 1, addr⟩ :=
    new_str_ok addr _ (by rw [alloc_nomem]; exact hmem _)
  have h3 : slot (new_str addr (alloc s).2).2 idx = some cur := by
    rw [slot_new_str, slot_alloc]; exact hcur
  refine ⟨cur, ⟨(alloc s).2.allocs + 1, addr⟩, _, hcur, rfl, ?_, slot_set_same _ idx cur _ h3, ?_⟩
  · unfold insert_ip_addr
    rw [if_neg (by omega)]
    simp only [h1, h2, h3]
  · intro j hj
    rw [slot_set_other _ idx j _ hidx.1 hj, slot_new_str, slot_alloc]

/-- Witness of C12: the address 10.0.0.2 is appended to the empty list of slot 7 of the
table holding `eth0`. -/
theorem insert_ip_addr_appends_witness :
    (insert_ip_addr 7 (some (bytes "10.0.0.2")) AF_INET mon_eth0).result = some 0 ∧
    (slot (insert_ip_addr 7 (some (bytes "10.0.0.2")) AF_INET mon_eth0).state 7).map addr_texts
      = some [some (bytes "10.0.0.2")] ∧
    ∃ cur t s1, slot mon_eth0 7 = some cur ∧ t.text = bytes "10.0.0.2" ∧
      insert_ip_addr 7 (some (bytes "10.0.0.2")) AF_INET mon_eth0 = .done 0 s1 ∧
      slot s1 7 = some { cur with ip_addrs := cur.ip_addrs ++ [⟨AF_INET, some t⟩] } ∧
      ∀ j, j ≠ 7 → slot s1 j = slot mon_eth0 j :=
  ⟨by decide, by decide,
    insert_ip_addr_appends mon_eth0 7 (bytes "10.0.0.2") AF_INET (by decide) (by decide)
      (fun _ => rfl)⟩

theorem addr_matches_eq (addr : List Nat) (n : ip_addr) : addr_matches addr n = has_addr addr n := by
  unfold addr_matches has_addr
  cases n.addr <;> simp

theorem delete_ip_addr_scan_spec (addr : List Nat) (l : List ip_addr) :
    delete_ip_addr_scan l addr
      = if l.any (has_addr addr) then some (l.eraseP (has_addr addr)) else none := by
  induction l with
  | nil => rfl
  | cons n rest ih =>
    rw [delete_ip_addr_scan, addr_matches_eq, ih]
    by_cases hn : has_addr addr n = true
    · simp [hn]
    · have hn2 : has_addr addr n = false := by simpa using hn
      by_cases hr : rest.any (has_addr addr) = true
      · simp [hn2, hr, List.eraseP_cons]
      · have hr2 : rest.any (has_addr addr) = false := by simpa using hr
        rw [if_neg hn, if_neg hr]
        simp [hn2, hr2]

/-- What `delete_ip_addr` does on a slot inside the table. -/
theorem delete_ip_addr_spec (s : Mon) (idx : Int) (addr : List Nat) (cur : iface)
    (hcur : slot s idx = some cur) :
    delete_ip_addr idx (some addr) s
      = if cur.ip_addrs.any (has_addr addr) then
          .done 0 (set_slot s idx { cur with ip_addrs := cur.ip_addrs.eraseP (has_addr addr) })
        else .done ENOENT s := by
  obtain ⟨hr, _⟩ := slot_some_range s idx cur hcur
  unfold delete_ip_addr
  rw [if_neg (by omega)]
  simp only [hcur]
  cases hl : cur.ip_addrs with
  | nil => simp
  | cons head rest =>
    simp only []
    rw [addr_matches_eq, delete_ip_addr_scan_spec]
    by_cases hh : has_addr addr head = true
    · simp [hh]
    · have hh2 : has_addr addr head = false := by simpa using hh
      by_cases hr : rest.any (has_addr addr) = true
      · simp [hh2, hr, List.eraseP_cons]
      · have hr2 : rest.any (has_addr addr) = false := by simpa using hr
        simp [hh2, hr2]

/-- C13: on a slot inside the table, if some node of the list carries exactly the string
`addr`, `delete_ip_addr` returns 0 and the list loses the first such node only, the
others keeping their order, every other slot being unchanged; if no node carries it the
result is `ENOENT` and nothing changes; removing the only node leaves the empty list. -/
theorem delete_ip_addr_unlinks_first (s : Mon) (idx : Int) (addr : List Nat)
    (hidx : 0 ≤ idx ∧ idx < MAX_IFACES) (hlen : s.iface_list.length = MAX_IFACES) :
    ∃ cur, slot s idx = some cur ∧
      ((∃ n ∈ cur.ip_addrs, has_addr addr n = true) →
        ∃ s1, delete_ip_addr idx (some addr) s = .done 0 s1 ∧
          slot s1 idx = some { cur with ip_addrs := cur.ip_addrs.eraseP (has_addr addr) } ∧
          (∀ j, j ≠ idx → slot s1 j = slot s j) ∧
          (∀ n, cur.ip_addrs = [n] → slot s1 idx = some { cur with ip_addrs := [] })) ∧
      ((∀ n ∈ cur.ip_addrs, has_addr addr n = false) →
        delete_ip_addr idx (some addr) s = .done ENOENT s) := by
  obtain ⟨cur, hcur⟩ := slot_in_range s idx hidx hlen
  refine ⟨cur, hcur, ?_, ?_⟩
  · rintro ⟨n, hn, hm⟩
    have hany : cur.ip_addrs.any (has_addr addr) = true := List.any_eq_true.mpr ⟨n, hn, hm⟩
    refine ⟨_, by rw [delete_ip_addr_spec s idx addr cur hcur, if_pos hany],
      slot_set_same s idx cur _ hcur, fun j hj => slot_set_other s idx j _ hidx.1 hj, ?_⟩
    intro n1 h1
    rw [slot_set_same s idx cur _ hcur]
    rw [h1] at hn
    have : n = n1 := by simpa using hn
    subst this
    simp [h1, hm]
  · intro hall
    have hany : ¬ cur.ip_addrs.any (has_addr addr) = true := by
      rw [List.any_eq_true]
      rintro ⟨n, hn, hm⟩
      rw [hall n hn] at hm
      cases hm
    rw [delete_ip_addr_spec s idx addr cur hcur, if_neg hany]

/-- Witness of C13: slot 7 holds 10.0.0.2 and 10.0.0.3; deleting 10.0.0.2 leaves
10.0.0.3, and deleting an address that is not there gives `ENOENT`. -/
theorem delete_ip_addr_unlinks_first_witness :
    (slot mon_two_addrs 7).map addr_texts
      = some [some (bytes "10.0.0.2"), some (bytes "10.0.0.3")] ∧
    (delete_ip_addr 7 (some (bytes "10.0.0.2")) mon_two_addrs).result = some 0 ∧
    (slot (delete_ip_addr 7 (some (bytes "10.0.0.2")) mon_two_addrs).state 7).map addr_texts
      = some [some (bytes "10.0.0.3")] ∧
    (delete_ip_addr 7 (some (bytes "10.0.0.9")) mon_two_addrs).result = some ENOENT ∧
    ∃ cur, slot mon_two_addrs 7 = some cur ∧
      ((∃ n ∈ cur.ip_addrs, has_addr (bytes "10.0.0.2") n = true) →
        ∃ s1, delete_ip_addr 7 (some (bytes "10.0.0.2")) mon_two_addrs = .done 0 s1 ∧
          slot s1 7
            = some { cur with ip_addrs := cur.ip_addrs.eraseP (has_addr (bytes "10.0.0.2")) } ∧
          (∀ j, j ≠ 7 → slot s1 j = slot mon_two_addrs j) ∧
          (∀ n, cur.ip_addrs = [n] → slot s1 7 = some { cur with ip_addrs := [] })) ∧
      ((∀ n ∈ cur.ip_addrs, has_addr (bytes "10.0.0.2") n = false) →
        delete_ip_addr 7 (some (bytes "10.0.0.2")) mon_two_addrs = .done ENOENT mon_two_addrs) :=
  ⟨by decide, by decide, by decide, by decide,
    delete_ip_addr_unlinks_first mon_two_addrs 7 (bytes "10.0.0.2") (by decide) (by decide)⟩

/-! ## Interface slots -/

theorem dup_field_state (src old : Option Str) (s : Mon) :
    ∃ k, (dup_field src old s).2 = { s with allocs := s.allocs + k } := by
  unfold dup_field
  cases src with
  | none => exact ⟨0, rfl⟩
  | some t => exact ⟨1, new_str_state t.text s⟩

theorem dup_field_iface_list (src old : Option Str) (s : Mon) :
    (dup_field src old s).2.iface_list = s.iface_list := by
  obtain ⟨k, hk⟩ := dup_field_state src old s
  rw [hk]

theorem delete_iface_from_list_spec (s : Mon) (idx : Int) (cur : iface)
    (hcur : slot s idx = some cur) :
    delete_iface_from_list idx s = .done () (set_slot s idx init_iface) := by
  unfold delete_iface_from_list
  simp only [hcur]
  rfl

theorem add_iface_to_list_spec (s : Mon) (nif cur : iface) (hcur : slot s nif.idx = some cur) :
    ∃ s1 x, add_iface_to_list nif s = .done () (set_slot s1 nif.idx x) ∧
      s1.iface_list = s.iface_list := by
  unfold add_iface_to_list
  simp only [hcur]
  exact ⟨_, _, rfl, by rw [dup_field_iface_list, dup_field_iface_list, dup_field_iface_list]⟩

theorem slot_congr (s t : Mon) (h : s.iface_list = t.iface_list) (j : Int) :
    slot s j = slot t j := by
  unfold slot; rw [h]

theorem list_set_self {α : Type} (l : List α) (i : Nat) (a : α) (h : l[i]? = some a) :
    l.set i a = l := by
  apply List.ext_getElem?
  intro n
  by_cases hn : i = n
  · subst hn
    have hi : i < l.length := by
      by_contra hc
      rw [List.getElem?_eq_none (by omega)] at h
      cases h
    rw [h]; simp [hi]
  · rw [List.getElem?_set_ne hn]

/-- C18: on a slot inside the table `delete_iface_from_list` returns, leaves the slot
equal to an initial empty slot (index `INIT_IF_IDX`, no name, no hardware address, no
MTU, empty address list) and every other slot unchanged; so `add_iface_to_list` on an
initial empty slot followed by `delete_iface_from_list` gives back the table. -/
theorem delete_iface_from_list_resets (s : Mon) (idx : Int)
    (hidx : 0 ≤ idx ∧ idx < MAX_IFACES) (hlen : s.iface_list.length = MAX_IFACES) :
    (∃ s1, delete_iface_from_list idx s = .done () s1 ∧
      slot s1 idx = some init_iface ∧ ∀ j, j ≠ idx → slot s1 j = slot s j) ∧
    (∀ nif : iface, nif.idx = idx → slot s idx = some init_iface →
      ∃ s2 s3, add_iface_to_list nif s = .done () s2 ∧
        delete_iface_from_list idx s2 = .done () s3 ∧ s3.iface_list = s.iface_list) := by
  obtain ⟨cur, hcur⟩ := slot_in_range s idx hidx hlen
  refine ⟨⟨_, delete_iface_from_list_spec s idx cur hcur, slot_set_same s idx cur _ hcur,
    fun j hj => slot_set_other s idx j _ hidx.1 hj⟩, ?_⟩
  intro nif hnif hinit
  subst hnif
  obtain ⟨s1, x, hadd, hl⟩ := add_iface_to_list_spec s nif init_iface hinit
  have h1 : slot s1 nif.idx = some init_iface := by rw [slot_congr s1 s hl]; exact hinit
  have h2 : slot (set_slot s1 nif.idx x) nif.idx = some x := slot_set_same s1 _ _ x h1
  refine ⟨_, _, hadd, delete_iface_from_list_spec _ _ x h2, ?_⟩
  unfold set_slot
  simp only [List.set_set, hl]
  apply list_set_self
  have := hinit
  unfold slot at this
  rw [if_pos hidx] at this
  exact this

/-- Witness of C18: deleting interface 7 from the table that holds `eth0` at slot 7
empties the slot, and the table is the initialised one again. -/
theorem delete_iface_from_list_resets_witness :
    (∃ s1, delete_iface_from_list 7 mon_eth0 = .done () s1 ∧
      slot s1 7 = some init_iface ∧ ∀ j, j ≠ 7 → slot s1 j = slot mon_eth0 j) ∧
    (delete_iface_from_list 7 mon_eth0).state.iface_list = mon_ready.iface_list :=
  ⟨(delete_iface_from_list_resets mon_eth0 7 (by decide) (by decide)).1, by decide⟩

/-- C15: an index past the end of the table is not rejected. On the initialised table
(50 slots, indexes 0 to 49) each of `insert_ip_addr`, `delete_ip_addr`,
`add_iface_to_list`, `delete_iface_from_list` and, for a record that carries a name,
`update_iface_list`, called with index 50 goes on to access `iface_list[50]`, outside the
table; only a negative index is refused, and only by `insert_ip_addr` and
`delete_ip_addr`. -/
theorem index_past_table_end_is_accessed :
    (insert_ip_addr 50 (some (bytes "10.0.0.2")) AF_INET mon_ready).is_undefined = true ∧
    (delete_ip_addr 50 (some (bytes "10.0.0.2")) mon_ready).is_undefined = true ∧
    (add_iface_to_list { init_iface with idx := 50 } mon_ready).is_undefined = true ∧
    (update_iface_list { init_iface with idx := 50, name := some ⟨1, bytes "veth50"⟩ }
      mon_ready).is_undefined = true ∧
    (delete_iface_from_list 50 mon_ready).is_undefined = true ∧
    (add_iface_to_list { init_iface with idx := -2 } mon_ready).is_undefined = true ∧
    (insert_ip_addr (-2) (some (bytes "10.0.0.2")) AF_INET mon_ready).result = some EINVAL ∧
    (delete_ip_addr (-2) (some (bytes "10.0.0.2")) mon_ready).result = some EINVAL := by
  refine ⟨?_, ?_, ?_, ?_, ?_, ?_, ?_, ?_⟩ <;> decide

/-- C16: a replayed `NEWLINK` is not suppressed. The table holds `eth0` at slot 7 with
the hardware address `aa:bb:cc:dd:ee:ff` and the MTU 1500; the same message parses to
the same three texts, yet `iface_changed` compares the addresses of the parsed strings
with those of the strings of the slot, which are allocated at the same time, and reports
a change; so `add_interface` prints an `upd-net-if` line. The slot holds the same three
texts afterwards. -/
theorem replayed_newlink_emits_update :
    ((slot mon_eth0 7).map fun c => (c.idx, show_str c.name, show_str c.hw_addr, show_str c.mtu))
      = some (7, bytes "eth0", bytes "aa:bb:cc:dd:ee:ff", bytes "1500") ∧
    show_str (parse_ifinfomsg newlink_eth0 mon_eth0).1.name = bytes "eth0" ∧
    show_str (parse_ifinfomsg newlink_eth0 mon_eth0).1.hw_addr = bytes "aa:bb:cc:dd:ee:ff" ∧
    show_str (parse_ifinfomsg newlink_eth0 mon_eth0).1.mtu = bytes "1500" ∧
    ((slot mon_eth0 7).map (iface_changed (parse_ifinfomsg newlink_eth0 mon_eth0).1))
      = some true ∧
    (add_interface newlink_eth0 runtime mon_eth0).state.emitted = mon_eth0.emitted ++
      [bytes "# /usr/bin/kata-runtime upd-net-if --name eth0 --hw-addr aa:bb:cc:dd:ee:ff --mtu 1500\n"] ∧
    ((slot (add_interface newlink_eth0 runtime mon_eth0).state 7).map fun c =>
        (c.idx, show_str c.name, show_str c.hw_addr, show_str c.mtu))
      = some (7, bytes "eth0", bytes "aa:bb:cc:dd:ee:ff", bytes "1500") := by
  refine ⟨?_, ?_, ?_, ?_, ?_, ?_, ?_⟩ <;> decide

/-! ## Uniqueness of addresses -/

theorem no_duplicate_set (s : Mon) (idx : Int) (x : iface) (hs : no_duplicate s)
    (hx : (addr_texts x).Nodup) : no_duplicate (set_slot s idx x) := by
  intro nif hnif
  unfold set_slot at hnif
  rcases List.mem_or_eq_of_mem_set hnif with h | h
  · exact hs nif h
  · rw [h]; exact hx

theorem no_duplicate_congr (s t : Mon) (h : s.iface_list = t.iface_list)
    (hs : no_duplicate s) : no_duplicate t := by
  unfold no_duplicate at *; rw [← h]; exact hs

theorem slot_mem (s : Mon) (idx : Int) (cur : iface) (h : slot s idx = some cur) :
    cur ∈ s.iface_list := by
  unfold slot at h
  split_ifs at h
  obtain ⟨hi, he⟩ := List.getElem?_eq_some.mp h
  rw [← he]
  exact List.getElem_mem _

theorem insert_ip_addr_cases (s : Mon) (idx : Int) (addr : List Nat) (family : Nat) :
    (insert_ip_addr idx (some addr) family s).state.iface_list = s.iface_list ∨
    ∃ cur t, slot s idx = some cur ∧ t.text = addr ∧
      (insert_ip_addr idx (some addr) family s).state.iface_list
        = s.iface_list.set idx.toNat { cur with ip_addrs := cur.ip_addrs ++ [⟨family, some t⟩] } := by
  unfold insert_ip_addr
  by_cases h0 : idx < 0
  · left; rw [if_pos h0]; rfl
  · rw [if_neg h0]
    simp only []
    rcases ha : (alloc s).1 with _ | p
    · left; simp only [Run.state]; rw [alloc_state]
    · simp only []
      rcases hn : (new_str addr (alloc s).2).1 with _ | t
      · left; simp only [Run.state]; rw [new_str_state, alloc_state]
      · simp only []
        have ht : t.text = addr := by
          unfold new_str at hn
          split at hn
          · cases hn
          · cases hn; rfl
        rcases hsl : slot (new_str addr (alloc s).2).2 idx with _ | cur
        · left; simp only [Run.state]; rw [new_str_state, alloc_state]
        · right
          rw [slot_new_str, slot_alloc] at hsl
          refine ⟨cur, t, hsl, ht, ?_⟩
          simp only [Run.state, set_slot]
          rw [new_str_state, alloc_state]

theorem delete_ip_addr_cases (s : Mon) (idx : Int) (addr : List Nat) :
    (delete_ip_addr idx (some addr) s).state.iface_list = s.iface_list ∨
    ∃ cur, slot s idx = some cur ∧
      (delete_ip_addr idx (some addr) s).state.iface_list
        = s.iface_list.set idx.toNat
            { cur with ip_addrs := cur.ip_addrs.eraseP (has_addr addr) } := by
  rcases hsl : slot s idx with _ | cur
  · left
    unfold delete_ip_addr
    split_ifs
    · rfl
    · simp only [hsl]; rfl
  · rw [delete_ip_addr_spec s idx addr cur hsl]
    split_ifs
    · right; exact ⟨cur, rfl, rfl⟩
    · left; rfl

theorem addr_texts_append (cur : iface) (family : Nat) (t : Str) :
    addr_texts { cur with ip_addrs := cur.ip_addrs ++ [⟨family, some t⟩] }
      = addr_texts cur ++ [some t.text] := by
  unfold addr_texts; simp

theorem run_op_length (op : TableOp) (s : Mon) :
    (run_op op s).state.iface_list.length = s.iface_list.length := by
  cases op with
  | insert idx addr family =>
    rcases insert_ip_addr_cases s idx addr family with h | ⟨cur, t, _, _, h⟩
    · exact congrArg List.length h
    · unfold run_op; simp only []; rw [h]; simp
  | delete idx addr =>
    rcases delete_ip_addr_cases s idx addr with h | ⟨cur, _, h⟩
    · exact congrArg List.length h
    · unfold run_op; simp only []; rw [h]; simp

theorem run_op_no_duplicate (op : TableOp) (s : Mon) (hs : no_duplicate s)
    (hok : op_fresh op s = true) : no_duplicate (run_op op s).state := by
  cases op with
  | insert idx addr family =>
    rcases insert_ip_addr_cases s idx addr family with h | ⟨cur, t, hcur, ht, h⟩
    · exact no_duplicate_congr s _ h.symm hs
    · intro nif hnif
      change nif ∈ (insert_ip_addr idx (some addr) family s).state.iface_list at hnif
      rw [h] at hnif
      rcases List.mem_or_eq_of_mem_set hnif with h1 | h1
      · exact hs nif h1
      · rw [h1, addr_texts_append, ht]
        unfold op_fresh at hok
        simp only [hcur, Bool.and_eq_true, Bool.not_eq_true', decide_eq_true_eq] at hok
        have hnot : some addr ∉ addr_texts cur := by
          intro hc
          have : (addr_texts cur).contains (some addr) = true := by
            rw [List.contains_iff_exists_mem_beq]
            exact ⟨_, hc, by simp⟩
          rw [hok.2] at this
          cases this
        refine List.Nodup.append (hs cur (slot_mem s idx cur hcur)) (List.nodup_singleton _) ?_
        intro a ha hb
        rw [List.mem_singleton] at hb
        subst hb
        exact hnot ha
  | delete idx addr =>
    rcases delete_ip_addr_cases s idx addr with h | ⟨cur, hcur, h⟩
    · exact no_duplicate_congr s _ h.symm hs
    · intro nif hnif
      change nif ∈ (delete_ip_addr idx (some addr) s).state.iface_list at hnif
      rw [h] at hnif
      rcases List.mem_or_eq_of_mem_set hnif with h1 | h1
      · exact hs nif h1
      · rw [h1]
        unfold addr_texts
        exact List.Nodup.sublist (List.Sublist.map _ (List.eraseP_sublist _))
          (hs cur (slot_mem s idx cur hcur))

theorem run_ops_no_duplicate (ops : List TableOp) (s : Mon) (hs : no_duplicate s)
    (hok : ops_fresh ops s = true) : no_duplicate (run_ops ops s) := by
  induction ops generalizing s with
  | nil => exact hs
  | cons op rest ih =>
    unfold ops_fresh at hok
    rw [Bool.and_eq_true] at hok
    exact ih _ (run_op_no_duplicate op s hs hok.1) hok.2

theorem init_iface_list_no_duplicate (s : Mon) : no_duplicate (init_iface_list s) := by
  intro nif hnif
  unfold init_iface_list at hnif
  rw [List.eq_of_mem_replicate hnif]
  exact List.nodup_nil

/-- C14, as the code has it: `insert_ip_addr` does not look for the address in the list,
so two insertions of 10.0.0.2 at slot 7 of the table holding `eth0` leave the string
twice in the list of slot 7; two `NEWADDR` messages for it do the same. -/
theorem insert_ip_addr_twice_duplicates :
    no_duplicate mon_eth0 ∧
    (slot (run_ops [.insert 7 (bytes "10.0.0.2") AF_INET, .insert 7 (bytes "10.0.0.2") AF_INET]
      mon_eth0) 7).map addr_texts = some [some (bytes "10.0.0.2"), some (bytes "10.0.0.2")] ∧
    ¬ no_duplicate (run_ops [.insert 7 (bytes "10.0.0.2") AF_INET,
      .insert 7 (bytes "10.0.0.2") AF_INET] mon_eth0) ∧
    (slot (update_interface newaddr_eth0 runtime
      (update_interface newaddr_eth0 runtime mon_eth0).state).state 7).map addr_texts
      = some [some (bytes "10.0.0.2"), some (bytes "10.0.0.2")] := by
  refine ⟨?_, ?_, ?_, ?_⟩ <;> decide

/-- C14, amended: starting from the initialised interface table, after every sequence of
`insert_ip_addr` and `delete_ip_addr` calls with indexes below `MAX_IFACES` in which no
insertion is given an address string that is in the list of its slot at that moment, no
address string appears twice in the address list of any one slot. -/
theorem no_duplicate_when_inserts_fresh (s0 : Mon) (ops : List TableOp)
    (hok : ops_fresh ops (init_iface_list s0) = true) :
    no_duplicate (run_ops ops (init_iface_list s0)) :=
  run_ops_no_duplicate ops _ (init_iface_list_no_duplicate s0) hok

/-- Witness of C14, amended: 10.0.0.2 inserted, deleted and inserted again at slot 7,
10.0.0.3 inserted beside it. -/
theorem no_duplicate_when_inserts_fresh_witness :
    ops_fresh [.insert 7 (bytes "10.0.0.2") AF_INET, .delete 7 (bytes "10.0.0.2"),
      .insert 7 (bytes "10.0.0.2") AF_INET, .insert 7 (bytes "10.0.0.3") AF_INET]
      (init_iface_list mon_init) = true ∧
    no_duplicate (run_ops [.insert 7 (bytes "10.0.0.2") AF_INET, .delete 7 (bytes "10.0.0.2"),
      .insert 7 (bytes "10.0.0.2") AF_INET, .insert 7 (bytes "10.0.0.3") AF_INET]
      (init_iface_list mon_init)) :=
  ⟨by decide, no_duplicate_when_inserts_fresh mon_init _ (by decide)⟩

/-! ## A new link -/

theorem hw_addr_to_string_state (c : List Nat) (s : Mon) :
    (hw_addr_to_string c s).2 = { s with allocs := s.allocs + 1 } := by
  unfold hw_addr_to_string; exact new_str_state _ s

theorem parse_ifinfomsg_attr_state (nif : iface) (a : rtattr) (s : Mon) :
    ∃ k, (parse_ifinfomsg_attr nif a s).2 = { s with allocs := s.allocs + k } := by
  unfold parse_ifinfomsg_attr
  split_ifs
  · exact ⟨1, hw_addr_to_string_state _ s⟩
  · exact ⟨1, new_str_state _ s⟩
  · exact ⟨1, new_str_state _ s⟩
  · exact ⟨0, rfl⟩

theorem parse_ifinfomsg_attr_fields (nif : iface) (a : rtattr) (s : Mon) :
    (parse_ifinfomsg_attr nif a s).1.idx = nif.idx ∧
    (parse_ifinfomsg_attr nif a s).1.ip_addrs = nif.ip_addrs := by
  unfold parse_ifinfomsg_attr
  split_ifs <;> exact ⟨rfl, rfl⟩

theorem parse_options_loop_spec (opts : List (Nat × List Nat)) (params : watcher_params)
    (s : Mon) (hmem : ∀ n, s.nomem n = false)
    (hopts : ∀ o ∈ opts, o.1 = 100 ∨ o.1 = 110 ∨ o.1 = 112 ∨ o.1 = 114) :
    ∃ p s1, parse_options_loop opts params s = .done p s1 ∧ s1.trace = s.trace ∧
      s1.iface_list = s.iface_list ∧
      (p.netns_path = none ↔ params.netns_path = none ∧ ∀ o ∈ opts, o.1 ≠ 110) ∧
      (p.sandbox_id = none ↔ params.sandbox_id = none ∧ ∀ o ∈ opts, o.1 ≠ 112) ∧
      (p.runtime_path = none ↔ params.runtime_path = none ∧ ∀ o ∈ opts, o.1 ≠ 114) := by
  induction opts generalizing params s with
  | nil => exact ⟨params, s, rfl, rfl, rfl, by simp, by simp, by simp⟩
  | cons o rest ih =>
    obtain ⟨c, optarg⟩ := o
    have hrest : ∀ o ∈ rest, o.1 = 100 ∨ o.1 = 110 ∨ o.1 = 112 ∨ o.1 = 114 :=
      fun o ho => hopts o (List.mem_cons_of_mem _ ho)
    have hn : (new_str optarg s).1 = some ⟨s.allocs + 1, optarg⟩ := new_str_ok optarg s (hmem _)
    have hm2 : ∀ n, (new_str optarg s).2.nomem n = false := by
      rw [new_str_nomem]; exact hmem
    have ht2 : (new_str optarg s).2.trace = s.trace := by rw [new_str_state]
    have hl2 : (new_str optarg s).2.iface_list = s.iface_list := by rw [new_str_state]
    rw [parse_options_loop]
    rcases hopts (c, optarg) (List.mem_cons_self _ _) with h | h | h | h <;> simp only at h <;>
      subst h
    · rw [if_pos rfl]
      obtain ⟨p, s1, e, t, l, a, b, d⟩ := ih params { s with debug := true } hmem hrest
      exact ⟨p, s1, e, t, l, by simpa using a, by simpa using b, by simpa using d⟩
    · rw [if_neg (by decide), if_neg (by decide), if_pos rfl]
      obtain ⟨p, s1, e, t, l, a, b, d⟩ := ih { params with netns_path := (new_str optarg s).1 }
        (new_str optarg s).2 hm2 hrest
      refine ⟨p, s1, e, t.trans ht2, l.trans hl2, ?_, by simpa using b, by simpa using d⟩
      rw [a, hn]; simp
    · rw [if_neg (by decide), if_neg (by decide), if_neg (by decide), if_pos rfl]
      obtain ⟨p, s1, e, t, l, a, b, d⟩ := ih { params with sandbox_id := (new_str optarg s).1 }
        (new_str optarg s).2 hm2 hrest
      refine ⟨p, s1, e, t.trans ht2, l.trans hl2, by simpa using a, ?_, by simpa using d⟩
      rw [b, hn]; simp
    · rw [if_neg (by decide), if_neg (by decide), if_neg (by decide), if_neg (by decide),
        if_pos rfl]
      obtain ⟨p, s1, e, t, l, a, b, d⟩ := ih { params with runtime_path := (new_str optarg s).1 }
        (new_str optarg s).2 hm2 hrest
      refine ⟨p, s1, e, t.trans ht2, l.trans hl2, by simpa using a, by simpa using b, ?_⟩
      rw [d, hn]; simp

/-- C19, as the code has it: `--help` ends the process inside `parse_options` with the
exit code 0 although none of the three required options was supplied; so does
`--version`; an option that is not recognised ends it with `EXIT_FAILURE`. In none of
these runs does `parse_options` return `EINVAL`, and the exit code is not 22. -/
theorem help_exits_before_required_check :
    parse_options [(104, [])] ⟨none, none, none⟩ (init_iface_list mon_init)
      = .exit 0 (init_iface_list mon_init) ∧
    main [(104, [])] mon_init = .exit 0 (init_iface_list mon_init) ∧
    main [(118, [])] mon_init = .exit 0 (init_iface_list mon_init) ∧
    main [(63, [])] mon_init = .exit 1 (init_iface_list mon_init) :=
  ⟨rfl, rfl, rfl, rfl⟩

/-- C19, amended: for a command line made of `--debug`, `--netns-path`, `--sandbox-id`
and `--runtime-path` options only (no `--help`, no `--version`, no unknown option), and
with memory for the copies of the arguments, `parse_options` returns, with 0 if and only
if `--netns-path`, `--sandbox-id` and `--runtime-path` were all supplied and with
`EINVAL` (22) otherwise; in that case `main` returns `EINVAL` as the exit code without
having made any call to enter the namespace or to scan it. -/
theorem parse_options_required (opts : List (Nat × List Nat)) (s : Mon)
    (hmem : ∀ n, s.nomem n = false)
    (hopts : ∀ o ∈ opts, o.1 = 100 ∨ o.1 = 110 ∨ o.1 = 112 ∨ o.1 = 114) :
    ∃ r p s1, parse_options opts ⟨none, none, none⟩ (init_iface_list s) = .done (r, p) s1 ∧
      (r = 0 ↔ (∃ o ∈ opts, o.1 = 110) ∧ (∃ o ∈ opts, o.1 = 112) ∧ ∃ o ∈ opts, o.1 = 114) ∧
      (r ≠ 0 → r = EINVAL ∧ r = 22 ∧ main opts s = .done EINVAL s1 ∧ s1.trace = s.trace) := by
  obtain ⟨p, s1, e, t, _, a, b, d⟩ := parse_options_loop_spec opts ⟨none, none, none⟩
    (init_iface_list s) hmem hopts
  have a1 : p.netns_path = none ↔ ¬ ∃ o ∈ opts, o.1 = 110 := by
    rw [a]
    exact ⟨fun h ⟨o, ho, hc⟩ => h.2 o ho hc, fun h => ⟨rfl, fun o ho hc => h ⟨o, ho, hc⟩⟩⟩
  have b1 : p.sandbox_id = none ↔ ¬ ∃ o ∈ opts, o.1 = 112 := by
    rw [b]
    exact ⟨fun h ⟨o, ho, hc⟩ => h.2 o ho hc, fun h => ⟨rfl, fun o ho hc => h ⟨o, ho, hc⟩⟩⟩
  have d1 : p.runtime_path = none ↔ ¬ ∃ o ∈ opts, o.1 = 114 := by
    rw [d]
    exact ⟨fun h ⟨o, ho, hc⟩ => h.2 o ho hc, fun h => ⟨rfl, fun o ho hc => h ⟨o, ho, hc⟩⟩⟩
  have hmain : ∀ r : Int, r ≠ 0 →
      parse_options opts ⟨none, none, none⟩ (init_iface_list s) = .done (r, p) s1 →
      main opts s = .done r s1 := by
    intro r hr he
    unfold main
    rw [he]
    simp only [Run.bind]
    rw [if_pos hr]
  have hE : EINVAL ≠ 0 := by decide
  unfold parse_options at hmain ⊢
  rw [e] at hmain ⊢
  simp only [Run.bind] at hmain ⊢
  by_cases h1 : p.netns_path = none
  · rw [if_pos h1] at hmain ⊢
    exact ⟨_, _, _, rfl, ⟨fun h => absurd h hE, fun h => absurd h.1 (a1.mp h1)⟩,
      fun _ => ⟨rfl, rfl, hmain _ hE rfl, t⟩⟩
  · rw [if_neg h1] at hmain ⊢
    by_cases h2 : p.sandbox_id = none
    · rw [if_pos h2] at hmain ⊢
      exact ⟨_, _, _, rfl, ⟨fun h => absurd h hE, fun h => absurd h.2.1 (b1.mp h2)⟩,
        fun _ => ⟨rfl, rfl, hmain _ hE rfl, t⟩⟩
    · rw [if_neg h2] at hmain ⊢
      by_cases h3 : p.runtime_path = none
      · rw [if_pos h3] at hmain ⊢
        exact ⟨_, _, _, rfl, ⟨fun h => absurd h hE, fun h => absurd h.2.2 (d1.mp h3)⟩,
          fun _ => ⟨rfl, rfl, hmain _ hE rfl, t⟩⟩
      · rw [if_neg h3] at hmain ⊢
        refine ⟨_, _, _, rfl, ⟨fun _ => ⟨?_, ?_, ?_⟩, fun _ => rfl⟩, fun h => absurd rfl h⟩
        · exact not_not.mp (fun h => h1 (a1.mpr h))
        · exact not_not.mp (fun h => h2 (b1.mpr h))
        · exact not_not.mp (fun h => h3 (d1.mpr h))

/-- Witness of C19, amended: with `--netns-path /ns --debug` only, `main` returns 22 and
no call has been made; with the three required options `parse_options` returns 0. -/
theorem parse_options_required_witness :
    (main [(110, bytes "/ns"), (100, [])] mon_init).result = some 22 ∧
    (main [(110, bytes "/ns"), (100, [])] mon_init).state.trace = [] ∧
    ((parse_options [(110, bytes "/ns"), (112, bytes "sb"), (114, bytes "/usr/bin/kata-runtime")]
      ⟨none, none, none⟩ (init_iface_list mon_init)).result.map Prod.fst) = some 0 ∧
    ∃ r p s1, parse_options [(110, bytes "/ns"), (100, [])] ⟨none, none, none⟩
        (init_iface_list mon_init) = .done (r, p) s1 ∧
      (r = 0 ↔ (∃ o ∈ [(110, bytes "/ns"), (100, [])], o.1 = 110) ∧
        (∃ o ∈ [(110, bytes "/ns"), (100, [])], o.1 = 112) ∧
        ∃ o ∈ [(110, bytes "/ns"), (100, [])], o.1 = 114) ∧
      (r ≠ 0 → r = EINVAL ∧ r = 22 ∧
        main [(110, bytes "/ns"), (100, [])] mon_init = .done EINVAL s1 ∧
        s1.trace = mon_init.trace) :=
  ⟨by decide, by decide, by decide,
    parse_options_required [(110, bytes "/ns"), (100, [])] mon_init (fun _ => rfl)
      (by decide)⟩

/-! ## Initial scan -/

/-- C21: an interface whose index is not below `MAX_IFACES` is not skipped by the
initial scan. With `veth50` (index 50) listed before `eth0` (index 7), `scan_netns`
reads `iface_list[50].idx`, outside the table, before it compares the index with
`MAX_IFACES`; the run does not go on to `eth0`, whose slot stays empty, although a scan
of `eth0` alone returns 0 and fills slot 7 with its address. -/
theorem scan_reads_slot_before_limit_check :
    (scan_netns mon_scan_over_limit).is_undefined = true ∧
    (scan_netns mon_scan_over_limit).result = none ∧
    (slot (scan_netns mon_scan_over_limit).state 7).map (fun c => c.idx) = some INIT_IF_IDX ∧
    (scan_netns mon_scan_eth0).result = some 0 ∧
    ((slot (scan_netns mon_scan_eth0).state 7).map fun c =>
        (c.idx, show_str c.name, show_str c.hw_addr, show_str c.mtu))
      = some (7, bytes "eth0", bytes "aa:bb:cc:dd:ee:ff", bytes "1500") ∧
    (slot (scan_netns mon_scan_eth0).state 7).map addr_texts
      = some [some (bytes "10.0.0.2")] := by
  refine ⟨?_, ?_, ?_, ?_, ?_, ?_⟩ <;> decide

/-! ## Update of a live slot -/

/-- C25: `_update_interface` does not return 0 for a `NEWLINK` message: `ret` is
assigned only for `NEWADDR` and `DELADDR`, so the value returned is whatever the stack
held. With 5 there, the `NEWLINK` message that renames the live interface 7 makes
`add_interface` return 5, `listen_netlink` report the message as failed with 5, and
`monitor_netns` leave its loop with 5. -/
theorem update_interface_returns_stack_value :
    (slot mon_eth0_stale_stack 7).map (fun c => c.idx) = some 7 ∧
    (_update_interface newlink_lan0 (parse_ifinfomsg newlink_lan0 mon_eth0_stale_stack).1
      runtime (parse_ifinfomsg newlink_lan0 mon_eth0_stale_stack).2).result = some 5 ∧
    (add_interface newlink_lan0 runtime mon_eth0_stale_stack).result = some 5 ∧
    (listen_netlink 3 runtime mon_eth0_stale_stack).result = some 5 ∧
    (monitor_netns runtime mon_eth0_stale_stack).result = some 5 := by
  refine ⟨?_, ?_, ?_, ?_, ?_⟩ <;> decide

theorem dup_field_text (src old : Option Str) (s : Mon) (h : s.nomem s.allocs = false) :
    (dup_field src old s).1.map Str.text
      = (src.map Str.text).orElse fun _ => old.map Str.text := by
  unfold dup_field
  cases src with
  | none => rfl
  | some t => simp only [new_str_ok _ s h]; rfl

theorem set_slot_self (s : Mon) (idx : Int) (cur : iface) (h : slot s idx = some cur) :
    set_slot s idx cur = s := by
  obtain ⟨hr, _⟩ := slot_some_range s idx cur h
  unfold slot at h
  rw [if_pos hr] at h
  unfold set_slot
  rw [list_set_self _ _ _ h]

theorem update_iface_list_spec (s : Mon) (nif cur : iface)
    (hcur : slot s nif.idx = some cur) (hmem : ∀ n, s.nomem n = false) :
    ∃ s1 x, update_iface_list nif s = .done () (set_slot s1 nif.idx x) ∧
      s1.iface_list = s.iface_list ∧ s1.emitted = s.emitted ∧ s1.uninit = s.uninit ∧
      x.idx = cur.idx ∧ x.ip_addrs = cur.ip_addrs ∧
      x.name.map Str.text = (nif.name.map Str.text).orElse (fun _ => cur.name.map Str.text) ∧
      x.hw_addr.map Str.text
        = (nif.hw_addr.map Str.text).orElse (fun _ => cur.hw_addr.map Str.text) ∧
      x.mtu.map Str.text = (nif.mtu.map Str.text).orElse (fun _ => cur.mtu.map Str.text) := by
  obtain ⟨k1, h1⟩ := dup_field_state nif.name cur.name s
  obtain ⟨k2, h2⟩ := dup_field_state nif.hw_addr cur.hw_addr (dup_field nif.name cur.name s).2
  obtain ⟨k3, h3⟩ := dup_field_state nif.mtu cur.mtu
    (dup_field nif.hw_addr cur.hw_addr (dup_field nif.name cur.name s).2).2
  unfold update_iface_list
  by_cases hnull : nif.name = none ∧ nif.hw_addr = none ∧ nif.mtu = none
  · rw [if_pos hnull]
    obtain ⟨hn, hh, hm⟩ := hnull
    refine ⟨s, cur, by rw [set_slot_self s nif.idx cur hcur], rfl, rfl, rfl, rfl, rfl, ?_, ?_, ?_⟩
    · rw [hn]; rfl
    · rw [hh]; rfl
    · rw [hm]; rfl
  · rw [if_neg hnull]
    simp only [hcur]
    refine ⟨_, _, rfl, ?_, ?_, ?_, rfl, rfl, ?_, ?_, ?_⟩
    · rw [h3, h2, h1]
    · rw [h3, h2, h1]
    · rw [h3, h2, h1]
    · exact dup_field_text _ _ s (hmem _)
    · exact dup_field_text _ _ _ (by rw [h1]; exact hmem _)
    · exact dup_field_text _ _ _ (by rw [h2, h1]; exact hmem _)

theorem parse_ifinfomsg_state (nh : nlmsghdr) (s : Mon) :
    (parse_ifinfomsg nh s).1.idx = nh.index ∧
    ∃ k, (parse_ifinfomsg nh s).2 = { s with allocs := s.allocs + k } := by
  have hgen : ∀ (attrs : List rtattr) (nif : iface) (t : Mon),
      (parse_ifinfomsg_attrs attrs nif t).1.idx = nif.idx ∧
      ∃ k, (parse_ifinfomsg_attrs attrs nif t).2 = { t with allocs := t.allocs + k } := by
    intro attrs
    induction attrs with
    | nil => intro nif t; exact ⟨rfl, 0, rfl⟩
    | cons a rest ih =>
      intro nif t
      obtain ⟨k, hk⟩ := parse_ifinfomsg_attr_state nif a t
      obtain ⟨i1, k2, i2⟩ := ih (parse_ifinfomsg_attr nif a t).1 (parse_ifinfomsg_attr nif a t).2
      rw [parse_ifinfomsg_attrs]
      refine ⟨i1.trans (parse_ifinfomsg_attr_fields nif a t).1, k + k2, ?_⟩
      rw [i2, hk]; simp [Nat.add_assoc]
  exact hgen nh.attrs _ s

/-- C26: for a `NEWLINK` message on a live slot that `iface_changed` does not suppress,
and with memory for the copies, `add_interface` prints one line, an `upd-net-if` line
whose `--name`, `--hw-addr` and `--mtu` values are those the slot held before; after
that each of the three fields of the slot is a copy of the parsed one where the message
gave one and is left alone where it gave none; the index and the address list of the
slot and every other slot are unchanged. -/
theorem add_interface_update_reports_old_values (nh : nlmsghdr) (runtime_path : List Nat)
    (s : Mon) (cur : iface)
    (htype : nh.nlmsg_type = RTM_NEWLINK)
    (hcur : slot s nh.index = some cur) (hlive : cur.idx ≠ INIT_IF_IDX)
    (hmem : ∀ n, s.nomem n = false)
    (hchg : iface_changed (parse_ifinfomsg nh s).1 cur = true) :
    ∃ r s1 x, add_interface nh runtime_path s = .done r s1 ∧
      s1.emitted = s.emitted ++ [bytes "# " ++ runtime_path ++ bytes " upd-net-if --name "
        ++ show_str cur.name ++ bytes " --hw-addr " ++ show_str cur.hw_addr
        ++ bytes " --mtu " ++ show_str cur.mtu ++ bytes "\n"] ∧
      slot s1 nh.index = some x ∧ x.idx = cur.idx ∧ x.ip_addrs = cur.ip_addrs ∧
      x.name.map Str.text = ((parse_ifinfomsg nh s).1.name.map Str.text).orElse
        (fun _ => cur.name.map Str.text) ∧
      x.hw_addr.map Str.text = ((parse_ifinfomsg nh s).1.hw_addr.map Str.text).orElse
        (fun _ => cur.hw_addr.map Str.text) ∧
      x.mtu.map Str.text = ((parse_ifinfomsg nh s).1.mtu.map Str.text).orElse
        (fun _ => cur.mtu.map Str.text) ∧
      ∀ j, j ≠ nh.index → slot s1 j = slot s j := by
  obtain ⟨hr, _⟩ := slot_some_range s nh.index cur hcur
  obtain ⟨p1, k, p3⟩ := parse_ifinfomsg_state nh s
  have hc0 : slot (parse_ifinfomsg nh s).2 (parse_ifinfomsg nh s).1.idx = some cur := by
    rw [p1, p3]; exact hcur
  have hc1 : ∀ l, slot (emit l (parse_ifinfomsg nh s).2) (parse_ifinfomsg nh s).1.idx
      = some cur := fun l => by rw [slot_emit]; exact hc0
  have hm1 : ∀ l n, (emit l (parse_ifinfomsg nh s).2).nomem n = false := by
    intro l n; rw [p3]; exact hmem n
  obtain ⟨s1, x, hupd, hl, he, _, hx1, hx2, hx3, hx4, hx5⟩ := update_iface_list_spec
    (emit (bytes "# " ++ runtime_path ++ bytes " upd-net-if"
      ++ iface_options cur.name cur.hw_addr cur.mtu ++ bytes "\n") (parse_ifinfomsg nh s).2)
    (parse_ifinfomsg nh s).1 cur (hc1 _) (hm1 _)
  have hs1 : slot s1 nh.index = some cur := by
    rw [slot_congr s1 _ hl, slot_emit, p3]; exact hcur
  have hn1 : ¬ nh.nlmsg_type = RTM_NEWADDR := by rw [htype]; decide
  have hn2 : ¬ nh.nlmsg_type = RTM_DELADDR := by rw [htype]; decide
  have hrun : add_interface nh runtime_path s
      = .done (set_slot s1 (parse_ifinfomsg nh s).1.idx x).uninit
          (set_slot s1 (parse_ifinfomsg nh s).1.idx x) := by
    unfold add_interface
    simp only [hc0]
    rw [if_pos hlive, if_neg (by rw [hchg]; decide)]
    unfold _update_interface
    simp only [hc0]
    rw [hupd]
    simp only [Run.bind]
    rw [if_neg hn1, if_neg hn2]
  rw [p1] at hrun
  refine ⟨_, _, x, hrun, ?_, slot_set_same s1 _ cur x hs1, hx1, hx2, hx3, hx4, hx5, ?_⟩
  · change s1.emitted = _
    have hb : bytes " upd-net-if" ++ bytes " --name " = bytes " upd-net-if --name " := by
      decide
    rw [he, p3]
    simp only [emit, iface_options, List.append_assoc]
    rw [← List.append_assoc (bytes " upd-net-if"), hb]
  · intro j hj
    rw [slot_set_other s1 _ j x hr.1 hj, slot_congr s1 _ hl, slot_emit, p3]
    rfl

/-- Witness of C26: slot 7 holds `eth0` with the MTU 1500 and the address 10.0.0.2; the
message renames it to `lan0` with the MTU 9000. The line printed names `eth0` and 1500;
the slot then holds `lan0` and 9000 and still the address. -/
theorem add_interface_update_reports_old_values_witness :
    (add_interface newlink_lan0 runtime mon_eth0_stale_stack).state.emitted
      = mon_eth0_stale_stack.emitted ++
        [bytes "# /usr/bin/kata-runtime upd-net-if --name eth0 --hw-addr aa:bb:cc:dd:ee:ff --mtu 1500\n"] ∧
    ((slot (add_interface newlink_lan0 runtime mon_eth0_stale_stack).state 7).map fun c =>
        (c.idx, show_str c.name, show_str c.hw_addr, show_str c.mtu))
      = some (7, bytes "lan0", bytes "aa:bb:cc:dd:ee:ff", bytes "9000") ∧
    (slot (add_interface newlink_lan0 runtime mon_eth0_stale_stack).state 7).map addr_texts
      = some [some (bytes "10.0.0.2")] ∧
    ∃ cur, slot mon_eth0_stale_stack 7 = some cur ∧
      ∃ r s1 x, add_interface newlink_lan0 runtime mon_eth0_stale_stack = .done r s1 ∧
        s1.emitted = mon_eth0_stale_stack.emitted ++ [bytes "# " ++ runtime
          ++ bytes " upd-net-if --name " ++ show_str cur.name ++ bytes " --hw-addr "
          ++ show_str cur.hw_addr ++ bytes " --mtu " ++ show_str cur.mtu ++ bytes "\n"] ∧
        slot s1 newlink_lan0.index = some x ∧ x.idx = cur.idx ∧ x.ip_addrs = cur.ip_addrs ∧
        x.name.map Str.text
          = ((parse_ifinfomsg newlink_lan0 mon_eth0_stale_stack).1.name.map Str.text).orElse
            (fun _ => cur.name.map Str.text) ∧
        x.hw_addr.map Str.text
          = ((parse_ifinfomsg newlink_lan0 mon_eth0_stale_stack).1.hw_addr.map Str.text).orElse
            (fun _ => cur.hw_addr.map Str.text) ∧
        x.mtu.map Str.text
          = ((parse_ifinfomsg newlink_lan0 mon_eth0_stale_stack).1.mtu.map Str.text).orElse
            (fun _ => cur.mtu.map Str.text) ∧
        ∀ j, j ≠ newlink_lan0.index → slot s1 j = slot mon_eth0_stale_stack j :=
  ⟨by decide, by decide, by decide, _, rfl,
    add_interface_update_reports_old_values newlink_lan0 runtime mon_eth0_stale_stack _
      rfl rfl (by decide) (fun _ => rfl) (by decide)⟩

end Netmon
